/-
Verification development for the AR tile-visualizer compositing pipeline.

The TypeScript sources are shallowly embedded: JavaScript numbers are
modelled as exact rationals (ℚ), pixel buffers (ImageData) as structures
with a flat byte function, and canvas drawing as the list of draw
commands a function emits.  Each embedded definition mirrors one source
function; theorems below settle the frozen claims about the spec.
-/
import Mathlib

set_option maxHeartbeats 1000000
set_option maxRecDepth 16000

/-! ## Tile catalog (src/unnamed/part_004): filename → id / display name -/

/-- Character class `\s` of the JavaScript regexes used by the catalog code. -/
def isJsWs (c : Char) : Bool :=
  c = ' ' || c = '\t' || c = '\n' || c = '\r' || c = '\x0b' || c = '\x0c'

/-- Character class `\w` (`[A-Za-z0-9_]`) of the `\b\w` title-case regex. -/
def isJsWordChar (c : Char) : Bool :=
  ('a' ≤ c && c ≤ 'z') || ('A' ≤ c && c ≤ 'Z') || ('0' ≤ c && c ≤ '9') || c = '_'

/-- Characters the sanitized id keeps (`[^a-z0-9-]` is removed). -/
def allowedIdChar (c : Char) : Bool :=
  ('a' ≤ c && c ≤ 'z') || ('0' ≤ c && c ≤ '9') || c = '-'

/-- `filename.replace(/\.[^.]+$/i, "")`: strip a final dot-extension; the
regex needs at least one non-dot character after the last dot. -/
def stripExt (s : List Char) : List Char :=
  let tailRun := s.reverse.takeWhile (fun c => c ≠ '.')
  if tailRun.length < s.length && tailRun.length ≥ 1 then
    s.take (s.length - tailRun.length - 1)
  else s

/-- `str.replace(/class+/g, r)`: collapse each run of characters matching
`p` into the single character `r` (used for `\s+` → `-` and `[-_]+` → space). -/
def collapseRunsAux (p : Char → Bool) (r : Char) : List Char → Bool → List Char
  | [], _ => []
  | c :: rest, prevHit =>
    if p c then
      if prevHit then collapseRunsAux p r rest true
      else r :: collapseRunsAux p r rest true
    else c :: collapseRunsAux p r rest false

def collapseRuns (p : Char → Bool) (r : Char) (s : List Char) : List Char :=
  collapseRunsAux p r s false

/-- `str.replace(/\b\w/g, c => c.toUpperCase())`: uppercase every word
character not preceded by a word character. -/
def titleCaseAux : List Char → Bool → List Char
  | [], _ => []
  | c :: rest, prevWord =>
    (if isJsWordChar c && !prevWord then c.toUpper else c) :: titleCaseAux rest (isJsWordChar c)

def titleCase (s : List Char) : List Char := titleCaseAux s false

/-- The id pipeline of `filenameToIdAndName`:
`base.toLowerCase().replace(/\s+/g,"-").replace(/[^a-z0-9-]/g,"")`. -/
def sanitizedId (filename : List Char) : List Char :=
  (collapseRuns isJsWs '-' ((stripExt filename).map Char.toLower)).filter allowedIdChar

/-- The name pipeline of `filenameToIdAndName`:
`base.replace(/[-_]+/g," ")` followed by `\b\w` title casing. -/
def displayName (filename : List Char) : List Char :=
  titleCase (collapseRuns (fun c => c = '-' || c = '_') ' ' (stripExt filename))

/-- `filenameToIdAndName` (src/unnamed/part_004, lines 26–35): sanitized id
and display name derived from a filename, with the `|| "tile"` and
`|| filename` fallbacks for empty results. -/
def filenameToIdAndName (filename : List Char) : List Char × List Char :=
  (if sanitizedId filename = [] then "tile".data else sanitizedId filename,
   if displayName filename = [] then filename else displayName filename)

inductive TileSurface | wall | floor | both
deriving DecidableEq, Repr

structure TileProduct where
  id : List Char
  name : List Char
  surface : TileSurface
deriving DecidableEq, Repr

structure TilesApiResponse where
  wall : List (List Char)
  floor : List (List Char)
  both : List (List Char)

def folderName : TileSurface → List Char
  | .wall => "wall".data
  | .floor => "floor".data
  | .both => "both".data

def folderFiles (res : TilesApiResponse) : TileSurface → List (List Char)
  | .wall => res.wall
  | .floor => res.floor
  | .both => res.both

/-- One folder pass of `buildCatalogFromFolders`: the entry id is
`folder + "-" + sanitizedId + "-" + filename`; a seen-set drops duplicate
ids.  (The `imageUrl` field, which only packages the folder and the
URI-encoded filename, is not modelled.) -/
def catalogFolderPass (folder : TileSurface) (files : List (List Char))
    (acc : List TileProduct × List (List Char)) : List TileProduct × List (List Char) :=
  files.foldl (fun (acc : List TileProduct × List (List Char)) filename =>
    let r := filenameToIdAndName filename
    let uniqueId := folderName folder ++ "-".data ++ r.1 ++ "-".data ++ filename
    if uniqueId ∈ acc.2 then acc
    else (acc.1 ++ [⟨uniqueId, r.2, folder⟩], acc.2 ++ [uniqueId])) acc

/-- `buildCatalogFromFolders` (src/unnamed/part_004, lines 40–61). -/
def buildCatalogFromFolders (res : TilesApiResponse) : List TileProduct :=
  (catalogFolderPass .both res.both
    (catalogFolderPass .floor res.floor
      (catalogFolderPass .wall res.wall ([], [])))).1

/-! ### C10 lemmas and theorems -/

lemma filenameToIdAndName_fst_allowed (filename : List Char) :
    (filenameToIdAndName filename).1 ≠ [] ∧
    ∀ c ∈ (filenameToIdAndName filename).1, allowedIdChar c = true := by
  have h1 : (filenameToIdAndName filename).1
      = if sanitizedId filename = [] then "tile".data else sanitizedId filename := rfl
  rw [h1]
  by_cases h : sanitizedId filename = []
  · rw [if_pos h]
    refine ⟨by decide, ?_⟩
    intro c hc
    fin_cases hc <;> decide
  · rw [if_neg h]
    refine ⟨h, ?_⟩
    intro c hc
    exact (List.mem_filter.mp hc).2

lemma mem_catalogFolderPass (folder : TileSurface) (files : List (List Char))
    (acc : List TileProduct × List (List Char)) (e : TileProduct)
    (h : e ∈ (catalogFolderPass folder files acc).1) :
    e ∈ acc.1 ∨ ∃ filename ∈ files,
      e = ⟨folderName folder ++ "-".data ++ (filenameToIdAndName filename).1 ++ "-".data ++ filename,
           (filenameToIdAndName filename).2, folder⟩ := by
  induction files generalizing acc with
  | nil => exact Or.inl h
  | cons f fs ih =>
    rw [catalogFolderPass, List.foldl_cons] at h
    rcases ih _ h with h1 | h2
    · by_cases hm : (folderName folder ++ "-".data ++ (filenameToIdAndName f).1 ++ "-".data ++ f) ∈ acc.2
      · rw [if_pos hm] at h1
        exact Or.inl h1
      · rw [if_neg hm] at h1
        rcases List.mem_append.mp h1 with ha | hb
        · exact Or.inl ha
        · refine Or.inr ⟨f, List.mem_cons_self _ _, ?_⟩
          simpa using hb
    · obtain ⟨fn, hfn, he⟩ := h2
      exact Or.inr ⟨fn, List.mem_cons_of_mem _ hfn, he⟩

/-- C10 counterexample: for the discovery response `{wall: ["A.png"]}` the
catalog entry's id is `"wall-a-A.png"`, which embeds the raw filename and so
contains the non-allowed characters `'A'` and `'.'`. -/
theorem catalog_id_not_sanitized :
    (buildCatalogFromFolders ⟨["A.png".data], [], []⟩).map TileProduct.id
      = ["wall-a-A.png".data]
    ∧ 'A' ∈ "wall-a-A.png".data ∧ allowedIdChar 'A' = false := by
  refine ⟨by decide, by decide, by decide⟩

/-- C10 (amended): every catalog entry comes from some folder and filename of
the response; its id is `folder + "-" + sanitizedId + "-" + rawFilename`
(so the id itself may contain arbitrary filename characters), where the
sanitized component is nonempty and contains only `a-z`, `0-9`, `'-'`; the
display name is the filename with hyphen/underscore runs mapped to spaces
and title case applied (the `filenameToIdAndName` name component). -/
theorem catalog_entry_structure (res : TilesApiResponse) (e : TileProduct)
    (he : e ∈ buildCatalogFromFolders res) :
    ∃ folder filename, filename ∈ folderFiles res folder ∧
      e.id = folderName folder ++ "-".data ++ (filenameToIdAndName filename).1
               ++ "-".data ++ filename ∧
      e.name = (filenameToIdAndName filename).2 ∧
      e.surface = folder ∧
      (filenameToIdAndName filename).1 ≠ [] ∧
      ∀ c ∈ (filenameToIdAndName filename).1, allowedIdChar c = true := by
  unfold buildCatalogFromFolders at he
  rcases mem_catalogFolderPass _ _ _ _ he with h1 | h2
  · rcases mem_catalogFolderPass _ _ _ _ h1 with h3 | h4
    · rcases mem_catalogFolderPass _ _ _ _ h3 with h5 | h6
      · simp at h5
      · obtain ⟨fn, hfn, hee⟩ := h6
        exact ⟨.wall, fn, hfn, by rw [hee], by rw [hee], by rw [hee],
          (filenameToIdAndName_fst_allowed fn).1, (filenameToIdAndName_fst_allowed fn).2⟩
    · obtain ⟨fn, hfn, hee⟩ := h4
      exact ⟨.floor, fn, hfn, by rw [hee], by rw [hee], by rw [hee],
        (filenameToIdAndName_fst_allowed fn).1, (filenameToIdAndName_fst_allowed fn).2⟩
  · obtain ⟨fn, hfn, hee⟩ := h2
    exact ⟨.both, fn, hfn, by rw [hee], by rw [hee], by rw [hee],
      (filenameToIdAndName_fst_allowed fn).1, (filenameToIdAndName_fst_allowed fn).2⟩

/-- Witness for `catalog_entry_structure` at a concrete response and entry. -/
theorem catalog_entry_structure_witness :
    ∃ folder filename,
      filename ∈ folderFiles ⟨["my tile.png".data], [], []⟩ folder ∧
      (⟨"wall-my-tile-my tile.png".data, "My Tile".data, .wall⟩ : TileProduct).id
        = folderName folder ++ "-".data ++ (filenameToIdAndName filename).1
            ++ "-".data ++ filename ∧
      (⟨"wall-my-tile-my tile.png".data, "My Tile".data, .wall⟩ : TileProduct).name
        = (filenameToIdAndName filename).2 ∧
      (⟨"wall-my-tile-my tile.png".data, "My Tile".data, .wall⟩ : TileProduct).surface = folder ∧
      (filenameToIdAndName filename).1 ≠ [] ∧
      ∀ c ∈ (filenameToIdAndName filename).1, allowedIdChar c = true :=
  catalog_entry_structure ⟨["my tile.png".data], [], []⟩
    ⟨"wall-my-tile-my tile.png".data, "My Tile".data, .wall⟩ (by decide)

/-! ## Core pixel data model

`ImageData` is a width×height RGBA raster; `data j` is the byte at flat
index `j` (4 bytes per pixel, row-major).  JavaScript numbers are ℚ. -/

structure Point2D where
  x : ℚ
  y : ℚ
deriving DecidableEq, Repr

/-- Quad: 4 corners in order [top-left, top-right, bottom-right, bottom-left]. -/
structure Quad where
  p0 : Point2D
  p1 : Point2D
  p2 : Point2D
  p3 : Point2D
deriving DecidableEq, Repr

structure ImageData where
  width : ℕ
  height : ℕ
  data : ℕ → ℕ

/-! ## Depth-based wall mask (src/lib/occlusionMask.ts, lines 500–579) -/

/-- `sampleDepth` (occlusionMask.ts, lines 500–522): bilinear sample of the
depth array at fractional coordinates, with clamped integer indices.  The
depth array is a flat `ℤ → ℚ` function indexed as `y * depthWidth + x`. -/
def sampleDepth (depth : ℤ → ℚ) (depthWidth depthHeight : ℤ) (x y : ℚ) : ℚ :=
  let x0 : ℤ := max 0 (min (depthWidth - 1) ⌊x⌋)
  let y0 : ℤ := max 0 (min (depthHeight - 1) ⌊y⌋)
  let x1 : ℤ := max 0 (min (depthWidth - 1) (x0 + 1))
  let y1 : ℤ := max 0 (min (depthHeight - 1) (y0 + 1))
  let fx : ℚ := x - (x0 : ℚ)
  let fy : ℚ := y - (y0 : ℚ)
  let v00 := depth (y0 * depthWidth + x0)
  let v10 := depth (y0 * depthWidth + x1)
  let v01 := depth (y1 * depthWidth + x0)
  let v11 := depth (y1 * depthWidth + x1)
  (1 - fx) * (1 - fy) * v00 + fx * (1 - fy) * v10 + (1 - fx) * fy * v01 + fx * fy * v11

/-- The five depth samples of `buildWallMask`: the four quad corners then
the centroid, each scaled into depth-map coordinates. -/
def wallMaskSamples (depth : ℤ → ℚ) (depthWidth depthHeight : ℤ) (quad : Quad)
    (outputWidth outputHeight : ℕ) : List ℚ :=
  let scaleX : ℚ := (depthWidth : ℚ) / (outputWidth : ℚ)
  let scaleY : ℚ := (depthHeight : ℚ) / (outputHeight : ℚ)
  let depthAt := fun (px py : ℚ) => sampleDepth depth depthWidth depthHeight (px * scaleX) (py * scaleY)
  let midX := (quad.p0.x + quad.p1.x + quad.p2.x + quad.p3.x) / 4
  let midY := (quad.p0.y + quad.p1.y + quad.p2.y + quad.p3.y) / 4
  [depthAt quad.p0.x quad.p0.y, depthAt quad.p1.x quad.p1.y,
   depthAt quad.p2.x quad.p2.y, depthAt quad.p3.x quad.p3.y,
   depthAt midX midY]

/-- `wallDepth`: ascending sort of the samples (JS `sort((a,b)=>a-b)`), then
the element at `Math.floor(length / 2)`. -/
def wallDepthOf (depth : ℤ → ℚ) (depthWidth depthHeight : ℤ) (quad : Quad)
    (outputWidth outputHeight : ℕ) : ℚ :=
  let samples := wallMaskSamples depth depthWidth depthHeight quad outputWidth outputHeight
  (List.insertionSort (· ≤ ·) samples).getD (samples.length / 2) 0

/-- `delta = Math.max(1e-5, Math.abs(wallDepth) * tolerancePercent)`. -/
def deltaOf (depth : ℤ → ℚ) (depthWidth depthHeight : ℤ) (quad : Quad)
    (outputWidth outputHeight : ℕ) (tolerancePercent : ℚ) : ℚ :=
  max (1 / 100000)
    (|wallDepthOf depth depthWidth depthHeight quad outputWidth outputHeight| * tolerancePercent)

/-- `buildWallMask` (occlusionMask.ts, lines 533–579): alpha 255 where the
bilinear depth sample is within tolerance of the median corner depth, 0
elsewhere; RGB fixed at 255. -/
def buildWallMask (depth : ℤ → ℚ) (depthWidth depthHeight : ℤ) (quad : Quad)
    (outputWidth outputHeight : ℕ) (tolerancePercent : ℚ)
    (depthCloserIsHigher : Bool) : ImageData :=
  let scaleX : ℚ := (depthWidth : ℚ) / (outputWidth : ℚ)
  let scaleY : ℚ := (depthHeight : ℚ) / (outputHeight : ℚ)
  let depthAt := fun (px py : ℚ) => sampleDepth depth depthWidth depthHeight (px * scaleX) (py * scaleY)
  let wallDepth := wallDepthOf depth depthWidth depthHeight quad outputWidth outputHeight
  let delta := deltaOf depth depthWidth depthHeight quad outputWidth outputHeight tolerancePercent
  { width := outputWidth
    height := outputHeight
    data := fun j =>
      if j < 4 * (outputWidth * outputHeight) then
        if j % 4 = 3 then
          let px : ℕ := (j / 4) % outputWidth
          let py : ℕ := (j / 4) / outputWidth
          let d := depthAt (px : ℚ) (py : ℚ)
          let isWall := if depthCloserIsHigher then d ≤ wallDepth + delta
                        else wallDepth - delta ≤ d
          if isWall then 255 else 0
        else 255
      else 0 }

/-! ### C4 lemmas and theorems -/

lemma sampleDepth_const (depth : ℤ → ℚ) (v : ℚ) (depthWidth depthHeight : ℤ)
    (hW : 1 ≤ depthWidth) (hH : 1 ≤ depthHeight)
    (hconst : ∀ i : ℤ, 0 ≤ i → i < depthWidth * depthHeight → depth i = v)
    (x y : ℚ) : sampleDepth depth depthWidth depthHeight x y = v := by
  unfold sampleDepth
  dsimp only
  have hx0lo : (0:ℤ) ≤ max 0 (min (depthWidth - 1) ⌊x⌋) := le_max_left _ _
  have hx0hi : max 0 (min (depthWidth - 1) ⌊x⌋) ≤ depthWidth - 1 :=
    max_le (by omega) (min_le_left _ _)
  have hy0lo : (0:ℤ) ≤ max 0 (min (depthHeight - 1) ⌊y⌋) := le_max_left _ _
  have hy0hi : max 0 (min (depthHeight - 1) ⌊y⌋) ≤ depthHeight - 1 :=
    max_le (by omega) (min_le_left _ _)
  have hx1lo : (0:ℤ) ≤ max 0 (min (depthWidth - 1) (max 0 (min (depthWidth - 1) ⌊x⌋) + 1)) :=
    le_max_left _ _
  have hx1hi : max 0 (min (depthWidth - 1) (max 0 (min (depthWidth - 1) ⌊x⌋) + 1)) ≤ depthWidth - 1 :=
    max_le (by omega) (min_le_left _ _)
  have hy1lo : (0:ℤ) ≤ max 0 (min (depthHeight - 1) (max 0 (min (depthHeight - 1) ⌊y⌋) + 1)) :=
    le_max_left _ _
  have hy1hi : max 0 (min (depthHeight - 1) (max 0 (min (depthHeight - 1) ⌊y⌋) + 1)) ≤ depthHeight - 1 :=
    max_le (by omega) (min_le_left _ _)
  have hidx : ∀ a b : ℤ, 0 ≤ a → a ≤ depthHeight - 1 → 0 ≤ b → b ≤ depthWidth - 1 →
      depth (a * depthWidth + b) = v := by
    intro a b ha0 ha1 hb0 hb1
    apply hconst
    · positivity
    · have h1 : a * depthWidth ≤ (depthHeight - 1) * depthWidth :=
        mul_le_mul_of_nonneg_right ha1 (by omega)
      have h2 : (depthHeight - 1) * depthWidth = depthHeight * depthWidth - depthWidth := by ring
      have h3 : depthWidth * depthHeight = depthHeight * depthWidth := by ring
      omega
  rw [hidx _ _ hy0lo hy0hi hx0lo hx0hi, hidx _ _ hy0lo hy0hi hx1lo hx1hi,
    hidx _ _ hy1lo hy1hi hx0lo hx0hi, hidx _ _ hy1lo hy1hi hx1lo hx1hi]
  ring

lemma wallDepthOf_const (depth : ℤ → ℚ) (v : ℚ) (depthWidth depthHeight : ℤ)
    (hW : 1 ≤ depthWidth) (hH : 1 ≤ depthHeight)
    (hconst : ∀ i : ℤ, 0 ≤ i → i < depthWidth * depthHeight → depth i = v)
    (quad : Quad) (outputWidth outputHeight : ℕ) :
    wallDepthOf depth depthWidth depthHeight quad outputWidth outputHeight = v := by
  have hs : wallMaskSamples depth depthWidth depthHeight quad outputWidth outputHeight
      = [v, v, v, v, v] := by
    unfold wallMaskSamples
    simp only [sampleDepth_const depth v depthWidth depthHeight hW hH hconst]
  unfold wallDepthOf
  rw [hs]
  have hlen : (List.insertionSort (fun a b => a ≤ b) [v, v, v, v, v]).length = 5 :=
    (List.length_insertionSort _ _)
  have hmem : (List.insertionSort (fun a b => a ≤ b) [v, v, v, v, v]).getD 2 0
      ∈ List.insertionSort (fun a b => a ≤ b) [v, v, v, v, v] := by
    rw [List.getD_eq_getElem _ _ (by rw [hlen]; omega)]
    exact List.getElem_mem _
  have := (List.perm_insertionSort (fun a b => a ≤ b) [v, v, v, v, v]).mem_iff.mp hmem
  simp only [List.length_cons, List.length_nil] at *
  rcases List.mem_cons.mp this with h | h
  · exact h
  · rcases List.mem_cons.mp h with h | h
    · exact h
    · rcases List.mem_cons.mp h with h | h
      · exact h
      · rcases List.mem_cons.mp h with h | h
        · exact h
        · simpa using h

/-- C4: on a constant depth map every output pixel of `buildWallMask` is
classified as wall (alpha 255) for either polarity flag; the median
`wallDepth` equals the constant value and `delta` is strictly positive. -/
theorem buildWallMask_const_depth (depth : ℤ → ℚ) (v : ℚ) (depthWidth depthHeight : ℤ)
    (hW : 1 ≤ depthWidth) (hH : 1 ≤ depthHeight)
    (hconst : ∀ i : ℤ, 0 ≤ i → i < depthWidth * depthHeight → depth i = v)
    (quad : Quad) (outputWidth outputHeight : ℕ)
    (how : 0 < outputWidth) (hoh : 0 < outputHeight)
    (tolerancePercent : ℚ) (depthCloserIsHigher : Bool) :
    (∀ px py : ℕ, px < outputWidth → py < outputHeight →
      (buildWallMask depth depthWidth depthHeight quad outputWidth outputHeight
          tolerancePercent depthCloserIsHigher).data (4 * (py * outputWidth + px) + 3) = 255)
    ∧ wallDepthOf depth depthWidth depthHeight quad outputWidth outputHeight = v
    ∧ 0 < deltaOf depth depthWidth depthHeight quad outputWidth outputHeight tolerancePercent := by
  have hwd := wallDepthOf_const depth v depthWidth depthHeight hW hH hconst quad
    outputWidth outputHeight
  have hdelta : 0 < deltaOf depth depthWidth depthHeight quad outputWidth outputHeight
      tolerancePercent := lt_max_of_lt_left (by norm_num)
  refine ⟨?_, hwd, hdelta⟩
  intro px py hpx hpy
  unfold buildWallMask
  have hin : 4 * (py * outputWidth + px) + 3 < 4 * (outputWidth * outputHeight) := by
    have : py * outputWidth + px + 1 ≤ outputWidth * outputHeight := by
      calc py * outputWidth + px + 1 ≤ py * outputWidth + outputWidth := by omega
        _ = (py + 1) * outputWidth := by ring
        _ ≤ outputHeight * outputWidth := Nat.mul_le_mul_right _ (by omega)
        _ = outputWidth * outputHeight := Nat.mul_comm _ _
    omega
  have hmod : (4 * (py * outputWidth + px) + 3) % 4 = 3 := by omega
  have hdiv : (4 * (py * outputWidth + px) + 3) / 4 = py * outputWidth + px := by omega
  dsimp only
  rw [if_pos hin, if_pos hmod, hdiv]
  have hpx2 : (py * outputWidth + px) % outputWidth = px := by
    rw [Nat.add_comm, Nat.add_mul_mod_self_right, Nat.mod_eq_of_lt hpx]
  have hpy2 : (py * outputWidth + px) / outputWidth = py := by
    rw [Nat.add_comm, Nat.add_mul_div_right _ _ (by omega : 0 < outputWidth),
      Nat.div_eq_of_lt hpx, Nat.zero_add]
  rw [hpx2, hpy2]
  have hd := sampleDepth_const depth v depthWidth depthHeight hW hH hconst
    ((px : ℚ) * ((depthWidth : ℚ) / (outputWidth : ℚ)))
    ((py : ℚ) * ((depthHeight : ℚ) / (outputHeight : ℚ)))
  rw [hd, hwd]
  have hdle : 0 ≤ deltaOf depth depthWidth depthHeight quad outputWidth outputHeight
      tolerancePercent := le_of_lt hdelta
  cases depthCloserIsHigher with
  | true => simp only [if_true]; rw [if_pos (by linarith)]
  | false => simp only [Bool.false_eq_true, if_false]; rw [if_pos (by linarith)]

/-- Witness for `buildWallMask_const_depth`: constant depth 7 on a 2×2 map,
2×2 output, unit-square-ish quad, both hypotheses discharged concretely. -/
theorem buildWallMask_const_depth_witness :
    (1:ℤ) ≤ 2 ∧ (0:ℕ) < 2 ∧
    ((∀ px py : ℕ, px < 2 → py < 2 →
      (buildWallMask (fun _ => 7) 2 2 ⟨⟨0,0⟩,⟨2,0⟩,⟨2,2⟩,⟨0,2⟩⟩ 2 2 (3/20) true).data
        (4 * (py * 2 + px) + 3) = 255)
    ∧ wallDepthOf (fun _ => 7) 2 2 ⟨⟨0,0⟩,⟨2,0⟩,⟨2,2⟩,⟨0,2⟩⟩ 2 2 = 7
    ∧ 0 < deltaOf (fun _ => 7) 2 2 ⟨⟨0,0⟩,⟨2,0⟩,⟨2,2⟩,⟨0,2⟩⟩ 2 2 (3/20)) :=
  ⟨by norm_num, by norm_num,
    buildWallMask_const_depth (fun _ => 7) 7 2 2 (by norm_num) (by norm_num)
      (fun _ _ _ => rfl) ⟨⟨0,0⟩,⟨2,0⟩,⟨2,2⟩,⟨0,2⟩⟩ 2 2 (by norm_num) (by norm_num)
      (3/20) true⟩

/-! ## Mask builders (src/lib/occlusionMask.ts)

`Math.hypot` and other irrational-valued primitives are abstracted as
function parameters (`hypot : ℚ → ℚ → ℚ`); no claim below depends on the
numeric value of a hypotenuse. -/

/-- JavaScript `Math.round`: round half toward +∞. -/
def jsRound (q : ℚ) : ℤ := ⌊q + 1/2⌋

/-- `combineMasks` (occlusionMask.ts, lines 64–80): RGB white, alpha =
`min(a, b)` per pixel. -/
def combineMasks (width height : ℕ) (maskA maskB : ImageData) : ImageData :=
  { width := width
    height := height
    data := fun j =>
      if j < width * height * 4 then
        if j % 4 = 3 then min (maskA.data j) (maskB.data j) else 255
      else 0 }

/-- `occlusionMaskToWallMask` (occlusionMask.ts, lines 189–200): RGB white,
alpha inverted (`255 - v`). -/
def occlusionMaskToWallMask (occlusionMask : ImageData) : ImageData :=
  { width := occlusionMask.width
    height := occlusionMask.height
    data := fun j =>
      if j < occlusionMask.width * occlusionMask.height * 4 then
        if j % 4 = 3 then 255 - occlusionMask.data j else 255
      else 0 }

/-- Clamped pixel fetch `get(x, y)` used throughout `smoothWallMask`:
coordinates are clamped into `[0, width-1] × [0, height-1]`. -/
def clampedGet (alpha : ℕ → ℕ) (width height : ℕ) (x y : ℤ) : ℕ :=
  alpha ((max 0 (min ((height : ℤ) - 1) y)).toNat * width + (max 0 (min ((width : ℤ) - 1) x)).toNat)

/-- The `(2r+1)×(2r+1)` window of clamped values around `(x, y)`. -/
def windowVals (f : ℤ → ℤ → ℕ) (r : ℕ) (x y : ℤ) : List ℕ :=
  (List.range (2 * r + 1)).flatMap fun dy =>
    (List.range (2 * r + 1)).map fun dx =>
      f (x + (dx : ℤ) - (r : ℤ)) (y + (dy : ℤ) - (r : ℤ))

/-- `smoothWallMask` (occlusionMask.ts, lines 206–272): morphological close
(max filter then min filter, radius clamped to `[0,5]`), then an optional
box blur (radius clamped to `[0,4]`); output has RGB white and the smoothed
alpha. -/
def smoothWallMask (mask : ImageData) (closeRadiusOpt edgeBlurPxOpt : ℤ) : ImageData :=
  let width := mask.width
  let height := mask.height
  let closeRadius := (max 0 (min 5 closeRadiusOpt)).toNat
  let edgeBlurPx := (max 0 (min 4 edgeBlurPxOpt)).toNat
  let alpha0 : ℕ → ℕ := fun i => mask.data (i * 4 + 3)
  let alpha1 : ℕ → ℕ :=
    if closeRadius > 0 then
      let next : ℕ → ℕ := fun i =>
        (windowVals (clampedGet alpha0 width height) closeRadius
          ((i % width : ℕ) : ℤ) ((i / width : ℕ) : ℤ)).foldl max 0
      fun i =>
        (windowVals (clampedGet next width height) closeRadius
          ((i % width : ℕ) : ℤ) ((i / width : ℕ) : ℤ)).foldl min 255
    else alpha0
  let alpha2 : ℕ → ℕ :=
    if edgeBlurPx > 0 then
      let size : ℕ := (2 * edgeBlurPx + 1) ^ 2
      fun i =>
        (jsRound (((windowVals (clampedGet alpha1 width height) edgeBlurPx
          ((i % width : ℕ) : ℤ) ((i / width : ℕ) : ℤ)).foldl (· + ·) 0 : ℚ) / (size : ℚ))).toNat
    else alpha1
  { width := width
    height := height
    data := fun j =>
      if j < width * height * 4 then
        if j % 4 = 3 then alpha2 (j / 4) else 255
      else 0 }

/-- Luminance `0.299R + 0.587G + 0.114B` of pixel `i` (flat index). -/
def grayAt (img : ImageData) (i : ℕ) : ℚ :=
  299/1000 * (img.data (i * 4) : ℚ) + 587/1000 * (img.data (i * 4 + 1) : ℚ)
    + 114/1000 * (img.data (i * 4 + 2) : ℚ)

/-- Sobel gradient magnitude at pixel `(x, y)`; zero outside the interior
`1 ≤ x ≤ w-2, 1 ≤ y ≤ h-2` exactly as the source only fills interior
entries of the `magnitude` array. -/
def sobelMag (hypot : ℚ → ℚ → ℚ) (img : ImageData) (x y : ℕ) : ℚ :=
  let w := img.width
  let h := img.height
  if 1 ≤ x ∧ x + 1 < w ∧ 1 ≤ y ∧ y + 1 < h then
    let idx := y * w + x
    let a := grayAt img (idx - w - 1)
    let b := grayAt img (idx - w)
    let c := grayAt img (idx - w + 1)
    let d := grayAt img (idx - 1)
    let f := grayAt img (idx + 1)
    let g := grayAt img (idx + w - 1)
    let hh := grayAt img (idx + w)
    let iVal := grayAt img (idx + w + 1)
    let gx := -a - 2*d - g + c + 2*f + iVal
    let gy := -a - 2*b - c + g + 2*hh + iVal
    hypot gx gy
  else 0

/-- Sum of all Sobel magnitudes (only interior pixels contribute). -/
def sobelSum (hypot : ℚ → ℚ → ℚ) (img : ImageData) : ℚ :=
  ((List.range img.height).flatMap fun y =>
    (List.range img.width).map fun x => sobelMag hypot img x y).foldl (· + ·) 0

/-- `threshold = Math.max(8, avg * 0.85)` with `avg = sum / (w*h)`. -/
def sobelThreshold (hypot : ℚ → ℚ → ℚ) (img : ImageData) : ℚ :=
  max 8 (sobelSum hypot img / ((img.width : ℚ) * (img.height : ℚ)) * (17/20))

/-- Binary edge map: 255 where the magnitude exceeds the threshold. -/
def edgeBinary (hypot : ℚ → ℚ → ℚ) (img : ImageData) : ℕ → ℕ := fun i =>
  if sobelMag hypot img (i % img.width) (i / img.width) > sobelThreshold hypot img
  then 255 else 0

/-- One 8-connected binary dilation pass over a `w × h` grid. -/
def dilatePass (w h : ℕ) (mask : ℕ → ℕ) : ℕ → ℕ := fun idx =>
  let x := idx % w
  let y := idx / w
  if mask idx ≠ 0 then 255
  else if ((List.range 3).flatMap fun ky => (List.range 3).map fun kx =>
      ((ky : ℤ) - 1 + y, (kx : ℤ) - 1 + x)).any
      (fun p => decide (0 ≤ p.2 ∧ p.2 < (w : ℤ) ∧ 0 ≤ p.1 ∧ p.1 < (h : ℤ) ∧
        mask (p.1.toNat * w + p.2.toNat) ≠ 0)) then 255
  else 0

/-- 3×3 box blur over in-bounds neighbours, rounded (`softened` array). -/
def softenPass (w h : ℕ) (mask : ℕ → ℕ) : ℕ → ℕ := fun idx =>
  let x := idx % w
  let y := idx / w
  let vals := ((List.range 3).flatMap fun ky => (List.range 3).map fun kx =>
      ((ky : ℤ) - 1 + y, (kx : ℤ) - 1 + x)).filterMap
      (fun p => if 0 ≤ p.2 ∧ p.2 < (w : ℤ) ∧ 0 ≤ p.1 ∧ p.1 < (h : ℤ)
        then some (mask (p.1.toNat * w + p.2.toNat)) else none)
  let sumVals : ℕ := vals.foldl (· + ·) 0
  (jsRound ((sumVals : ℚ) / (max 1 vals.length : ℚ))).toNat

/-- The shared Sobel → dilate → soften pixel pipeline of `buildOcclusionMask`
and `buildEdgeMask`. -/
def edgePipeline (hypot : ℚ → ℚ → ℚ) (img : ImageData) (dilationIterations : ℕ) : ℕ → ℕ :=
  softenPass img.width img.height
    ((dilatePass img.width img.height)^[dilationIterations] (edgeBinary hypot img))

/-- `buildOcclusionMask` (occlusionMask.ts, lines 88–184): the softened edge
value is stored in all four channels. -/
def buildOcclusionMask (hypot : ℚ → ℚ → ℚ) (img : ImageData)
    (dilationIterations : ℕ := 6) : ImageData :=
  if img.width = 0 ∨ img.height = 0 then ⟨img.width, img.height, fun _ => 0⟩
  else
    { width := img.width
      height := img.height
      data := fun j =>
        if j < img.width * img.height * 4 then edgePipeline hypot img dilationIterations (j / 4)
        else 0 }

/-- `buildEdgeMask` (occlusionMask.ts, lines 278–372): same pipeline and
output convention as `buildOcclusionMask`. -/
def buildEdgeMask (hypot : ℚ → ℚ → ℚ) (img : ImageData)
    (dilationIterations : ℕ := 6) : ImageData :=
  if img.width = 0 ∨ img.height = 0 then ⟨img.width, img.height, fun _ => 0⟩
  else
    { width := img.width
      height := img.height
      data := fun j =>
        if j < img.width * img.height * 4 then edgePipeline hypot img dilationIterations (j / 4)
        else 0 }

/-- One dequeue step of the border flood fill `fillWallFromBorder`
(occlusionMask.ts, lines 378–408): `push` marks the cell as wall and
enqueues it unless it is a barrier or already wall. -/
def floodPush (barrier : ℕ → Bool) (st : (ℕ → ℕ) × List ℕ) (idx : ℕ) : (ℕ → ℕ) × List ℕ :=
  if barrier idx || st.1 idx ≠ 0 then st
  else (Function.update st.1 idx 255, st.2 ++ [idx])

/-- The BFS loop of `fillWallFromBorder`, with explicit fuel.  Each cell is
marked before being enqueued and never unmarked, so at most `w*h` cells are
ever dequeued; the fuel passed by `fillWallFromBorder` dominates that bound
and the recursion never exhausts it. -/
def floodLoop (barrier : ℕ → Bool) (w h : ℕ) : ℕ → ((ℕ → ℕ) × List ℕ) → (ℕ → ℕ)
  | 0, st => st.1
  | fuel + 1, st =>
    match hq : st.2 with
    | [] => st.1
    | idx :: rest =>
      let x := idx % w
      let y := idx / w
      let st1 := (st.1, rest)
      let st2 := if 0 < x then floodPush barrier st1 (idx - 1) else st1
      let st3 := if x < w - 1 then floodPush barrier st2 (idx + 1) else st2
      let st4 := if 0 < y then floodPush barrier st3 (idx - w) else st3
      let st5 := if y < h - 1 then floodPush barrier st4 (idx + w) else st4
      floodLoop barrier w h fuel st5

/-- `fillWallFromBorder` (occlusionMask.ts, lines 378–408): flood-fill wall
from the image border, with dilated edges as barriers. -/
def fillWallFromBorder (w h : ℕ) (edgeBarrier : ℕ → ℕ) : ℕ → ℕ :=
  let barrier : ℕ → Bool := fun i => edgeBarrier i ≠ 0
  let st0 : (ℕ → ℕ) × List ℕ := (fun _ => 0, [])
  let st1 := (List.range w).foldl (fun st x =>
    floodPush barrier (floodPush barrier st x) ((h - 1) * w + x)) st0
  let st2 := (List.range h).foldl (fun st y =>
    floodPush barrier (floodPush barrier st (y * w)) (y * w + (w - 1))) st1
  floodLoop barrier w h (w * h + 2 * (w + h) + 1) st2

/-- `buildWallMaskFromEdges` (occlusionMask.ts, lines 414–497): Sobel
edges (same arithmetic as `buildEdgeMask`), dilation, border flood fill,
3×3 soften; output has RGB white and alpha = softened wall value. -/
def buildWallMaskFromEdges (hypot : ℚ → ℚ → ℚ) (img : ImageData)
    (dilationIterations : ℕ := 6) : ImageData :=
  if img.width = 0 ∨ img.height = 0 then ⟨img.width, img.height, fun _ => 0⟩
  else
    let edgeBarrier := (dilatePass img.width img.height)^[dilationIterations]
      (edgeBinary hypot img)
    let wall := fillWallFromBorder img.width img.height edgeBarrier
    let softened := softenPass img.width img.height wall
    { width := img.width
      height := img.height
      data := fun j =>
        if j < img.width * img.height * 4 then
          if j % 4 = 3 then softened (j / 4) else 255
        else 0 }

/-- `createQuadMaskImageData` (occlusionMask.ts, lines 16–59): 255 in all
four channels for pixels whose center passes the same-sign cross-product
test against the inset quad, all-zero bytes elsewhere.  (`points.length < 4`
cannot occur for the 4-field `Quad` type.) -/
def createQuadMaskImageData (hypot : ℚ → ℚ → ℚ) (width height : ℕ) (points : Quad)
    (insetPx : ℚ := 2) : ImageData :=
  let cx := (points.p0.x + points.p1.x + points.p2.x + points.p3.x) / 4
  let cy := (points.p0.y + points.p1.y + points.p2.y + points.p3.y) / 4
  let inset : Point2D → Point2D := fun p =>
    let dx := p.x - cx
    let dy := p.y - cy
    let dist0 := hypot dx dy
    let dist := if dist0 = 0 then 1 else dist0
    let scale := max 0 (1 - insetPx / dist)
    ⟨cx + dx * scale, cy + dy * scale⟩
  let q0 := inset points.p0
  let q1 := inset points.p1
  let q2 := inset points.p2
  let q3 := inset points.p3
  let cross : Point2D → Point2D → ℚ × ℚ → ℚ := fun a b q =>
    (b.x - a.x) * (q.2 - a.y) - (b.y - a.y) * (q.1 - a.x)
  let inside : ℚ → ℚ → Prop := fun x y =>
    let c0 := cross q0 q1 (x, y)
    let c1 := cross q1 q2 (x, y)
    let c2 := cross q2 q3 (x, y)
    let c3 := cross q3 q0 (x, y)
    (0 ≤ c0 ∧ 0 ≤ c1 ∧ 0 ≤ c2 ∧ 0 ≤ c3) ∨ (c0 ≤ 0 ∧ c1 ≤ 0 ∧ c2 ≤ 0 ∧ c3 ≤ 0)
  { width := width
    height := height
    data := fun j =>
      if j < width * height * 4 then
        let x := (j / 4) % width
        let y := (j / 4) / width
        if inside ((x : ℚ) + 1/2) ((y : ℚ) + 1/2) then 255 else 0
      else 0 }

/-! ### C7 lemmas and theorems -/

lemma sobelMag_of_tiny (hypot : ℚ → ℚ → ℚ) (img : ImageData) (hw : img.width = 1)
    (x y : ℕ) : sobelMag hypot img x y = 0 := by
  unfold sobelMag
  rw [if_neg]
  rw [hw]
  omega

lemma edgeBinary_zeroFn (hypot : ℚ → ℚ → ℚ) (img : ImageData)
    (hmag : ∀ x y, sobelMag hypot img x y = 0) :
    edgeBinary hypot img = fun _ => 0 := by
  funext i
  unfold edgeBinary
  rw [hmag, if_neg]
  have h8 : (8:ℚ) ≤ sobelThreshold hypot img := le_max_left _ _
  intro h
  linarith

lemma dilatePass_zeroFn (w h : ℕ) : dilatePass w h (fun _ => 0) = fun _ => 0 := by
  funext idx
  unfold dilatePass
  simp

lemma foldl_add_zero_of_all_zero (l : List ℕ) (h : ∀ v ∈ l, v = 0) :
    l.foldl (· + ·) 0 = 0 := by
  induction l with
  | nil => rfl
  | cons a t ih =>
    rw [List.foldl_cons, h a (List.mem_cons_self _ _), Nat.add_zero]
    exact ih fun v hv => h v (List.mem_cons_of_mem _ hv)

lemma softenPass_zeroFn (w h : ℕ) (i : ℕ) : softenPass w h (fun _ => 0) i = 0 := by
  unfold softenPass
  dsimp only
  rw [foldl_add_zero_of_all_zero]
  · norm_num [jsRound]
  · intro v hv
    rcases List.mem_filterMap.mp hv with ⟨p, _, hp⟩
    by_cases hb : 0 ≤ p.2 ∧ p.2 < (w : ℤ) ∧ 0 ≤ p.1 ∧ p.1 < (h : ℤ)
    · rw [if_pos hb] at hp
      exact (Option.some_injective _ hp).symm
    · rw [if_neg hb] at hp
      exact absurd hp (by simp)

lemma edgePipeline_tiny (hypot : ℚ → ℚ → ℚ) (img : ImageData) (hw : img.width = 1)
    (n i : ℕ) : edgePipeline hypot img n i = 0 := by
  unfold edgePipeline
  rw [edgeBinary_zeroFn hypot img (sobelMag_of_tiny hypot img hw),
    Function.iterate_fixed (dilatePass_zeroFn _ _)]
  exact softenPass_zeroFn _ _ _

/-- C7 counterexample: at concrete inputs the red channel of
`buildEdgeMask`, `buildOcclusionMask` and `createQuadMaskImageData` is not
255.  On a 1×1 all-black image the softened edge value 0 is stored in all
four channels; with `insetPx = 0` (so the abstract `hypot` never influences
the result) the pixel (0,0) lies outside the quad
(2,0),(3,0),(3,1),(2,1) and keeps its zero-initialized RGB. -/
theorem mask_rgb_not_white :
    (buildEdgeMask (fun _ _ => 0) ⟨1, 1, fun _ => 0⟩ 6).data 0 ≠ 255
    ∧ (buildOcclusionMask (fun _ _ => 0) ⟨1, 1, fun _ => 0⟩ 6).data 0 ≠ 255
    ∧ (createQuadMaskImageData (fun _ _ => 1) 1 1 ⟨⟨2,0⟩,⟨3,0⟩,⟨3,1⟩,⟨2,1⟩⟩ 0).data 0 ≠ 255 := by
  refine ⟨?_, ?_, ?_⟩
  · unfold buildEdgeMask
    rw [if_neg (by simp)]
    dsimp only
    rw [if_pos (by norm_num), edgePipeline_tiny _ _ rfl]
    norm_num
  · unfold buildOcclusionMask
    rw [if_neg (by simp)]
    dsimp only
    rw [if_pos (by norm_num), edgePipeline_tiny _ _ rfl]
    norm_num
  · unfold createQuadMaskImageData
    norm_num

lemma iteNatEqOrEq (c : Prop) [Decidable c] (a b : ℕ) :
    (if c then a else b) = a ∨ (if c then a else b) = b := by
  by_cases h : c
  · rw [if_pos h]
    exact Or.inl rfl
  · rw [if_neg h]
    exact Or.inr rfl

/-- C7 (amended): `combineMasks`, `occlusionMaskToWallMask`,
`smoothWallMask`, `buildWallMaskFromEdges` and `buildWallMask` fix the R, G
and B channels at 255 at every pixel, with meaningful data only in alpha;
`createQuadMaskImageData` instead writes 255 to all four channels inside
the inset quad and leaves all four channels 0 outside, and
`buildOcclusionMask`/`buildEdgeMask` store the softened edge value in all
four channels (so all four channels of a pixel are always equal). -/
theorem mask_channel_conventions :
    (∀ (w h : ℕ) (A B : ImageData) (j : ℕ), j < w * h * 4 → j % 4 ≠ 3 →
      (combineMasks w h A B).data j = 255)
    ∧ (∀ (m : ImageData) (j : ℕ), j < m.width * m.height * 4 → j % 4 ≠ 3 →
      (occlusionMaskToWallMask m).data j = 255)
    ∧ (∀ (m : ImageData) (cr eb : ℤ) (j : ℕ), j < m.width * m.height * 4 → j % 4 ≠ 3 →
      (smoothWallMask m cr eb).data j = 255)
    ∧ (∀ (hypot : ℚ → ℚ → ℚ) (img : ImageData) (n j : ℕ),
        j < img.width * img.height * 4 → j % 4 ≠ 3 →
      (buildWallMaskFromEdges hypot img n).data j = 255)
    ∧ (∀ (depth : ℤ → ℚ) (dW dH : ℤ) (quad : Quad) (ow oh : ℕ) (tol : ℚ) (flag : Bool)
        (j : ℕ), j < 4 * (ow * oh) → j % 4 ≠ 3 →
      (buildWallMask depth dW dH quad ow oh tol flag).data j = 255)
    ∧ (∀ (hypot : ℚ → ℚ → ℚ) (w h : ℕ) (pts : Quad) (inset : ℚ) (p k : ℕ),
        k < 4 → 4 * p + k < w * h * 4 →
      (createQuadMaskImageData hypot w h pts inset).data (4 * p + k)
        = (createQuadMaskImageData hypot w h pts inset).data (4 * p)
      ∧ ((createQuadMaskImageData hypot w h pts inset).data (4 * p) = 255
         ∨ (createQuadMaskImageData hypot w h pts inset).data (4 * p) = 0))
    ∧ (∀ (hypot : ℚ → ℚ → ℚ) (img : ImageData) (n p k : ℕ),
        k < 4 → 4 * p + k < img.width * img.height * 4 →
      (buildEdgeMask hypot img n).data (4 * p + k) = (buildEdgeMask hypot img n).data (4 * p)
      ∧ (buildOcclusionMask hypot img n).data (4 * p + k)
        = (buildOcclusionMask hypot img n).data (4 * p)
      ∧ (buildEdgeMask hypot img n).data (4 * p + k)
        = (buildOcclusionMask hypot img n).data (4 * p + k)) := by
  refine ⟨?_, ?_, ?_, ?_, ?_, ?_, ?_⟩
  · intro w h A B j hj hm
    unfold combineMasks
    dsimp only
    rw [if_pos hj, if_neg hm]
  · intro m j hj hm
    unfold occlusionMaskToWallMask
    dsimp only
    rw [if_pos hj, if_neg hm]
  · intro m cr eb j hj hm
    unfold smoothWallMask
    dsimp only
    rw [if_pos hj, if_neg hm]
  · intro hypot img n j hj hm
    unfold buildWallMaskFromEdges
    by_cases h0 : img.width = 0 ∨ img.height = 0
    · exfalso
      rcases h0 with h0 | h0 <;> rw [h0] at hj <;> omega
    · rw [if_neg h0]
      dsimp only
      rw [if_pos hj, if_neg hm]
  · intro depth dW dH quad ow oh tol flag j hj hm
    unfold buildWallMask
    dsimp only
    rw [if_pos hj, if_neg hm]
  · intro hypot w h pts inset p k hk hj
    have hj0 : 4 * p < w * h * 4 := by omega
    have hdiv : (4 * p + k) / 4 = p := by omega
    have hdiv0 : (4 * p) / 4 = p := by omega
    unfold createQuadMaskImageData
    dsimp only
    rw [if_pos hj, if_pos hj0, hdiv, hdiv0]
    exact ⟨rfl, iteNatEqOrEq _ _ _⟩
  · intro hypot img n p k hk hj
    have hj0 : 4 * p < img.width * img.height * 4 := by omega
    have hdiv : (4 * p + k) / 4 = p := by omega
    have hdiv0 : (4 * p) / 4 = p := by omega
    unfold buildEdgeMask buildOcclusionMask
    by_cases h0 : img.width = 0 ∨ img.height = 0
    · exfalso
      rcases h0 with h0 | h0 <;> rw [h0] at hj <;> omega
    · rw [if_neg h0]
      dsimp only
      rw [if_pos hj, if_pos hj0, hdiv, hdiv0]
      exact ⟨rfl, rfl, rfl⟩

/-- Witness for `mask_channel_conventions` at concrete masks and indices. -/
theorem mask_channel_conventions_witness :
    (combineMasks 1 1 ⟨1,1,fun _ => 0⟩ ⟨1,1,fun _ => 0⟩).data 0 = 255
    ∧ (occlusionMaskToWallMask ⟨1,1,fun _ => 0⟩).data 1 = 255
    ∧ (smoothWallMask ⟨1,1,fun _ => 0⟩ 3 2).data 2 = 255
    ∧ (buildWallMaskFromEdges (fun _ _ => 0) ⟨1,1,fun _ => 0⟩ 6).data 0 = 255
    ∧ (buildWallMask (fun _ => 7) 2 2 ⟨⟨0,0⟩,⟨2,0⟩,⟨2,2⟩,⟨0,2⟩⟩ 1 1 (3/20) true).data 1 = 255 :=
  ⟨mask_channel_conventions.1 1 1 ⟨1,1,fun _ => 0⟩ ⟨1,1,fun _ => 0⟩ 0 (by decide) (by decide),
   mask_channel_conventions.2.1 ⟨1,1,fun _ => 0⟩ 1 (by decide) (by decide),
   mask_channel_conventions.2.2.1 ⟨1,1,fun _ => 0⟩ 3 2 2 (by decide) (by decide),
   mask_channel_conventions.2.2.2.1 (fun _ _ => 0) ⟨1,1,fun _ => 0⟩ 6 0 (by decide) (by decide),
   mask_channel_conventions.2.2.2.2.1 (fun _ => 7) 2 2 ⟨⟨0,0⟩,⟨2,0⟩,⟨2,2⟩,⟨0,2⟩⟩ 1 1 (3/20)
     true 1 (by decide) (by decide)⟩

/-! ## Compositor occlusion selection (src/components/TileOverlayCanvas.tsx,
lines 174–222)

The render effect picks the occlusion source by fixed priority
(depth map → DeepLab wall mask → edge-based mask), smooths the selected
source with `smoothWallMask {closeRadius: 3, edgeBlurPx: 2}`, and combines
it with the feathered quad mask; canvas rescaling of a wrong-sized wall
mask (`drawImage` resampling) is abstracted as a `rescale` parameter, and
the feathered quad mask is an input (its builder lives in
`lib/featherMask.ts`). -/

structure DepthResult where
  depth : ℤ → ℚ
  width : ℤ
  height : ℤ

/-- Occlusion-source selection of the overlay effect: the first available
source in priority order, passed through `smoothWallMask` with
`{closeRadius := 3, edgeBlurPx := 2}`; `none` when no source exists. -/
def selectOcclusionMask (rescale : ImageData → ℕ → ℕ → ImageData)
    (depthMap : Option DepthResult) (wallMask : Option ImageData)
    (edgeMask : Option ImageData) (quad : Quad) (width height : ℕ)
    (depthCloserIsHigher : Bool) : Option ImageData :=
  match depthMap with
  | some dm =>
    some (smoothWallMask
      (buildWallMask dm.depth dm.width dm.height quad width height (3/20) depthCloserIsHigher)
      3 2)
  | none =>
    match wallMask with
    | some wm =>
      let raw := if wm.width = width ∧ wm.height = height then wm else rescale wm width height
      some (smoothWallMask raw 3 2)
    | none =>
      match edgeMask with
      | some em => some (smoothWallMask em 3 2)
      | none => none

/-- The final mask applied with destination-in by the overlay effect:
`combineMasks(quadMask, occlusionMask)` when an occlusion source exists,
else the feathered quad mask alone. -/
def tileOverlayMask (rescale : ImageData → ℕ → ℕ → ImageData)
    (depthMap : Option DepthResult) (wallMask : Option ImageData)
    (edgeMask : Option ImageData) (quad : Quad) (width height : ℕ)
    (depthCloserIsHigher : Bool) (quadMask : ImageData) : ImageData :=
  match selectOcclusionMask rescale depthMap wallMask edgeMask quad width height
      depthCloserIsHigher with
  | some occ => combineMasks width height quadMask occ
  | none => quadMask

/-- C3: occlusion priority and final-mask structure.  With a depth map the
final mask combines the feathered quad mask with the smoothed depth wall
mask; with only a segmentation wall mask, with the smoothed (possibly
rescaled) wall mask; with only an edge mask, with the smoothed edge mask;
with no source at all the final mask is the feathered quad mask exactly. -/
theorem tileOverlayMask_priority :
    (∀ (rescale : ImageData → ℕ → ℕ → ImageData) (dm : DepthResult)
      (wallMask edgeMask : Option ImageData) (quad : Quad) (width height : ℕ)
      (flag : Bool) (quadMask : ImageData),
      tileOverlayMask rescale (some dm) wallMask edgeMask quad width height flag quadMask
        = combineMasks width height quadMask
            (smoothWallMask
              (buildWallMask dm.depth dm.width dm.height quad width height (3/20) flag) 3 2))
    ∧ (∀ (rescale : ImageData → ℕ → ℕ → ImageData) (wm : ImageData)
      (edgeMask : Option ImageData) (quad : Quad) (width height : ℕ)
      (flag : Bool) (quadMask : ImageData),
      tileOverlayMask rescale none (some wm) edgeMask quad width height flag quadMask
        = combineMasks width height quadMask
            (smoothWallMask
              (if wm.width = width ∧ wm.height = height then wm
               else rescale wm width height) 3 2))
    ∧ (∀ (rescale : ImageData → ℕ → ℕ → ImageData) (em : ImageData) (quad : Quad)
      (width height : ℕ) (flag : Bool) (quadMask : ImageData),
      tileOverlayMask rescale none none (some em) quad width height flag quadMask
        = combineMasks width height quadMask (smoothWallMask em 3 2))
    ∧ (∀ (rescale : ImageData → ℕ → ℕ → ImageData) (quad : Quad) (width height : ℕ)
      (flag : Bool) (quadMask : ImageData),
      tileOverlayMask rescale none none none quad width height flag quadMask = quadMask) :=
  ⟨fun _ _ _ _ _ _ _ _ _ => rfl, fun _ _ _ _ _ _ _ _ => rfl,
   fun _ _ _ _ _ _ _ => rfl, fun _ _ _ _ _ _ => rfl⟩

/-! ## Page state and in-flight request results (src/unnamed/part_008,
lines 94–131)

`handleImageLoad` resets the corner/mask/depth state, then starts depth and
segmentation requests for the new photo URL.  The promise callbacks
(`.then(setDepthMap)`, `.then(res => setWallMask(...))`) store whatever
result arrives, with no check that the photo that started the request is
still the current one.  Photo URLs and results are modelled as naturals and
the event loop as a fold over load/resolve events. -/

structure PageState where
  roomImageUrl : Option ℕ
  depthMap : Option ℕ
  wallMask : Option ℕ
  pendingDepth : List ℕ
  pendingWallSeg : List ℕ
deriving DecidableEq, Repr

def initialPageState : PageState := ⟨none, none, none, [], []⟩

/-- `handleImageLoad`: set the new URL, clear depth/mask state, and start
one depth and one segmentation request tagged with the photo they were
started for. -/
def handleImageLoad (s : PageState) (url : ℕ) : PageState :=
  { roomImageUrl := some url
    depthMap := none
    wallMask := none
    pendingDepth := s.pendingDepth ++ [url]
    pendingWallSeg := s.pendingWallSeg ++ [url] }

/-- Resolution of an in-flight depth request started for `requestUrl`: the
`.then(setDepthMap)` callback stores the result unconditionally — it never
compares `requestUrl` with the current `roomImageUrl`. -/
def depthResolved (s : PageState) (requestUrl result : ℕ) : PageState :=
  if requestUrl ∈ s.pendingDepth then
    { s with depthMap := some result, pendingDepth := s.pendingDepth.erase requestUrl }
  else s

/-- Resolution of an in-flight wall-segmentation request; as with depth, the
callback stores the mask without any staleness check. -/
def wallSegResolved (s : PageState) (requestUrl result : ℕ) : PageState :=
  if requestUrl ∈ s.pendingWallSeg then
    { s with wallMask := some result, pendingWallSeg := s.pendingWallSeg.erase requestUrl }
  else s

inductive PageEvent
  | load (url : ℕ)
  | depthDone (requestUrl result : ℕ)
  | wallSegDone (requestUrl result : ℕ)

def pageStep (s : PageState) : PageEvent → PageState
  | .load url => handleImageLoad s url
  | .depthDone u r => depthResolved s u r
  | .wallSegDone u r => wallSegResolved s u r

def runPage (events : List PageEvent) : PageState :=
  events.foldl pageStep initialPageState

/-- C5 failing trace: photo 0 is loaded, then superseded by photo 1 while
photo 0's depth and segmentation requests are still in flight; when those
requests resolve, their results are stored and used for photo 1's overlay —
they are not dropped. -/
theorem stale_results_stored :
    (runPage [.load 0, .load 1, .depthDone 0 100, .wallSegDone 0 200]).roomImageUrl = some 1
    ∧ (runPage [.load 0, .load 1, .depthDone 0 100, .wallSegDone 0 200]).depthMap = some 100
    ∧ (runPage [.load 0, .load 1, .depthDone 0 100, .wallSegDone 0 200]).wallMask = some 200 := by
  refine ⟨by decide, by decide, by decide⟩

/-! ## Tiled pattern renderer (src/lib/tiledWall.ts, lines 122–211, and the
identical parameter computation in src/unnamed/part_003, lines 407–452)

The drawing effects (pattern fill, grout, lighting multiply, noise, final
warp) consume only the tile counts and pattern scale factors; the model
returns those parameters, with `none` meaning the function returned before
drawing anything. -/

structure WallBBox where
  x : ℚ
  y : ℚ
  width : ℚ
  height : ℚ
deriving DecidableEq, Repr

structure SizeMM where
  width : ℚ
  height : ℚ
deriving DecidableEq, Repr

/-- `quadToBBox` (tiledWall.ts, lines 35–43). -/
def quadToBBox (quad : Quad) : WallBBox :=
  let x := min (min (min quad.p0.x quad.p1.x) quad.p2.x) quad.p3.x
  let y := min (min (min quad.p0.y quad.p1.y) quad.p2.y) quad.p3.y
  { x := x
    y := y
    width := max (max (max quad.p0.x quad.p1.x) quad.p2.x) quad.p3.x - x
    height := max (max (max quad.p0.y quad.p1.y) quad.p2.y) quad.p3.y - y }

structure TiledWallRender where
  tilesX : ℚ
  tilesY : ℚ
  scaleX : ℚ
  scaleY : ℚ
deriving DecidableEq, Repr

/-- `renderTiledWall` (tiledWall.ts, lines 122–211): guard checks, then the
exact (unrounded) tile counts `wallSizeMM / tileSizeMM` and the pattern
scale factors `bboxPx / (tiles * imgPx)`; `none` = silent no-op. -/
def renderTiledWall (wallQuad : Quad) (imgW imgH : ℚ)
    (tileSizeMM wallSizeMM : SizeMM) : Option TiledWallRender :=
  let bbox := quadToBBox wallQuad
  let wallWidthPx := bbox.width
  let wallHeightPx := bbox.height
  if wallWidthPx ≤ 0 ∨ wallHeightPx ≤ 0 ∨ tileSizeMM.width ≤ 0 ∨ tileSizeMM.height ≤ 0 ∨
      wallSizeMM.width ≤ 0 ∨ wallSizeMM.height ≤ 0 then none
  else if imgW ≤ 0 ∨ imgH ≤ 0 then none
  else
    let tilesX := wallSizeMM.width / tileSizeMM.width
    let tilesY := wallSizeMM.height / tileSizeMM.height
    some { tilesX := tilesX
           tilesY := tilesY
           scaleX := wallWidthPx / (tilesX * imgW)
           scaleY := wallHeightPx / (tilesY * imgH) }

/-! ### C6 and C8 theorems -/

/-- C6: whenever `renderTiledWall` draws, the tile counts are the exact
quotients of the physical sizes (no rounding) and the pattern scales are
`bbox / (tiles * imgPx)`, so one pattern repetition (`img * scale`) spans
exactly `bbox / tiles` output pixels; in particular 3000/300 mm gives
exactly 10 tiles across and 3100/300 mm gives exactly 31/3. -/
theorem renderTiledWall_tile_counts :
    (∀ (quad : Quad) (imgW imgH : ℚ) (tmm wmm : SizeMM) (r : TiledWallRender),
      renderTiledWall quad imgW imgH tmm wmm = some r →
      r.tilesX = wmm.width / tmm.width ∧ r.tilesY = wmm.height / tmm.height ∧
      r.scaleX = (quadToBBox quad).width / (r.tilesX * imgW) ∧
      r.scaleY = (quadToBBox quad).height / (r.tilesY * imgH) ∧
      imgW * r.scaleX = (quadToBBox quad).width / r.tilesX ∧
      imgH * r.scaleY = (quadToBBox quad).height / r.tilesY)
    ∧ (renderTiledWall ⟨⟨0,0⟩,⟨100,0⟩,⟨100,100⟩,⟨0,100⟩⟩ 50 50 ⟨300,300⟩ ⟨3000,2400⟩).map
        TiledWallRender.tilesX = some 10
    ∧ (renderTiledWall ⟨⟨0,0⟩,⟨100,0⟩,⟨100,100⟩,⟨0,100⟩⟩ 50 50 ⟨300,300⟩ ⟨3100,2400⟩).map
        TiledWallRender.tilesX = some (31/3) := by
  refine ⟨?_, ?_, ?_⟩
  · intro quad imgW imgH tmm wmm r h
    unfold renderTiledWall at h
    dsimp only at h
    by_cases h1 : (quadToBBox quad).width ≤ 0 ∨ (quadToBBox quad).height ≤ 0 ∨
        tmm.width ≤ 0 ∨ tmm.height ≤ 0 ∨ wmm.width ≤ 0 ∨ wmm.height ≤ 0
    · rw [if_pos h1] at h
      exact absurd h (by simp)
    · rw [if_neg h1] at h
      by_cases h2 : imgW ≤ 0 ∨ imgH ≤ 0
      · rw [if_pos h2] at h
        exact absurd h (by simp)
      · rw [if_neg h2] at h
        push_neg at h1 h2
        obtain ⟨hbw, hbh, htw, hth, hww, hwh⟩ := h1
        obtain ⟨hiw, hih⟩ := h2
        have htX : wmm.width / tmm.width ≠ 0 := ne_of_gt (div_pos hww htw)
        have htY : wmm.height / tmm.height ≠ 0 := ne_of_gt (div_pos hwh hth)
        have hiW : imgW ≠ 0 := ne_of_gt hiw
        have hiH : imgH ≠ 0 := ne_of_gt hih
        obtain rfl := (Option.some_injective _ h).symm
        refine ⟨rfl, rfl, rfl, rfl, ?_, ?_⟩
        · show imgW * ((quadToBBox quad).width / (wmm.width / tmm.width * imgW))
            = (quadToBBox quad).width / (wmm.width / tmm.width)
          field_simp
          ring
        · show imgH * ((quadToBBox quad).height / (wmm.height / tmm.height * imgH))
            = (quadToBBox quad).height / (wmm.height / tmm.height)
          field_simp
          ring
  · norm_num [renderTiledWall, quadToBBox]
  · norm_num [renderTiledWall, quadToBBox]

/-- C8: `renderTiledWall` is a silent no-op whenever the quad bounding box,
the tile physical size, the wall physical size, or the tile image pixel
size is non-positive in either dimension (totality of the embedding is the
never-throws half). -/
theorem renderTiledWall_noop (quad : Quad) (imgW imgH : ℚ) (tmm wmm : SizeMM)
    (h : (quadToBBox quad).width ≤ 0 ∨ (quadToBBox quad).height ≤ 0 ∨
      tmm.width ≤ 0 ∨ tmm.height ≤ 0 ∨ wmm.width ≤ 0 ∨ wmm.height ≤ 0 ∨
      imgW ≤ 0 ∨ imgH ≤ 0) :
    renderTiledWall quad imgW imgH tmm wmm = none := by
  unfold renderTiledWall
  dsimp only
  by_cases h1 : (quadToBBox quad).width ≤ 0 ∨ (quadToBBox quad).height ≤ 0 ∨
      tmm.width ≤ 0 ∨ tmm.height ≤ 0 ∨ wmm.width ≤ 0 ∨ wmm.height ≤ 0
  · rw [if_pos h1]
  · rw [if_neg h1, if_pos (by tauto)]

/-- Witness for `renderTiledWall_noop`: a quad collapsed to a single point
has a zero-width bounding box, so nothing is drawn. -/
theorem renderTiledWall_noop_witness :
    renderTiledWall ⟨⟨5,5⟩,⟨5,5⟩,⟨5,5⟩,⟨5,5⟩⟩ 50 50 ⟨300,300⟩ ⟨3000,2400⟩ = none :=
  renderTiledWall_noop ⟨⟨5,5⟩,⟨5,5⟩,⟨5,5⟩,⟨5,5⟩⟩ 50 50 ⟨300,300⟩ ⟨3000,2400⟩
    (Or.inl (by norm_num [quadToBBox]))

/-- Witness for the hypothesis-bearing part of `renderTiledWall_tile_counts`
at a concrete axis-aligned quad and tile/wall sizes. -/
theorem renderTiledWall_tile_counts_witness :
    renderTiledWall ⟨⟨0,0⟩,⟨100,0⟩,⟨100,100⟩,⟨0,100⟩⟩ 50 50 ⟨300,300⟩ ⟨3000,2400⟩
      = some ⟨10, 8, 1/5, 1/4⟩
    ∧ ((10:ℚ) = 3000 / 300 ∧ (8:ℚ) = 2400 / 300 ∧
       (1/5 : ℚ) = 100 / (10 * 50) ∧ (1/4 : ℚ) = 100 / (8 * 50) ∧
       (50:ℚ) * (1/5) = 100 / 10 ∧ (50:ℚ) * (1/4) = 100 / 8) := by
  have h : renderTiledWall ⟨⟨0,0⟩,⟨100,0⟩,⟨100,100⟩,⟨0,100⟩⟩ 50 50 ⟨300,300⟩ ⟨3000,2400⟩
      = some ⟨10, 8, 1/5, 1/4⟩ := by
    norm_num [renderTiledWall, quadToBBox]
  have h2 := renderTiledWall_tile_counts.1 ⟨⟨0,0⟩,⟨100,0⟩,⟨100,100⟩,⟨0,100⟩⟩ 50 50
    ⟨300,300⟩ ⟨3000,2400⟩ ⟨10, 8, 1/5, 1/4⟩ h
  refine ⟨h, ?_⟩
  simpa [quadToBBox] using h2

/-! ## Lighting map extraction

Two variants exist in the repository: the median-replace variant
(src/lib/lightingMap.ts, `LIGHTING_FLOOR = 150`, non-wall pixels replaced
by the median wall luminance before the blur) and the preserve-shadows
variant (src/unnamed/part_003, `LIGHTING_FLOOR = 85`, luminance kept as
is).  `gaussianKernel` is built from `Math.exp` and is abstracted as the
`kernel` parameter; every theorem below holds for an arbitrary kernel. -/

/-- `blurChannel` (lightingMap.ts, lines 35–68): separable blur with
edge-clamped sampling; horizontal pass into `tmp`, vertical pass out. -/
def blurChannel (kernel : ℕ → ℚ) (radius : ℕ) (width height : ℕ)
    (data : ℕ → ℚ) : ℕ → ℚ :=
  let kSize := radius * 2 + 1
  let tmp : ℕ → ℚ := fun i =>
    let x := i % width
    let y := i / width
    ((List.range kSize).map fun (k : ℕ) =>
      let nx : ℤ := (x : ℤ) + (k : ℤ) - (radius : ℤ)
      let clamped := max 0 (min ((width : ℤ) - 1) nx)
      data (y * width + clamped.toNat) * kernel k).foldl (· + ·) 0
  fun i =>
    let x := i % width
    let y := i / width
    ((List.range kSize).map fun (k : ℕ) =>
      let ny : ℤ := (y : ℤ) + (k : ℤ) - (radius : ℤ)
      let clamped := max 0 (min ((height : ℤ) - 1) ny)
      tmp (clamped.toNat * width + x) * kernel k).foldl (· + ·) 0

/-- The clamped bounding-box crop common to both lighting extractors:
`(w, h, bx, by, cropW, cropH)`. -/
def lightingCropRect (quad : Quad) (fullWidth fullHeight : ℤ) : ℤ × ℤ × ℤ × ℤ × ℤ × ℤ :=
  let bbox := quadToBBox quad
  let w := max 1 ⌊bbox.width⌋
  let h := max 1 ⌊bbox.height⌋
  let bx0 := max 0 (min (fullWidth - 1) ⌊bbox.x⌋)
  let by0 := max 0 (min (fullHeight - 1) ⌊bbox.y⌋)
  (w, h, bx0, by0, min w (fullWidth - bx0), min h (fullHeight - by0))

/-- Luminance of the cropped room pixel `(px, py)` (the
`drawImage`/`getImageData` round trip reads the room buffer at
`(bx+px, by+py)`). -/
def cropGray (room : ImageData) (fullWidth bx0 by0 : ℤ) (cw : ℕ) (i : ℕ) : ℚ :=
  grayAt room (((by0 + (i / cw : ℕ)) * fullWidth + (bx0 + (i % cw : ℕ))).toNat)

/-- The wall-classified luminances collected by the median-replace variant:
crop pixels whose mask alpha is at least `WALL_THRESHOLD = 128`, in
row-major order. -/
def wallLuminanceVals (room wallMask : ImageData) (fullWidth bx0 by0 : ℤ)
    (cw ch : ℕ) : List ℚ :=
  (List.range ch).flatMap fun py =>
    (List.range cw).filterMap fun px =>
      if wallMask.data ((((by0 + (py : ℕ)) * fullWidth + (bx0 + (px : ℕ))).toNat) * 4 + 3) ≥ 128
      then some (cropGray room fullWidth bx0 by0 cw (py * cw + px)) else none

/-- `minV`: fold of `Math.min` starting from entry 0 over entries `1..len-1`. -/
def arrFoldMin (g : ℕ → ℚ) (len : ℕ) : ℚ :=
  (List.range' 1 (len - 1)).foldl (fun acc i => min acc (g i)) (g 0)

/-- `maxV`: fold of `Math.max` starting from entry 0 over entries `1..len-1`. -/
def arrFoldMax (g : ℕ → ℚ) (len : ℕ) : ℚ :=
  (List.range' 1 (len - 1)).foldl (fun acc i => max acc (g i)) (g 0)

/-- The shared normalize-and-remap output stage of both extractors
(`lightingMap.ts` lines 131–163, `part_003` lines 119–151): blur, observe
min/max, remap into `[floor, 255]`, clamp, write a grayscale opaque
buffer of size `w × h`. -/
def lightingOutput (kernel : ℕ → ℚ) (blurRadiusPx : ℚ) (floorVal : ℚ)
    (gray : ℕ → ℚ) (w h : ℕ) (cw ch : ℕ) : ImageData :=
  let radius := (max 1 (min 50 ⌊blurRadiusPx / 2⌋)).toNat
  let blurred := blurChannel kernel radius cw ch gray
  let minV := arrFoldMin blurred (cw * ch)
  let maxV := arrFoldMax blurred (cw * ch)
  let range0 := maxV - minV
  let range := if range0 = 0 then 1 else range0
  let scale := (255 - floorVal) / 255
  { width := w
    height := h
    data := fun j =>
      if j < w * h * 4 then
        if j % 4 = 3 then 255
        else
          let p := j / 4
          let px := p % w
          let py := p / w
          let srcIdx := if py < ch ∧ px < cw then py * cw + px else 0
          let n := if range > 0 then (blurred srcIdx - minV) / range else 1
          let v := jsRound (floorVal + scale * 255 * n)
          (max 0 (min 255 v)).toNat
      else 0 }

/-- `extractLightingMap` (src/lib/lightingMap.ts, lines 74–164): the
median-replace variant.  Returns `none` for an empty crop or when no crop
pixel is wall-classified; otherwise replaces non-wall luminance with the
median wall luminance, blurs, and remaps into `[150, 255]`. -/
def extractLightingMap (kernel : ℕ → ℚ) (room : ImageData) (quad : Quad)
    (fullWidth fullHeight : ℤ) (wallMask : ImageData)
    (blurRadiusPx : ℚ := 40) : Option ImageData :=
  let r := lightingCropRect quad fullWidth fullHeight
  let w := r.1
  let h := r.2.1
  let bx0 := r.2.2.1
  let by0 := r.2.2.2.1
  let cropW := r.2.2.2.2.1
  let cropH := r.2.2.2.2.2
  if cropW ≤ 0 ∨ cropH ≤ 0 then none
  else
    let cw := cropW.toNat
    let ch := cropH.toNat
    let gray0 := cropGray room fullWidth bx0 by0 cw
    let wallValues := wallLuminanceVals room wallMask fullWidth bx0 by0 cw ch
    if wallValues = [] then none
    else
      let median := (List.insertionSort (· ≤ ·) wallValues).getD (wallValues.length / 2) 0
      let gray1 : ℕ → ℚ := fun i =>
        if wallMask.data ((((by0 + (i / cw : ℕ)) * fullWidth + (bx0 + (i % cw : ℕ))).toNat) * 4 + 3) < 128
        then median else gray0 i
      some (lightingOutput kernel blurRadiusPx 150 gray1 w.toNat h.toNat cw ch)

namespace PreserveShadows

/-- `extractLightingMap` (src/unnamed/part_003, lines 80–152): the
preserve-foreground-shadows variant: no mask filtering or median
replacement, `LIGHTING_FLOOR = 85`.  Returns `none` only for an empty
crop. -/
def extractLightingMap (kernel : ℕ → ℚ) (room : ImageData) (quad : Quad)
    (fullWidth fullHeight : ℤ) (blurRadiusPx : ℚ := 40) : Option ImageData :=
  let r := lightingCropRect quad fullWidth fullHeight
  let w := r.1
  let h := r.2.1
  let bx0 := r.2.2.1
  let by0 := r.2.2.2.1
  let cropW := r.2.2.2.2.1
  let cropH := r.2.2.2.2.2
  if cropW ≤ 0 ∨ cropH ≤ 0 then none
  else
    let cw := cropW.toNat
    let ch := cropH.toNat
    some (lightingOutput kernel blurRadiusPx 85 (cropGray room fullWidth bx0 by0 cw)
      w.toNat h.toNat cw ch)

end PreserveShadows

/-! ### C9 lemmas and theorems -/

lemma foldl_min_bounds (g : ℕ → ℚ) :
    ∀ (l : List ℕ) (a : ℚ),
      (l.foldl (fun acc i => min acc (g i)) a) ≤ a ∧
      ∀ i ∈ l, (l.foldl (fun acc i => min acc (g i)) a) ≤ g i := by
  intro l
  induction l with
  | nil => exact fun a => ⟨le_refl a, by simp⟩
  | cons x t ih =>
    intro a
    rw [List.foldl_cons]
    obtain ⟨h1, h2⟩ := ih (min a (g x))
    refine ⟨le_trans h1 (min_le_left _ _), ?_⟩
    intro i hi
    rcases List.mem_cons.mp hi with rfl | hi
    · exact le_trans h1 (min_le_right _ _)
    · exact h2 i hi

lemma foldl_max_bounds (g : ℕ → ℚ) :
    ∀ (l : List ℕ) (a : ℚ),
      a ≤ (l.foldl (fun acc i => max acc (g i)) a) ∧
      ∀ i ∈ l, g i ≤ (l.foldl (fun acc i => max acc (g i)) a) := by
  intro l
  induction l with
  | nil => exact fun a => ⟨le_refl a, by simp⟩
  | cons x t ih =>
    intro a
    rw [List.foldl_cons]
    obtain ⟨h1, h2⟩ := ih (max a (g x))
    refine ⟨le_trans (le_max_left _ _) h1, ?_⟩
    intro i hi
    rcases List.mem_cons.mp hi with rfl | hi
    · exact le_trans (le_max_right _ _) h1
    · exact h2 i hi

lemma arrFoldMin_le (g : ℕ → ℚ) (len i : ℕ) (hi : i < len) : arrFoldMin g len ≤ g i := by
  unfold arrFoldMin
  rcases Nat.eq_zero_or_pos i with rfl | hpos
  · exact (foldl_min_bounds g _ _).1
  · refine (foldl_min_bounds g _ _).2 i ?_
    rw [List.mem_range'_1]
    omega

lemma le_arrFoldMax (g : ℕ → ℚ) (len i : ℕ) (hi : i < len) : g i ≤ arrFoldMax g len := by
  unfold arrFoldMax
  rcases Nat.eq_zero_or_pos i with rfl | hpos
  · exact (foldl_max_bounds g _ _).1
  · refine (foldl_max_bounds g _ _).2 i ?_
    rw [List.mem_range'_1]
    omega

lemma lightingOutput_range (kernel : ℕ → ℚ) (blurRadiusPx : ℚ) (fl : ℕ)
    (gray : ℕ → ℚ) (w h cw ch : ℕ) (hcw : 0 < cw) (hch : 0 < ch) (hfl : fl ≤ 255)
    (j : ℕ) (hj : j < w * h * 4) :
    fl ≤ (lightingOutput kernel blurRadiusPx (fl : ℚ) gray w h cw ch).data j ∧
    (lightingOutput kernel blurRadiusPx (fl : ℚ) gray w h cw ch).data j ≤ 255 := by
  unfold lightingOutput
  dsimp only
  rw [if_pos hj]
  by_cases hm : j % 4 = 3
  · rw [if_pos hm]
    omega
  · rw [if_neg hm]
    set radius := (max 1 (min 50 ⌊blurRadiusPx / 2⌋)).toNat with hrad
    set blurred := blurChannel kernel radius cw ch gray with hblur
    set minV := arrFoldMin blurred (cw * ch) with hminV
    set maxV := arrFoldMax blurred (cw * ch) with hmaxV
    set srcIdx := if j / 4 / w < ch ∧ j / 4 % w < cw then j / 4 / w * cw + j / 4 % w else 0
      with hsrc
    have hsrclt : srcIdx < cw * ch := by
      rw [hsrc]
      split
      · rename_i hcond
        calc j / 4 / w * cw + j / 4 % w < (j / 4 / w + 1) * cw := by
              have := hcond.2
              nlinarith [hcond.2]
          _ ≤ ch * cw := Nat.mul_le_mul_right _ (by omega)
          _ = cw * ch := Nat.mul_comm _ _
      · positivity
    have hlo : minV ≤ blurred srcIdx := arrFoldMin_le blurred (cw * ch) srcIdx hsrclt
    have hhi : blurred srcIdx ≤ maxV := le_arrFoldMax blurred (cw * ch) srcIdx hsrclt
    have hminmax : minV ≤ maxV := le_trans hlo hhi
    set range0 := maxV - minV with hrange0
    have hr0 : 0 ≤ range0 := by rw [hrange0]; linarith
    set range := if range0 = 0 then (1:ℚ) else range0 with hrange
    have hrpos : 0 < range := by
      rw [hrange]
      split
      · norm_num
      · rename_i hne
        rcases lt_or_eq_of_le hr0 with hlt | heq
        · exact hlt
        · exact absurd heq.symm hne
    set n := if range > 0 then (blurred srcIdx - minV) / range else 1 with hn
    have hn0 : 0 ≤ n := by
      rw [hn, if_pos hrpos]
      exact div_nonneg (by linarith) (le_of_lt hrpos)
    have hn1 : n ≤ 1 := by
      rw [hn, if_pos hrpos]
      rw [div_le_one hrpos, hrange]
      split
      · rename_i h0
        rw [hrange0] at h0
        nlinarith [hhi, hlo]
      · rw [hrange0]
        linarith
    set x := (fl : ℚ) + (255 - (fl : ℚ)) / 255 * 255 * n with hx
    have hflq : (fl : ℚ) ≤ 255 := by exact_mod_cast hfl
    have hxsimp : x = (fl : ℚ) + (255 - (fl : ℚ)) * n := by
      rw [hx]
      field_simp
    have hxlo : (fl : ℚ) ≤ x := by
      rw [hxsimp]
      nlinarith
    have hxhi : x ≤ 255 := by
      rw [hxsimp]
      nlinarith
    have hvlo : (fl : ℤ) ≤ jsRound x := by
      rw [jsRound, Int.le_floor]
      push_cast
      linarith
    have hvhi : jsRound x ≤ 255 := by
      have : jsRound x < 256 := by
        rw [jsRound, Int.floor_lt]
        push_cast
        linarith
      omega
    have hgoal : (fl : ℤ) ≤ max 0 (min 255 (jsRound x)) ∧ max 0 (min 255 (jsRound x)) ≤ 255 := by
      constructor
      · refine le_max_of_le_right ?_
        exact le_min (by exact_mod_cast hfl) hvlo
      · exact max_le (by norm_num) (min_le_left _ _)
    constructor
    · have := hgoal.1
      omega
    · have := hgoal.2
      omega

/-- C9: whenever either lighting extractor returns a buffer, every byte of
that buffer lies in `[floor, 255]` (floor 150 for the median-replace
variant, 85 for the preserve-shadows variant); the median-replace variant
returns `none` when the crop is empty or when no crop pixel reaches the
wall threshold, and the preserve-shadows variant returns `none` when the
crop is empty — neither can fail any other way. -/
theorem extractLightingMap_spec :
    (∀ (kernel : ℕ → ℚ) (room : ImageData) (quad : Quad) (fW fH : ℤ)
      (wallMask : ImageData) (blurR : ℚ),
      ((lightingCropRect quad fW fH).2.2.2.2.1 ≤ 0 ∨
       (lightingCropRect quad fW fH).2.2.2.2.2 ≤ 0) →
      extractLightingMap kernel room quad fW fH wallMask blurR = none
      ∧ PreserveShadows.extractLightingMap kernel room quad fW fH blurR = none)
    ∧ (∀ (kernel : ℕ → ℚ) (room : ImageData) (quad : Quad) (fW fH : ℤ)
      (wallMask : ImageData) (blurR : ℚ),
      wallLuminanceVals room wallMask fW (lightingCropRect quad fW fH).2.2.1
        (lightingCropRect quad fW fH).2.2.2.1
        (lightingCropRect quad fW fH).2.2.2.2.1.toNat
        (lightingCropRect quad fW fH).2.2.2.2.2.toNat = [] →
      extractLightingMap kernel room quad fW fH wallMask blurR = none)
    ∧ (∀ (kernel : ℕ → ℚ) (room : ImageData) (quad : Quad) (fW fH : ℤ)
      (wallMask : ImageData) (blurR : ℚ) (out : ImageData),
      extractLightingMap kernel room quad fW fH wallMask blurR = some out →
      ∀ j, j < out.width * out.height * 4 → 150 ≤ out.data j ∧ out.data j ≤ 255)
    ∧ (∀ (kernel : ℕ → ℚ) (room : ImageData) (quad : Quad) (fW fH : ℤ) (blurR : ℚ)
      (out : ImageData),
      PreserveShadows.extractLightingMap kernel room quad fW fH blurR = some out →
      ∀ j, j < out.width * out.height * 4 → 85 ≤ out.data j ∧ out.data j ≤ 255) := by
  refine ⟨?_, ?_, ?_, ?_⟩
  · intro kernel room quad fW fH wallMask blurR hcrop
    constructor
    · unfold extractLightingMap
      rw [if_pos hcrop]
    · unfold PreserveShadows.extractLightingMap
      rw [if_pos hcrop]
  · intro kernel room quad fW fH wallMask blurR hempty
    unfold extractLightingMap
    by_cases hcrop : (lightingCropRect quad fW fH).2.2.2.2.1 ≤ 0 ∨
        (lightingCropRect quad fW fH).2.2.2.2.2 ≤ 0
    · rw [if_pos hcrop]
    · rw [if_neg hcrop]
      dsimp only
      rw [if_pos hempty]
  · intro kernel room quad fW fH wallMask blurR out hout j hj
    unfold extractLightingMap at hout
    by_cases hcrop : (lightingCropRect quad fW fH).2.2.2.2.1 ≤ 0 ∨
        (lightingCropRect quad fW fH).2.2.2.2.2 ≤ 0
    · rw [if_pos hcrop] at hout
      exact absurd hout (by simp)
    · rw [if_neg hcrop] at hout
      dsimp only at hout
      by_cases hempty : wallLuminanceVals room wallMask fW (lightingCropRect quad fW fH).2.2.1
          (lightingCropRect quad fW fH).2.2.2.1
          (lightingCropRect quad fW fH).2.2.2.2.1.toNat
          (lightingCropRect quad fW fH).2.2.2.2.2.toNat = []
      · rw [if_pos hempty] at hout
        exact absurd hout (by simp)
      · rw [if_neg hempty] at hout
        push_neg at hcrop
        obtain rfl := (Option.some_injective _ hout).symm
        exact lightingOutput_range _ _ 150 _ _ _ _ _
          (by omega) (by omega) (by norm_num) j hj
  · intro kernel room quad fW fH blurR out hout j hj
    unfold PreserveShadows.extractLightingMap at hout
    by_cases hcrop : (lightingCropRect quad fW fH).2.2.2.2.1 ≤ 0 ∨
        (lightingCropRect quad fW fH).2.2.2.2.2 ≤ 0
    · rw [if_pos hcrop] at hout
      exact absurd hout (by simp)
    · rw [if_neg hcrop] at hout
      push_neg at hcrop
      obtain rfl := (Option.some_injective _ hout).symm
      exact lightingOutput_range _ _ 85 _ _ _ _ _
        (by omega) (by omega) (by norm_num) j hj


lemma lightingOutput_width (kernel : ℕ → ℚ) (blurRadiusPx floorVal : ℚ)
    (gray : ℕ → ℚ) (w h cw ch : ℕ) :
    (lightingOutput kernel blurRadiusPx floorVal gray w h cw ch).width = w := rfl

lemma lightingOutput_height (kernel : ℕ → ℚ) (blurRadiusPx floorVal : ℚ)
    (gray : ℕ → ℚ) (w h cw ch : ℕ) :
    (lightingOutput kernel blurRadiusPx floorVal gray w h cw ch).height = h := rfl

/-- Witness for `extractLightingMap_spec`: an empty crop (zero-size room)
gives `none` for both variants; an all-transparent wall mask gives `none`
for the median variant; and on a 1×1 room with an opaque mask the median
variant produces a buffer whose first byte is within `[150, 255]`. -/
theorem extractLightingMap_spec_witness :
    (extractLightingMap (fun _ => 0) ⟨1,1,fun _ => 0⟩ ⟨⟨0,0⟩,⟨1,0⟩,⟨1,1⟩,⟨0,1⟩⟩ 0 0
        ⟨1,1,fun _ => 0⟩ 40 = none
      ∧ PreserveShadows.extractLightingMap (fun _ => 0) ⟨1,1,fun _ => 0⟩
        ⟨⟨0,0⟩,⟨1,0⟩,⟨1,1⟩,⟨0,1⟩⟩ 0 0 40 = none)
    ∧ extractLightingMap (fun _ => 0) ⟨1,1,fun _ => 0⟩ ⟨⟨0,0⟩,⟨1,0⟩,⟨1,1⟩,⟨0,1⟩⟩ 1 1
        ⟨1,1,fun _ => 0⟩ 40 = none
    ∧ 150 ≤ ((extractLightingMap (fun _ => 0) ⟨1,1,fun _ => 0⟩ ⟨⟨0,0⟩,⟨1,0⟩,⟨1,1⟩,⟨0,1⟩⟩ 1 1
        ⟨1,1,fun _ => 255⟩ 40).map (fun o => o.data 0)).getD 0
    ∧ ((extractLightingMap (fun _ => 0) ⟨1,1,fun _ => 0⟩ ⟨⟨0,0⟩,⟨1,0⟩,⟨1,1⟩,⟨0,1⟩⟩ 1 1
        ⟨1,1,fun _ => 255⟩ 40).map (fun o => o.data 0)).getD 0 ≤ 255 := by
  have hcrop0 : (lightingCropRect ⟨⟨0,0⟩,⟨1,0⟩,⟨1,1⟩,⟨0,1⟩⟩ 0 0).2.2.2.2.1 ≤ 0 ∨
      (lightingCropRect ⟨⟨0,0⟩,⟨1,0⟩,⟨1,1⟩,⟨0,1⟩⟩ 0 0).2.2.2.2.2 ≤ 0 := by
    norm_num [lightingCropRect, quadToBBox]
  have h1 := extractLightingMap_spec.1 (fun _ => 0) ⟨1,1,fun _ => 0⟩
    ⟨⟨0,0⟩,⟨1,0⟩,⟨1,1⟩,⟨0,1⟩⟩ 0 0 ⟨1,1,fun _ => 0⟩ 40 hcrop0
  have hcrect : lightingCropRect ⟨⟨0,0⟩,⟨1,0⟩,⟨1,1⟩,⟨0,1⟩⟩ 1 1 = (1, 1, 0, 0, 1, 1) := by
    norm_num [lightingCropRect, quadToBBox]
  have hempty : wallLuminanceVals ⟨1,1,fun _ => 0⟩ ⟨1,1,fun _ => 0⟩ 1
      (lightingCropRect ⟨⟨0,0⟩,⟨1,0⟩,⟨1,1⟩,⟨0,1⟩⟩ 1 1).2.2.1
      (lightingCropRect ⟨⟨0,0⟩,⟨1,0⟩,⟨1,1⟩,⟨0,1⟩⟩ 1 1).2.2.2.1
      (lightingCropRect ⟨⟨0,0⟩,⟨1,0⟩,⟨1,1⟩,⟨0,1⟩⟩ 1 1).2.2.2.2.1.toNat
      (lightingCropRect ⟨⟨0,0⟩,⟨1,0⟩,⟨1,1⟩,⟨0,1⟩⟩ 1 1).2.2.2.2.2.toNat = [] := by
    rw [hcrect]
    norm_num [wallLuminanceVals]
  have h2 := extractLightingMap_spec.2.1 (fun _ => 0) ⟨1,1,fun _ => 0⟩
    ⟨⟨0,0⟩,⟨1,0⟩,⟨1,1⟩,⟨0,1⟩⟩ 1 1 ⟨1,1,fun _ => 0⟩ 40 hempty
  refine ⟨h1, h2, ?_⟩
  rcases h : extractLightingMap (fun _ => 0) ⟨1,1,fun _ => 0⟩ ⟨⟨0,0⟩,⟨1,0⟩,⟨1,1⟩,⟨0,1⟩⟩ 1 1
      ⟨1,1,fun _ => 255⟩ 40 with _ | out
  all_goals
    have hcond : ¬ ((lightingCropRect ⟨⟨0,0⟩,⟨1,0⟩,⟨1,1⟩,⟨0,1⟩⟩ 1 1).2.2.2.2.1 ≤ 0 ∨
        (lightingCropRect ⟨⟨0,0⟩,⟨1,0⟩,⟨1,1⟩,⟨0,1⟩⟩ 1 1).2.2.2.2.2 ≤ 0) := by
      rw [hcrect]
      norm_num
    have hnonempty : ¬ (wallLuminanceVals ⟨1,1,fun _ => 0⟩ ⟨1,1,fun _ => 255⟩ 1
        (lightingCropRect ⟨⟨0,0⟩,⟨1,0⟩,⟨1,1⟩,⟨0,1⟩⟩ 1 1).2.2.1
        (lightingCropRect ⟨⟨0,0⟩,⟨1,0⟩,⟨1,1⟩,⟨0,1⟩⟩ 1 1).2.2.2.1
        (lightingCropRect ⟨⟨0,0⟩,⟨1,0⟩,⟨1,1⟩,⟨0,1⟩⟩ 1 1).2.2.2.2.1.toNat
        (lightingCropRect ⟨⟨0,0⟩,⟨1,0⟩,⟨1,1⟩,⟨0,1⟩⟩ 1 1).2.2.2.2.2.toNat = []) := by
      rw [hcrect]
      norm_num [wallLuminanceVals, cropGray, grayAt]
      simp
    have hu := h
    unfold extractLightingMap at hu
    rw [if_neg hcond] at hu
    dsimp only at hu
    rw [if_neg hnonempty] at hu
  · exact absurd hu (by simp)
  · have hb := extractLightingMap_spec.2.2.1 (fun _ => 0) ⟨1,1,fun _ => 0⟩
      ⟨⟨0,0⟩,⟨1,0⟩,⟨1,1⟩,⟨0,1⟩⟩ 1 1 ⟨1,1,fun _ => 255⟩ 40 out h 0 ?_
    · simpa using hb
    · have hw : out.width = (lightingCropRect ⟨⟨0,0⟩,⟨1,0⟩,⟨1,1⟩,⟨0,1⟩⟩ 1 1).1.toNat := by
        have := (Option.some_injective _ hu)
        rw [← this, lightingOutput_width]
      have hh : out.height = (lightingCropRect ⟨⟨0,0⟩,⟨1,0⟩,⟨1,1⟩,⟨0,1⟩⟩ 1 1).2.1.toNat := by
        have := (Option.some_injective _ hu)
        rw [← this, lightingOutput_height]
      rw [hw, hh, hcrect]
      norm_num

/-! ## Projective homography warp (src/unnamed/part_003, lines 269–378)

`homographyFromQuad` builds the 8×8 linear system of the 4-point
correspondence and runs Gauss–Jordan elimination with partial pivoting on
the augmented 8×9 matrix (modelled as `Fin 8 → Fin 9 → ℚ`), skipping a
column when the chosen pivot is below `1e-12` in absolute value. -/

/-- The `i`-th source corner `(0,0), (srcW,0), (srcW,srcH), (0,srcH)`. -/
def srcPt (srcW srcH : ℚ) : ℕ → ℚ × ℚ
  | 0 => (0, 0)
  | 1 => (srcW, 0)
  | 2 => (srcW, srcH)
  | _ => (0, srcH)

/-- The `i`-th destination corner of the quad. -/
def dstPt (q : Quad) : ℕ → ℚ × ℚ
  | 0 => (q.p0.x, q.p0.y)
  | 1 => (q.p1.x, q.p1.y)
  | 2 => (q.p2.x, q.p2.y)
  | _ => (q.p3.x, q.p3.y)

/-- The augmented 8×9 matrix `[A | b]` of `homographyFromQuad`: rows `2i`
and `2i+1` encode the x- and y-correspondence of corner `i`. -/
def homographyAug (q : Quad) (srcW srcH : ℚ) : Fin 8 → Fin 9 → ℚ := fun r c =>
  let i := r.val / 2
  let s := (srcPt srcW srcH i).1
  let t := (srcPt srcW srcH i).2
  let x := (dstPt q i).1
  let y := (dstPt q i).2
  if r.val % 2 = 0 then ![-s, -t, -1, 0, 0, 0, x * s, x * t, -x] c
  else ![0, 0, 0, -s, -t, -1, y * s, y * t, -y] c

/-- Partial pivoting: the row `≥ col` whose entry in column `col` has the
strictly largest absolute value, scanning rows in increasing order
starting from `col` itself. -/
def pivotRow (M : Fin 8 → Fin 9 → ℚ) (col : Fin 8) : Fin 8 :=
  (List.finRange 8).foldl (fun p r =>
    if col.val < r.val ∧ |M r col.castSucc| > |M p col.castSucc| then r else p) col

/-- The row permutation of a two-row swap. -/
def swapFn (i j r : Fin 8) : Fin 8 :=
  if r = i then j else if r = j then i else r

/-- Swap rows `i` and `j`. -/
def swapRows (M : Fin 8 → Fin 9 → ℚ) (i j : Fin 8) : Fin 8 → Fin 9 → ℚ :=
  fun r c => M (swapFn i j r) c

/-- Normalize row `col` by the pivot `d`, then subtract `f := M[r][col]`
times the normalized pivot row from every other row. -/
def elimStep (Ms : Fin 8 → Fin 9 → ℚ) (col : Fin 8) (d : ℚ) : Fin 8 → Fin 9 → ℚ :=
  let Mn : Fin 8 → Fin 9 → ℚ := fun r c => if r = col then Ms r c / d else Ms r c
  fun r c => if r = col then Mn r c else Mn r c - Mn r col.castSucc * Mn col c

/-- One column of the elimination: swap the pivot row up; if the pivot is
smaller than `1e-12` in absolute value, skip the column (`continue`) and
report failure, else normalize and eliminate. -/
def gaussStepP (M : Fin 8 → Fin 9 → ℚ) (col : Fin 8) : (Fin 8 → Fin 9 → ℚ) × Bool :=
  let p := pivotRow M col
  let Ms := swapRows M col p
  let d := Ms col col.castSucc
  if |d| < 1 / 1000000000000 then (Ms, false)
  else (elimStep Ms col d, true)

/-- Columns `0..k-1` of the elimination loop, with a flag recording whether
every processed column had an acceptable pivot. -/
def gaussUpTo : ℕ → (Fin 8 → Fin 9 → ℚ) → (Fin 8 → Fin 9 → ℚ) × Bool
  | 0, M => (M, true)
  | k + 1, M =>
    let s := gaussUpTo k M
    if h : k < 8 then
      let s2 := gaussStepP s.1 ⟨k, h⟩
      (s2.1, s.2 && s2.2)
    else s

def gaussSolve (M : Fin 8 → Fin 9 → ℚ) : Fin 8 → Fin 9 → ℚ := (gaussUpTo 8 M).1

/-- True when no column of the elimination was skipped for a tiny pivot. -/
def gaussOk (M : Fin 8 → Fin 9 → ℚ) : Bool := (gaussUpTo 8 M).2

/-- `homographyFromQuad` (part_003, lines 276–318): the first 8 entries are
the augmented column of the eliminated matrix, `H[8] = 1`. -/
def homographyFromQuad (q : Quad) (srcW srcH : ℚ) : Fin 9 → ℚ := fun i =>
  if h : i.val < 8 then gaussSolve (homographyAug q srcW srcH) ⟨i.val, h⟩ (Fin.last 8) else 1

/-- `homographyMap` (part_003, lines 320–327): homogeneous divide with the
`|w| < 1e-9` guard returning `(0, 0)`. -/
def homographyMap (H : Fin 9 → ℚ) (s t : ℚ) : ℚ × ℚ :=
  let w := H 6 * s + H 7 * t + H 8
  if |w| < 1 / 1000000000 then (0, 0)
  else ((H 0 * s + H 1 * t + H 2) / w, (H 3 * s + H 4 * t + H 5) / w)

/-! ### Gauss–Jordan correctness

Row operations preserve the solution set of the augmented system; when no
column is skipped the left block of the final matrix is the identity, so
the augmented column solves the original system exactly. -/

/-- The residual of one augmented row at a candidate solution `x`. -/
def rowEqRow (row : Fin 9 → ℚ) (x : Fin 8 → ℚ) : ℚ :=
  (∑ c : Fin 8, row c.castSucc * x c) - row (Fin.last 8)

/-- `x` solves every row of the augmented system `M`. -/
def SolMem (M : Fin 8 → Fin 9 → ℚ) (x : Fin 8 → ℚ) : Prop :=
  ∀ r, rowEqRow (M r) x = 0

lemma swapFn_invol (i j r : Fin 8) : swapFn i j (swapFn i j r) = r := by
  unfold swapFn
  by_cases h1 : r = i
  · by_cases h2 : i = j <;> simp [h1, h2]
  · by_cases h2 : r = j
    · simp [h1, h2]
    · simp [h1, h2]

lemma solMem_swapRows (M : Fin 8 → Fin 9 → ℚ) (i j : Fin 8) (x : Fin 8 → ℚ) :
    SolMem (swapRows M i j) x ↔ SolMem M x := by
  constructor
  · intro h r
    have := h (swapFn i j r)
    rwa [show (swapRows M i j) (swapFn i j r) = M r from by
      unfold swapRows; rw [swapFn_invol]] at this
  · intro h r
    exact h (swapFn i j r)

lemma rowEqRow_div (row : Fin 9 → ℚ) (d : ℚ) (x : Fin 8 → ℚ) :
    rowEqRow (fun c => row c / d) x = rowEqRow row x / d := by
  unfold rowEqRow
  rw [sub_div, Finset.sum_div]
  congr 1
  refine Finset.sum_congr rfl fun c _ => ?_
  ring

lemma rowEqRow_sub_mul (rowA rowB : Fin 9 → ℚ) (k : ℚ) (x : Fin 8 → ℚ) :
    rowEqRow (fun c => rowA c - k * rowB c) x = rowEqRow rowA x - k * rowEqRow rowB x := by
  unfold rowEqRow
  dsimp only
  have h1 : ∑ c : Fin 8, (rowA c.castSucc - k * rowB c.castSucc) * x c
      = (∑ c : Fin 8, rowA c.castSucc * x c) - k * ∑ c : Fin 8, rowB c.castSucc * x c := by
    rw [Finset.mul_sum, ← Finset.sum_sub_distrib]
    exact Finset.sum_congr rfl fun c _ => by ring
  rw [h1]
  ring

lemma elimStep_row_pivot (Ms : Fin 8 → Fin 9 → ℚ) (col : Fin 8) (d : ℚ) :
    (elimStep Ms col d) col = fun c => (Ms col) c / d := by
  funext c
  unfold elimStep
  simp

lemma elimStep_row_other (Ms : Fin 8 → Fin 9 → ℚ) (col : Fin 8) (d : ℚ) (r : Fin 8)
    (hr : r ≠ col) :
    (elimStep Ms col d) r = fun c => (Ms r) c - (Ms r col.castSucc / d) * (Ms col) c := by
  funext c
  unfold elimStep
  simp only [if_neg hr, eq_self_iff_true, if_true]
  ring

lemma solMem_elimStep (Ms : Fin 8 → Fin 9 → ℚ) (col : Fin 8) (d : ℚ) (hd : d ≠ 0)
    (x : Fin 8 → ℚ) : SolMem (elimStep Ms col d) x ↔ SolMem Ms x := by
  have hpiv : rowEqRow ((elimStep Ms col d) col) x = rowEqRow (Ms col) x / d := by
    rw [elimStep_row_pivot, rowEqRow_div]
  have hoth : ∀ r, r ≠ col → rowEqRow ((elimStep Ms col d) r) x
      = rowEqRow (Ms r) x - (Ms r col.castSucc / d) * rowEqRow (Ms col) x := by
    intro r hr
    rw [elimStep_row_other Ms col d r hr, rowEqRow_sub_mul]
  constructor
  · intro h r
    have hcol : rowEqRow (Ms col) x = 0 := by
      have hc := h col
      rw [hpiv] at hc
      field_simp at hc
      exact hc
    by_cases hr : r = col
    · rw [hr]
      exact hcol
    · have hc := h r
      rw [hoth r hr, hcol] at hc
      linarith [hc]
  · intro h r
    by_cases hr : r = col
    · rw [hr, hpiv, h col]
      simp
    · rw [hoth r hr, h col, h r]
      ring

lemma solMem_gaussStepP (M : Fin 8 → Fin 9 → ℚ) (col : Fin 8) (x : Fin 8 → ℚ) :
    SolMem (gaussStepP M col).1 x ↔ SolMem M x := by
  unfold gaussStepP
  dsimp only
  split
  · exact solMem_swapRows M col (pivotRow M col) x
  · rename_i hbig
    push_neg at hbig
    have hd : swapRows M col (pivotRow M col) col col.castSucc ≠ 0 := by
      intro h0
      rw [h0] at hbig
      norm_num at hbig
    exact (solMem_elimStep _ col _ hd x).trans (solMem_swapRows M col (pivotRow M col) x)

lemma solMem_gaussUpTo (M : Fin 8 → Fin 9 → ℚ) (x : Fin 8 → ℚ) :
    ∀ k, SolMem (gaussUpTo k M).1 x ↔ SolMem M x := by
  intro k
  induction k with
  | zero => exact Iff.rfl
  | succ k ih =>
    show SolMem (gaussUpTo (k + 1) M).1 x ↔ _
    unfold gaussUpTo
    dsimp only
    split
    · exact (solMem_gaussStepP _ _ x).trans ih
    · exact ih

/-- Columns `0..k-1` of `M` form the corresponding identity columns. -/
def IdBelow (M : Fin 8 → Fin 9 → ℚ) (k : ℕ) : Prop :=
  ∀ (r : Fin 8) (c : Fin 8), c.val < k → M r c.castSucc = if r = c then 1 else 0

lemma pivotRow_ge (M : Fin 8 → Fin 9 → ℚ) (col : Fin 8) : col ≤ pivotRow M col := by
  unfold pivotRow
  have hgen : ∀ (l : List (Fin 8)) (acc : Fin 8), col ≤ acc →
      col ≤ l.foldl (fun p r =>
        if col.val < r.val ∧ |M r col.castSucc| > |M p col.castSucc| then r else p) acc := by
    intro l
    induction l with
    | nil => exact fun acc h => h
    | cons a t ih =>
      intro acc hacc
      rw [List.foldl_cons]
      refine ih _ ?_
      split
      · rename_i hcond
        exact le_of_lt (by exact_mod_cast hcond.1)
      · exact hacc
  exact hgen _ col le_rfl

lemma idBelow_swapRows (M : Fin 8 → Fin 9 → ℚ) (col p : Fin 8) (hp : col ≤ p) (k : ℕ)
    (hk : k ≤ col.val) (hid : IdBelow M k) : IdBelow (swapRows M col p) k := by
  have hple : col.val ≤ p.val := hp
  intro r c hc
  unfold swapRows swapFn
  have hpc : ¬ p = c := by
    intro h
    have := congrArg Fin.val h
    omega
  have hcolc : ¬ col = c := by
    intro h
    have := congrArg Fin.val h
    omega
  by_cases h1 : r = col
  · rw [if_pos h1, hid p c hc, if_neg hpc, h1, if_neg hcolc]
  · rw [if_neg h1]
    by_cases h2 : r = p
    · rw [if_pos h2, hid col c hc, if_neg hcolc, h2, if_neg hpc]
    · rw [if_neg h2]
      exact hid r c hc

lemma idBelow_elimStep (Ms : Fin 8 → Fin 9 → ℚ) (col : Fin 8) (d : ℚ) (hd : d ≠ 0)
    (hdval : d = Ms col col.castSucc) (hid : IdBelow Ms col.val) :
    IdBelow (elimStep Ms col d) (col.val + 1) := by
  intro r c hc
  rcases Nat.lt_or_ge c.val col.val with hlt | hge
  · -- column strictly below `col`: values unchanged by the elimination
    have hcolc : ¬ col = c := by
      intro h
      have := congrArg Fin.val h
      omega
    by_cases hr : r = col
    · subst hr
      rw [elimStep_row_pivot]
      dsimp only
      rw [hid r c hlt, if_neg hcolc]
      norm_num
    · rw [elimStep_row_other Ms col d r hr]
      dsimp only
      rw [hid r c hlt, hid col c hlt, if_neg hcolc]
      ring
  · -- the new pivot column `c = col`
    have hceq : c = col := by
      have : c.val = col.val := by omega
      exact Fin.ext this
    subst hceq
    by_cases hr : r = c
    · rw [hr, elimStep_row_pivot]
      dsimp only
      rw [← hdval, div_self hd, if_pos rfl]
    · rw [elimStep_row_other Ms c d r hr]
      dsimp only
      rw [← hdval, if_neg hr]
      field_simp

lemma gaussUpTo_succ_eq (k : ℕ) (M : Fin 8 → Fin 9 → ℚ) :
    gaussUpTo (k + 1) M =
      if h : k < 8 then
        ((gaussStepP (gaussUpTo k M).1 ⟨k, h⟩).1,
          (gaussUpTo k M).2 && (gaussStepP (gaussUpTo k M).1 ⟨k, h⟩).2)
      else gaussUpTo k M := rfl

lemma gaussStepP_ok_idBelow (M : Fin 8 → Fin 9 → ℚ) (col : Fin 8)
    (hid : IdBelow M col.val) (hok : (gaussStepP M col).2 = true) :
    IdBelow (gaussStepP M col).1 (col.val + 1) := by
  unfold gaussStepP at hok ⊢
  dsimp only at hok ⊢
  by_cases hcond : |swapRows M col (pivotRow M col) col col.castSucc| < 1 / 1000000000000
  · rw [if_pos hcond] at hok
    exact absurd hok (by simp)
  · rw [if_neg hcond] at hok ⊢
    have hd : swapRows M col (pivotRow M col) col col.castSucc ≠ 0 := by
      intro h0
      rw [h0] at hcond
      norm_num at hcond
    exact idBelow_elimStep _ col _ hd rfl
      (idBelow_swapRows M col (pivotRow M col) (pivotRow_ge M col) col.val le_rfl hid)

lemma gaussUpTo_ok_prefix (M : Fin 8 → Fin 9 → ℚ) (k : ℕ)
    (hok : (gaussUpTo (k + 1) M).2 = true) : (gaussUpTo k M).2 = true := by
  rw [gaussUpTo_succ_eq] at hok
  by_cases h : k < 8
  · rw [dif_pos h] at hok
    exact (Bool.and_eq_true_iff.mp hok).1
  · rwa [dif_neg h] at hok

lemma gaussUpTo_idBelow (M : Fin 8 → Fin 9 → ℚ) :
    ∀ k, k ≤ 8 → (gaussUpTo k M).2 = true → IdBelow (gaussUpTo k M).1 k := by
  intro k
  induction k with
  | zero => exact fun _ _ r c hc => absurd hc (Nat.not_lt_zero _)
  | succ k ih =>
    intro hk hok
    have hk8 : k < 8 := by omega
    have hokk : (gaussUpTo k M).2 = true := gaussUpTo_ok_prefix M k hok
    have hid := ih (by omega) hokk
    rw [gaussUpTo_succ_eq] at hok ⊢
    rw [dif_pos hk8] at hok ⊢
    have hstepok : (gaussStepP (gaussUpTo k M).1 ⟨k, hk8⟩).2 = true := by
      dsimp only at hok
      exact (Bool.and_eq_true_iff.mp hok).2
    have := gaussStepP_ok_idBelow (gaussUpTo k M).1 ⟨k, hk8⟩ hid hstepok
    exact this

/-- If no pivot was skipped, the augmented column of the eliminated matrix
solves the original system exactly. -/
theorem gauss_correct (M : Fin 8 → Fin 9 → ℚ) (hok : gaussOk M = true) :
    SolMem M (fun r => gaussSolve M r (Fin.last 8)) := by
  have hid : IdBelow (gaussSolve M) 8 := gaussUpTo_idBelow M 8 le_rfl hok
  have hfin : SolMem (gaussSolve M) (fun r => gaussSolve M r (Fin.last 8)) := by
    intro r
    unfold rowEqRow
    have hsum : (∑ c : Fin 8, gaussSolve M r c.castSucc * gaussSolve M c (Fin.last 8))
        = gaussSolve M r (Fin.last 8) := by
      have : ∀ c : Fin 8, gaussSolve M r c.castSucc * gaussSolve M c (Fin.last 8)
          = (if r = c then 1 else 0) * gaussSolve M c (Fin.last 8) := by
        intro c
        rw [hid r c c.isLt]
      rw [Finset.sum_congr rfl fun c _ => this c]
      simp [ite_mul]
    rw [hsum]
    ring
  exact (solMem_gaussUpTo M _ 8).mp hfin

lemma rowEqRow_vec (a0 a1 a2 a3 a4 a5 a6 a7 a8 : ℚ) (x : Fin 8 → ℚ) :
    rowEqRow ![a0, a1, a2, a3, a4, a5, a6, a7, a8] x
      = a0 * x 0 + a1 * x 1 + a2 * x 2 + a3 * x 3 + a4 * x 4 + a5 * x 5
        + a6 * x 6 + a7 * x 7 - a8 := by
  unfold rowEqRow
  rw [Fin.sum_univ_eight]
  have h0 : ![a0, a1, a2, a3, a4, a5, a6, a7, a8] ((0 : Fin 8).castSucc) = a0 := rfl
  have h1 : ![a0, a1, a2, a3, a4, a5, a6, a7, a8] ((1 : Fin 8).castSucc) = a1 := rfl
  have h2 : ![a0, a1, a2, a3, a4, a5, a6, a7, a8] ((2 : Fin 8).castSucc) = a2 := rfl
  have h3 : ![a0, a1, a2, a3, a4, a5, a6, a7, a8] ((3 : Fin 8).castSucc) = a3 := rfl
  have h4 : ![a0, a1, a2, a3, a4, a5, a6, a7, a8] ((4 : Fin 8).castSucc) = a4 := rfl
  have h5 : ![a0, a1, a2, a3, a4, a5, a6, a7, a8] ((5 : Fin 8).castSucc) = a5 := rfl
  have h6 : ![a0, a1, a2, a3, a4, a5, a6, a7, a8] ((6 : Fin 8).castSucc) = a6 := rfl
  have h7 : ![a0, a1, a2, a3, a4, a5, a6, a7, a8] ((7 : Fin 8).castSucc) = a7 := rfl
  have h8 : ![a0, a1, a2, a3, a4, a5, a6, a7, a8] (Fin.last 8) = a8 := rfl
  rw [h0, h1, h2, h3, h4, h5, h6, h7, h8]

lemma rowEq_homographyAug_even (q : Quad) (srcW srcH : ℚ) (i : ℕ) (r : Fin 8)
    (hr : r.val = 2 * i) (x : Fin 8 → ℚ) :
    rowEqRow (homographyAug q srcW srcH r) x
      = -(srcPt srcW srcH i).1 * x 0 + -(srcPt srcW srcH i).2 * x 1 + -x 2
        + (dstPt q i).1 * (srcPt srcW srcH i).1 * x 6
        + (dstPt q i).1 * (srcPt srcW srcH i).2 * x 7 + (dstPt q i).1 := by
  have h2 : r.val / 2 = i := by omega
  have h0 : r.val % 2 = 0 := by omega
  have hrow : homographyAug q srcW srcH r
      = ![-(srcPt srcW srcH i).1, -(srcPt srcW srcH i).2, -1, 0, 0, 0,
          (dstPt q i).1 * (srcPt srcW srcH i).1, (dstPt q i).1 * (srcPt srcW srcH i).2,
          -(dstPt q i).1] := by
    funext c
    unfold homographyAug
    dsimp only
    rw [h2, if_pos h0]
  rw [hrow, rowEqRow_vec]
  ring

lemma rowEq_homographyAug_odd (q : Quad) (srcW srcH : ℚ) (i : ℕ) (r : Fin 8)
    (hr : r.val = 2 * i + 1) (x : Fin 8 → ℚ) :
    rowEqRow (homographyAug q srcW srcH r) x
      = -(srcPt srcW srcH i).1 * x 3 + -(srcPt srcW srcH i).2 * x 4 + -x 5
        + (dstPt q i).2 * (srcPt srcW srcH i).1 * x 6
        + (dstPt q i).2 * (srcPt srcW srcH i).2 * x 7 + (dstPt q i).2 := by
  have h2 : r.val / 2 = i := by omega
  have h0 : ¬ r.val % 2 = 0 := by omega
  have hrow : homographyAug q srcW srcH r
      = ![0, 0, 0, -(srcPt srcW srcH i).1, -(srcPt srcW srcH i).2, -1,
          (dstPt q i).2 * (srcPt srcW srcH i).1, (dstPt q i).2 * (srcPt srcW srcH i).2,
          -(dstPt q i).2] := by
    funext c
    unfold homographyAug
    dsimp only
    rw [h2, if_neg h0]
  rw [hrow, rowEqRow_vec]
  ring

/-- The homogeneous coordinate `w = H[6]*s + H[7]*t + H[8]` of
`homographyMap`. -/
def cornerW (H : Fin 9 → ℚ) (s t : ℚ) : ℚ := H 6 * s + H 7 * t + H 8

lemma homography_corner_eqs (q : Quad) (srcW srcH : ℚ)
    (hok : gaussOk (homographyAug q srcW srcH) = true) (i : ℕ) (hi : i < 4) :
    homographyFromQuad q srcW srcH 0 * (srcPt srcW srcH i).1
      + homographyFromQuad q srcW srcH 1 * (srcPt srcW srcH i).2
      + homographyFromQuad q srcW srcH 2
      = (dstPt q i).1 * cornerW (homographyFromQuad q srcW srcH)
          (srcPt srcW srcH i).1 (srcPt srcW srcH i).2
    ∧ homographyFromQuad q srcW srcH 3 * (srcPt srcW srcH i).1
      + homographyFromQuad q srcW srcH 4 * (srcPt srcW srcH i).2
      + homographyFromQuad q srcW srcH 5
      = (dstPt q i).2 * cornerW (homographyFromQuad q srcW srcH)
          (srcPt srcW srcH i).1 (srcPt srcW srcH i).2 := by
  have hsol := gauss_correct (homographyAug q srcW srcH) hok
  have hA := hsol ⟨2 * i, by omega⟩
  have hB := hsol ⟨2 * i + 1, by omega⟩
  rw [rowEq_homographyAug_even q srcW srcH i ⟨2 * i, by omega⟩ rfl] at hA
  rw [rowEq_homographyAug_odd q srcW srcH i ⟨2 * i + 1, by omega⟩ rfl] at hB
  have e0 : homographyFromQuad q srcW srcH 0
      = gaussSolve (homographyAug q srcW srcH) (0 : Fin 8) (Fin.last 8) := rfl
  have e1 : homographyFromQuad q srcW srcH 1
      = gaussSolve (homographyAug q srcW srcH) (1 : Fin 8) (Fin.last 8) := rfl
  have e2 : homographyFromQuad q srcW srcH 2
      = gaussSolve (homographyAug q srcW srcH) (2 : Fin 8) (Fin.last 8) := rfl
  have e3 : homographyFromQuad q srcW srcH 3
      = gaussSolve (homographyAug q srcW srcH) (3 : Fin 8) (Fin.last 8) := rfl
  have e4 : homographyFromQuad q srcW srcH 4
      = gaussSolve (homographyAug q srcW srcH) (4 : Fin 8) (Fin.last 8) := rfl
  have e5 : homographyFromQuad q srcW srcH 5
      = gaussSolve (homographyAug q srcW srcH) (5 : Fin 8) (Fin.last 8) := rfl
  have e6 : homographyFromQuad q srcW srcH 6
      = gaussSolve (homographyAug q srcW srcH) (6 : Fin 8) (Fin.last 8) := rfl
  have e7 : homographyFromQuad q srcW srcH 7
      = gaussSolve (homographyAug q srcW srcH) (7 : Fin 8) (Fin.last 8) := rfl
  have e8 : homographyFromQuad q srcW srcH 8 = 1 := rfl
  unfold cornerW
  rw [e0, e1, e2, e3, e4, e5, e6, e7, e8]
  constructor
  · linear_combination -hA
  · linear_combination -hB

/-- C1 (amended): provided the elimination skipped no column (every pivot
was at least `1e-12` in absolute value) and the homogeneous coordinate `w`
at each source corner clears the `1e-9` guard, `H[8] = 1` and
`homographyMap` sends every source corner exactly onto the corresponding
destination quad corner — in particular within the 1px tolerance. -/
theorem homographyFromQuad_maps_corners (q : Quad) (srcW srcH : ℚ)
    (hok : gaussOk (homographyAug q srcW srcH) = true)
    (hw : ∀ i, i < 4 → 1 / 1000000000 ≤
      |cornerW (homographyFromQuad q srcW srcH) (srcPt srcW srcH i).1 (srcPt srcW srcH i).2|) :
    homographyFromQuad q srcW srcH 8 = 1 ∧
    ∀ i, i < 4 →
      homographyMap (homographyFromQuad q srcW srcH)
        (srcPt srcW srcH i).1 (srcPt srcW srcH i).2 = dstPt q i
      ∧ |(homographyMap (homographyFromQuad q srcW srcH)
            (srcPt srcW srcH i).1 (srcPt srcW srcH i).2).1 - (dstPt q i).1| ≤ 1
      ∧ |(homographyMap (homographyFromQuad q srcW srcH)
            (srcPt srcW srcH i).1 (srcPt srcW srcH i).2).2 - (dstPt q i).2| ≤ 1 := by
  refine ⟨rfl, ?_⟩
  intro i hi
  obtain ⟨hx, hy⟩ := homography_corner_eqs q srcW srcH hok i hi
  have hwi := hw i hi
  have hne : cornerW (homographyFromQuad q srcW srcH)
      (srcPt srcW srcH i).1 (srcPt srcW srcH i).2 ≠ 0 := by
    intro h0
    rw [h0] at hwi
    norm_num at hwi
  have hmap : homographyMap (homographyFromQuad q srcW srcH)
      (srcPt srcW srcH i).1 (srcPt srcW srcH i).2 = dstPt q i := by
    unfold homographyMap
    dsimp only
    rw [if_neg (by
      rw [show homographyFromQuad q srcW srcH 6 * (srcPt srcW srcH i).1
          + homographyFromQuad q srcW srcH 7 * (srcPt srcW srcH i).2
          + homographyFromQuad q srcW srcH 8
          = cornerW (homographyFromQuad q srcW srcH) (srcPt srcW srcH i).1
              (srcPt srcW srcH i).2 from rfl]
      push_neg
      exact hwi)]
    have hwdef : homographyFromQuad q srcW srcH 6 * (srcPt srcW srcH i).1
        + homographyFromQuad q srcW srcH 7 * (srcPt srcW srcH i).2
        + homographyFromQuad q srcW srcH 8
        = cornerW (homographyFromQuad q srcW srcH) (srcPt srcW srcH i).1
            (srcPt srcW srcH i).2 := rfl
    rw [hwdef, hx, hy, mul_div_assoc, div_self hne, mul_one, mul_div_assoc, div_self hne,
      mul_one]
  refine ⟨hmap, ?_, ?_⟩
  · rw [hmap]
    simp
  · rw [hmap]
    simp

/-! ### C1/C2: concrete elimination traces

Three concrete runs of the elimination, evaluated column by column: the
unit square destination with a unit source (no column skipped), a 10×10
square destination with a `1e-13 × 1e-13` source (five columns skipped),
and a fully collinear destination quad with a 16×16 source (one column
skipped). -/

def c1wq : Quad := ⟨⟨0, 0⟩, ⟨1, 0⟩, ⟨1, 1⟩, ⟨0, 1⟩⟩

def c1wM0 : Fin 8 → Fin 9 → ℚ := ![![0,0,-1,0,0,0,0,0,0],![0,0,0,0,0,-1,0,0,0],![-1,0,-1,0,0,0,1,0,-1],![0,0,0,-1,0,-1,0,0,0],![-1,-1,-1,0,0,0,1,1,-1],![0,0,0,-1,-1,-1,1,1,-1],![0,-1,-1,0,0,0,0,0,0],![0,0,0,0,-1,-1,0,1,-1]]

lemma c1wAug : homographyAug c1wq 1 1 = c1wM0 := by
  funext r c
  fin_cases r <;> fin_cases c <;> norm_num [homographyAug, srcPt, dstPt, c1wq, c1wM0]

lemma c1wPiv0 : pivotRow c1wM0 ⟨0, by omega⟩ = ⟨2, by omega⟩ := by
  norm_num [pivotRow, List.finRange, Fin.ext_iff, c1wM0, List.foldl]

def c1wMs0 : Fin 8 → Fin 9 → ℚ := ![![-1,0,-1,0,0,0,1,0,-1],![0,0,0,0,0,-1,0,0,0],![0,0,-1,0,0,0,0,0,0],![0,0,0,-1,0,-1,0,0,0],![-1,-1,-1,0,0,0,1,1,-1],![0,0,0,-1,-1,-1,1,1,-1],![0,-1,-1,0,0,0,0,0,0],![0,0,0,0,-1,-1,0,1,-1]]

lemma c1wSwap0 : swapRows c1wM0 ⟨0, by omega⟩ ⟨2, by omega⟩ = c1wMs0 := by
  funext r c
  fin_cases r <;> fin_cases c <;> rfl

def c1wM1 : Fin 8 → Fin 9 → ℚ := ![![1,0,1,0,0,0,-1,0,1],![0,0,0,0,0,-1,0,0,0],![0,0,-1,0,0,0,0,0,0],![0,0,0,-1,0,-1,0,0,0],![0,-1,0,0,0,0,0,1,0],![0,0,0,-1,-1,-1,1,1,-1],![0,-1,-1,0,0,0,0,0,0],![0,0,0,0,-1,-1,0,1,-1]]

lemma c1wElim0 : elimStep c1wMs0 ⟨0, by omega⟩ (-1) = c1wM1 := by
  funext r c
  fin_cases r <;> fin_cases c <;> norm_num [elimStep, Fin.ext_iff, c1wMs0, c1wM1]

lemma c1wStep0 : gaussStepP c1wM0 ⟨0, by omega⟩ = (c1wM1, true) := by
  unfold gaussStepP
  dsimp only
  have hd : c1wMs0 (⟨0, by omega⟩ : Fin 8) (Fin.castSucc ⟨0, by omega⟩) = -1 := by
    norm_num [c1wMs0]
  rw [c1wPiv0, c1wSwap0, hd]
  rw [if_neg (by norm_num), c1wElim0]

lemma c1wChain1 : gaussUpTo 1 c1wM0 = (c1wM1, true) := by
  rw [gaussUpTo_succ_eq, dif_pos (by omega)]
  rw [show gaussUpTo 0 c1wM0 = (c1wM0, true) from rfl]
  dsimp only
  rw [c1wStep0]
  rfl

lemma c1wPiv1 : pivotRow c1wM1 ⟨1, by omega⟩ = ⟨4, by omega⟩ := by
  norm_num [pivotRow, List.finRange, Fin.ext_iff, c1wM1, List.foldl]

def c1wMs1 : Fin 8 → Fin 9 → ℚ := ![![1,0,1,0,0,0,-1,0,1],![0,-1,0,0,0,0,0,1,0],![0,0,-1,0,0,0,0,0,0],![0,0,0,-1,0,-1,0,0,0],![0,0,0,0,0,-1,0,0,0],![0,0,0,-1,-1,-1,1,1,-1],![0,-1,-1,0,0,0,0,0,0],![0,0,0,0,-1,-1,0,1,-1]]

lemma c1wSwap1 : swapRows c1wM1 ⟨1, by omega⟩ ⟨4, by omega⟩ = c1wMs1 := by
  funext r c
  fin_cases r <;> fin_cases c <;> rfl

def c1wM2 : Fin 8 → Fin 9 → ℚ := ![![1,0,1,0,0,0,-1,0,1],![0,1,0,0,0,0,0,-1,0],![0,0,-1,0,0,0,0,0,0],![0,0,0,-1,0,-1,0,0,0],![0,0,0,0,0,-1,0,0,0],![0,0,0,-1,-1,-1,1,1,-1],![0,0,-1,0,0,0,0,-1,0],![0,0,0,0,-1,-1,0,1,-1]]

lemma c1wElim1 : elimStep c1wMs1 ⟨1, by omega⟩ (-1) = c1wM2 := by
  funext r c
  fin_cases r <;> fin_cases c <;> norm_num [elimStep, Fin.ext_iff, c1wMs1, c1wM2]

lemma c1wStep1 : gaussStepP c1wM1 ⟨1, by omega⟩ = (c1wM2, true) := by
  unfold gaussStepP
  dsimp only
  have hd : c1wMs1 (⟨1, by omega⟩ : Fin 8) (Fin.castSucc ⟨1, by omega⟩) = -1 := by
    norm_num [c1wMs1]
  rw [c1wPiv1, c1wSwap1, hd]
  rw [if_neg (by norm_num), c1wElim1]

lemma c1wChain2 : gaussUpTo 2 c1wM0 = (c1wM2, true) := by
  rw [gaussUpTo_succ_eq, dif_pos (by omega)]
  rw [c1wChain1]
  dsimp only
  rw [c1wStep1]
  rfl

lemma c1wPiv2 : pivotRow c1wM2 ⟨2, by omega⟩ = ⟨2, by omega⟩ := by
  norm_num [pivotRow, List.finRange, Fin.ext_iff, c1wM2, List.foldl]

def c1wMs2 : Fin 8 → Fin 9 → ℚ := ![![1,0,1,0,0,0,-1,0,1],![0,1,0,0,0,0,0,-1,0],![0,0,-1,0,0,0,0,0,0],![0,0,0,-1,0,-1,0,0,0],![0,0,0,0,0,-1,0,0,0],![0,0,0,-1,-1,-1,1,1,-1],![0,0,-1,0,0,0,0,-1,0],![0,0,0,0,-1,-1,0,1,-1]]

lemma c1wSwap2 : swapRows c1wM2 ⟨2, by omega⟩ ⟨2, by omega⟩ = c1wMs2 := by
  funext r c
  fin_cases r <;> fin_cases c <;> rfl

def c1wM3 : Fin 8 → Fin 9 → ℚ := ![![1,0,0,0,0,0,-1,0,1],![0,1,0,0,0,0,0,-1,0],![0,0,1,0,0,0,0,0,0],![0,0,0,-1,0,-1,0,0,0],![0,0,0,0,0,-1,0,0,0],![0,0,0,-1,-1,-1,1,1,-1],![0,0,0,0,0,0,0,-1,0],![0,0,0,0,-1,-1,0,1,-1]]

lemma c1wElim2 : elimStep c1wMs2 ⟨2, by omega⟩ (-1) = c1wM3 := by
  funext r c
  fin_cases r <;> fin_cases c <;> norm_num [elimStep, Fin.ext_iff, c1wMs2, c1wM3]

lemma c1wStep2 : gaussStepP c1wM2 ⟨2, by omega⟩ = (c1wM3, true) := by
  unfold gaussStepP
  dsimp only
  have hd : c1wMs2 (⟨2, by omega⟩ : Fin 8) (Fin.castSucc ⟨2, by omega⟩) = -1 := by
    norm_num [c1wMs2]
  rw [c1wPiv2, c1wSwap2, hd]
  rw [if_neg (by norm_num), c1wElim2]

lemma c1wChain3 : gaussUpTo 3 c1wM0 = (c1wM3, true) := by
  rw [gaussUpTo_succ_eq, dif_pos (by omega)]
  rw [c1wChain2]
  dsimp only
  rw [c1wStep2]
  rfl

lemma c1wPiv3 : pivotRow c1wM3 ⟨3, by omega⟩ = ⟨3, by omega⟩ := by
  norm_num [pivotRow, List.finRange, Fin.ext_iff, c1wM3, List.foldl]

def c1wMs3 : Fin 8 → Fin 9 → ℚ := ![![1,0,0,0,0,0,-1,0,1],![0,1,0,0,0,0,0,-1,0],![0,0,1,0,0,0,0,0,0],![0,0,0,-1,0,-1,0,0,0],![0,0,0,0,0,-1,0,0,0],![0,0,0,-1,-1,-1,1,1,-1],![0,0,0,0,0,0,0,-1,0],![0,0,0,0,-1,-1,0,1,-1]]

lemma c1wSwap3 : swapRows c1wM3 ⟨3, by omega⟩ ⟨3, by omega⟩ = c1wMs3 := by
  funext r c
  fin_cases r <;> fin_cases c <;> rfl

def c1wM4 : Fin 8 → Fin 9 → ℚ := ![![1,0,0,0,0,0,-1,0,1],![0,1,0,0,0,0,0,-1,0],![0,0,1,0,0,0,0,0,0],![0,0,0,1,0,1,0,0,0],![0,0,0,0,0,-1,0,0,0],![0,0,0,0,-1,0,1,1,-1],![0,0,0,0,0,0,0,-1,0],![0,0,0,0,-1,-1,0,1,-1]]

lemma c1wElim3 : elimStep c1wMs3 ⟨3, by omega⟩ (-1) = c1wM4 := by
  funext r c
  fin_cases r <;> fin_cases c <;> norm_num [elimStep, Fin.ext_iff, c1wMs3, c1wM4]

lemma c1wStep3 : gaussStepP c1wM3 ⟨3, by omega⟩ = (c1wM4, true) := by
  unfold gaussStepP
  dsimp only
  have hd : c1wMs3 (⟨3, by omega⟩ : Fin 8) (Fin.castSucc ⟨3, by omega⟩) = -1 := by
    norm_num [c1wMs3]
  rw [c1wPiv3, c1wSwap3, hd]
  rw [if_neg (by norm_num), c1wElim3]

lemma c1wChain4 : gaussUpTo 4 c1wM0 = (c1wM4, true) := by
  rw [gaussUpTo_succ_eq, dif_pos (by omega)]
  rw [c1wChain3]
  dsimp only
  rw [c1wStep3]
  rfl

lemma c1wPiv4 : pivotRow c1wM4 ⟨4, by omega⟩ = ⟨5, by omega⟩ := by
  norm_num [pivotRow, List.finRange, Fin.ext_iff, c1wM4, List.foldl]

def c1wMs4 : Fin 8 → Fin 9 → ℚ := ![![1,0,0,0,0,0,-1,0,1],![0,1,0,0,0,0,0,-1,0],![0,0,1,0,0,0,0,0,0],![0,0,0,1,0,1,0,0,0],![0,0,0,0,-1,0,1,1,-1],![0,0,0,0,0,-1,0,0,0],![0,0,0,0,0,0,0,-1,0],![0,0,0,0,-1,-1,0,1,-1]]

lemma c1wSwap4 : swapRows c1wM4 ⟨4, by omega⟩ ⟨5, by omega⟩ = c1wMs4 := by
  funext r c
  fin_cases r <;> fin_cases c <;> rfl

def c1wM5 : Fin 8 → Fin 9 → ℚ := ![![1,0,0,0,0,0,-1,0,1],![0,1,0,0,0,0,0,-1,0],![0,0,1,0,0,0,0,0,0],![0,0,0,1,0,1,0,0,0],![0,0,0,0,1,0,-1,-1,1],![0,0,0,0,0,-1,0,0,0],![0,0,0,0,0,0,0,-1,0],![0,0,0,0,0,-1,-1,0,0]]

lemma c1wElim4 : elimStep c1wMs4 ⟨4, by omega⟩ (-1) = c1wM5 := by
  funext r c
  fin_cases r <;> fin_cases c <;> norm_num [elimStep, Fin.ext_iff, c1wMs4, c1wM5]

lemma c1wStep4 : gaussStepP c1wM4 ⟨4, by omega⟩ = (c1wM5, true) := by
  unfold gaussStepP
  dsimp only
  have hd : c1wMs4 (⟨4, by omega⟩ : Fin 8) (Fin.castSucc ⟨4, by omega⟩) = -1 := by
    norm_num [c1wMs4]
  rw [c1wPiv4, c1wSwap4, hd]
  rw [if_neg (by norm_num), c1wElim4]

lemma c1wChain5 : gaussUpTo 5 c1wM0 = (c1wM5, true) := by
  rw [gaussUpTo_succ_eq, dif_pos (by omega)]
  rw [c1wChain4]
  dsimp only
  rw [c1wStep4]
  rfl

lemma c1wPiv5 : pivotRow c1wM5 ⟨5, by omega⟩ = ⟨5, by omega⟩ := by
  norm_num [pivotRow, List.finRange, Fin.ext_iff, c1wM5, List.foldl]

def c1wMs5 : Fin 8 → Fin 9 → ℚ := ![![1,0,0,0,0,0,-1,0,1],![0,1,0,0,0,0,0,-1,0],![0,0,1,0,0,0,0,0,0],![0,0,0,1,0,1,0,0,0],![0,0,0,0,1,0,-1,-1,1],![0,0,0,0,0,-1,0,0,0],![0,0,0,0,0,0,0,-1,0],![0,0,0,0,0,-1,-1,0,0]]

lemma c1wSwap5 : swapRows c1wM5 ⟨5, by omega⟩ ⟨5, by omega⟩ = c1wMs5 := by
  funext r c
  fin_cases r <;> fin_cases c <;> rfl

def c1wM6 : Fin 8 → Fin 9 → ℚ := ![![1,0,0,0,0,0,-1,0,1],![0,1,0,0,0,0,0,-1,0],![0,0,1,0,0,0,0,0,0],![0,0,0,1,0,0,0,0,0],![0,0,0,0,1,0,-1,-1,1],![0,0,0,0,0,1,0,0,0],![0,0,0,0,0,0,0,-1,0],![0,0,0,0,0,0,-1,0,0]]

lemma c1wElim5 : elimStep c1wMs5 ⟨5, by omega⟩ (-1) = c1wM6 := by
  funext r c
  fin_cases r <;> fin_cases c <;> norm_num [elimStep, Fin.ext_iff, c1wMs5, c1wM6]

lemma c1wStep5 : gaussStepP c1wM5 ⟨5, by omega⟩ = (c1wM6, true) := by
  unfold gaussStepP
  dsimp only
  have hd : c1wMs5 (⟨5, by omega⟩ : Fin 8) (Fin.castSucc ⟨5, by omega⟩) = -1 := by
    norm_num [c1wMs5]
  rw [c1wPiv5, c1wSwap5, hd]
  rw [if_neg (by norm_num), c1wElim5]

lemma c1wChain6 : gaussUpTo 6 c1wM0 = (c1wM6, true) := by
  rw [gaussUpTo_succ_eq, dif_pos (by omega)]
  rw [c1wChain5]
  dsimp only
  rw [c1wStep5]
  rfl

lemma c1wPiv6 : pivotRow c1wM6 ⟨6, by omega⟩ = ⟨7, by omega⟩ := by
  norm_num [pivotRow, List.finRange, Fin.ext_iff, c1wM6, List.foldl]

def c1wMs6 : Fin 8 → Fin 9 → ℚ := ![![1,0,0,0,0,0,-1,0,1],![0,1,0,0,0,0,0,-1,0],![0,0,1,0,0,0,0,0,0],![0,0,0,1,0,0,0,0,0],![0,0,0,0,1,0,-1,-1,1],![0,0,0,0,0,1,0,0,0],![0,0,0,0,0,0,-1,0,0],![0,0,0,0,0,0,0,-1,0]]

lemma c1wSwap6 : swapRows c1wM6 ⟨6, by omega⟩ ⟨7, by omega⟩ = c1wMs6 := by
  funext r c
  fin_cases r <;> fin_cases c <;> rfl

def c1wM7 : Fin 8 → Fin 9 → ℚ := ![![1,0,0,0,0,0,0,0,1],![0,1,0,0,0,0,0,-1,0],![0,0,1,0,0,0,0,0,0],![0,0,0,1,0,0,0,0,0],![0,0,0,0,1,0,0,-1,1],![0,0,0,0,0,1,0,0,0],![0,0,0,0,0,0,1,0,0],![0,0,0,0,0,0,0,-1,0]]

lemma c1wElim6 : elimStep c1wMs6 ⟨6, by omega⟩ (-1) = c1wM7 := by
  funext r c
  fin_cases r <;> fin_cases c <;> norm_num [elimStep, Fin.ext_iff, c1wMs6, c1wM7]

lemma c1wStep6 : gaussStepP c1wM6 ⟨6, by omega⟩ = (c1wM7, true) := by
  unfold gaussStepP
  dsimp only
  have hd : c1wMs6 (⟨6, by omega⟩ : Fin 8) (Fin.castSucc ⟨6, by omega⟩) = -1 := by
    norm_num [c1wMs6]
  rw [c1wPiv6, c1wSwap6, hd]
  rw [if_neg (by norm_num), c1wElim6]

lemma c1wChain7 : gaussUpTo 7 c1wM0 = (c1wM7, true) := by
  rw [gaussUpTo_succ_eq, dif_pos (by omega)]
  rw [c1wChain6]
  dsimp only
  rw [c1wStep6]
  rfl

lemma c1wPiv7 : pivotRow c1wM7 ⟨7, by omega⟩ = ⟨7, by omega⟩ := by
  norm_num [pivotRow, List.finRange, Fin.ext_iff, c1wM7, List.foldl]

def c1wMs7 : Fin 8 → Fin 9 → ℚ := ![![1,0,0,0,0,0,0,0,1],![0,1,0,0,0,0,0,-1,0],![0,0,1,0,0,0,0,0,0],![0,0,0,1,0,0,0,0,0],![0,0,0,0,1,0,0,-1,1],![0,0,0,0,0,1,0,0,0],![0,0,0,0,0,0,1,0,0],![0,0,0,0,0,0,0,-1,0]]

lemma c1wSwap7 : swapRows c1wM7 ⟨7, by omega⟩ ⟨7, by omega⟩ = c1wMs7 := by
  funext r c
  fin_cases r <;> fin_cases c <;> rfl

def c1wM8 : Fin 8 → Fin 9 → ℚ := ![![1,0,0,0,0,0,0,0,1],![0,1,0,0,0,0,0,0,0],![0,0,1,0,0,0,0,0,0],![0,0,0,1,0,0,0,0,0],![0,0,0,0,1,0,0,0,1],![0,0,0,0,0,1,0,0,0],![0,0,0,0,0,0,1,0,0],![0,0,0,0,0,0,0,1,0]]

lemma c1wElim7 : elimStep c1wMs7 ⟨7, by omega⟩ (-1) = c1wM8 := by
  funext r c
  fin_cases r <;> fin_cases c <;> norm_num [elimStep, Fin.ext_iff, c1wMs7, c1wM8]

lemma c1wStep7 : gaussStepP c1wM7 ⟨7, by omega⟩ = (c1wM8, true) := by
  unfold gaussStepP
  dsimp only
  have hd : c1wMs7 (⟨7, by omega⟩ : Fin 8) (Fin.castSucc ⟨7, by omega⟩) = -1 := by
    norm_num [c1wMs7]
  rw [c1wPiv7, c1wSwap7, hd]
  rw [if_neg (by norm_num), c1wElim7]

lemma c1wChain8 : gaussUpTo 8 c1wM0 = (c1wM8, true) := by
  rw [gaussUpTo_succ_eq, dif_pos (by omega)]
  rw [c1wChain7]
  dsimp only
  rw [c1wStep7]
  rfl

lemma c1wOk : gaussOk (homographyAug c1wq 1 1) = true := by
  unfold gaussOk
  rw [c1wAug, c1wChain8]

def c1wH : Fin 9 → ℚ := ![1,0,0,0,1,0,0,0,1]

lemma c1wHlem : homographyFromQuad c1wq 1 1 = c1wH := by
  funext i
  fin_cases i <;> norm_num [homographyFromQuad, gaussSolve, c1wAug, c1wChain8, c1wM8, c1wH, Fin.last]

def c1xq : Quad := ⟨⟨0, 0⟩, ⟨10, 0⟩, ⟨10, 10⟩, ⟨0, 10⟩⟩

def c1xM0 : Fin 8 → Fin 9 → ℚ := ![![0,0,-1,0,0,0,0,0,0],![0,0,0,0,0,-1,0,0,0],![-1/10000000000000,0,-1,0,0,0,1/1000000000000,0,-10],![0,0,0,-1/10000000000000,0,-1,0,0,0],![-1/10000000000000,-1/10000000000000,-1,0,0,0,1/1000000000000,1/1000000000000,-10],![0,0,0,-1/10000000000000,-1/10000000000000,-1,1/1000000000000,1/1000000000000,-10],![0,-1/10000000000000,-1,0,0,0,0,0,0],![0,0,0,0,-1/10000000000000,-1,0,1/1000000000000,-10]]

lemma c1xAug : homographyAug c1xq (1/10000000000000) (1/10000000000000) = c1xM0 := by
  funext r c
  fin_cases r <;> fin_cases c <;> norm_num [homographyAug, srcPt, dstPt, c1xq, c1xM0]

lemma c1xPiv0 : pivotRow c1xM0 ⟨0, by omega⟩ = ⟨2, by omega⟩ := by
  have e0 : c1xM0 ⟨0, by omega⟩ (Fin.castSucc ⟨0, by omega⟩) = 0 := rfl
  have e1 : c1xM0 1 (Fin.castSucc ⟨0, by omega⟩) = 0 := rfl
  have e2 : c1xM0 2 (Fin.castSucc ⟨0, by omega⟩) = -1/10000000000000 := rfl
  have e3 : c1xM0 3 (Fin.castSucc ⟨0, by omega⟩) = 0 := rfl
  have e4 : c1xM0 4 (Fin.castSucc ⟨0, by omega⟩) = -1/10000000000000 := rfl
  have e5 : c1xM0 5 (Fin.castSucc ⟨0, by omega⟩) = 0 := rfl
  have e6 : c1xM0 6 (Fin.castSucc ⟨0, by omega⟩) = 0 := rfl
  have e7 : c1xM0 7 (Fin.castSucc ⟨0, by omega⟩) = 0 := rfl
  rw [pivotRow, show List.finRange 8 = [0, 1, 2, 3, 4, 5, 6, 7] from rfl]
  simp only [List.foldl_cons, List.foldl_nil]
  rw [if_neg (show ¬((⟨0, by omega⟩ : Fin 8).val < (0 : Fin 8).val ∧
        |c1xM0 0 (Fin.castSucc ⟨0, by omega⟩)| > |c1xM0 ⟨0, by omega⟩ (Fin.castSucc ⟨0, by omega⟩)|)
      from fun h => absurd h.1 (by decide)),
    if_neg (show ¬((⟨0, by omega⟩ : Fin 8).val < (1 : Fin 8).val ∧
        |c1xM0 1 (Fin.castSucc ⟨0, by omega⟩)| > |c1xM0 ⟨0, by omega⟩ (Fin.castSucc ⟨0, by omega⟩)|)
      from fun h => absurd h.2 (by rw [e1, e0]; norm_num)),
    if_pos (show (⟨0, by omega⟩ : Fin 8).val < (2 : Fin 8).val ∧
        |c1xM0 2 (Fin.castSucc ⟨0, by omega⟩)| > |c1xM0 ⟨0, by omega⟩ (Fin.castSucc ⟨0, by omega⟩)|
      from ⟨by decide, by rw [e2, e0]; norm_num⟩),
    if_neg (show ¬((⟨0, by omega⟩ : Fin 8).val < (3 : Fin 8).val ∧
        |c1xM0 3 (Fin.castSucc ⟨0, by omega⟩)| > |c1xM0 2 (Fin.castSucc ⟨0, by omega⟩)|)
      from fun h => absurd h.2 (by rw [e3, e2]; norm_num)),
    if_neg (show ¬((⟨0, by omega⟩ : Fin 8).val < (4 : Fin 8).val ∧
        |c1xM0 4 (Fin.castSucc ⟨0, by omega⟩)| > |c1xM0 2 (Fin.castSucc ⟨0, by omega⟩)|)
      from fun h => absurd h.2 (by rw [e4, e2]; norm_num)),
    if_neg (show ¬((⟨0, by omega⟩ : Fin 8).val < (5 : Fin 8).val ∧
        |c1xM0 5 (Fin.castSucc ⟨0, by omega⟩)| > |c1xM0 2 (Fin.castSucc ⟨0, by omega⟩)|)
      from fun h => absurd h.2 (by rw [e5, e2]; norm_num)),
    if_neg (show ¬((⟨0, by omega⟩ : Fin 8).val < (6 : Fin 8).val ∧
        |c1xM0 6 (Fin.castSucc ⟨0, by omega⟩)| > |c1xM0 2 (Fin.castSucc ⟨0, by omega⟩)|)
      from fun h => absurd h.2 (by rw [e6, e2]; norm_num)),
    if_neg (show ¬((⟨0, by omega⟩ : Fin 8).val < (7 : Fin 8).val ∧
        |c1xM0 7 (Fin.castSucc ⟨0, by omega⟩)| > |c1xM0 2 (Fin.castSucc ⟨0, by omega⟩)|)
      from fun h => absurd h.2 (by rw [e7, e2]; norm_num))]
  decide

def c1xM1 : Fin 8 → Fin 9 → ℚ := ![![-1/10000000000000,0,-1,0,0,0,1/1000000000000,0,-10],![0,0,0,0,0,-1,0,0,0],![0,0,-1,0,0,0,0,0,0],![0,0,0,-1/10000000000000,0,-1,0,0,0],![-1/10000000000000,-1/10000000000000,-1,0,0,0,1/1000000000000,1/1000000000000,-10],![0,0,0,-1/10000000000000,-1/10000000000000,-1,1/1000000000000,1/1000000000000,-10],![0,-1/10000000000000,-1,0,0,0,0,0,0],![0,0,0,0,-1/10000000000000,-1,0,1/1000000000000,-10]]

lemma c1xSwap0 : swapRows c1xM0 ⟨0, by omega⟩ ⟨2, by omega⟩ = c1xM1 := by
  funext r c
  fin_cases r <;> fin_cases c <;> rfl

lemma c1xStep0 : gaussStepP c1xM0 ⟨0, by omega⟩ = (c1xM1, false) := by
  unfold gaussStepP
  dsimp only
  have hd : c1xM1 (⟨0, by omega⟩ : Fin 8) (Fin.castSucc ⟨0, by omega⟩) = -1/10000000000000 := by
    norm_num [c1xM1]
  rw [c1xPiv0, c1xSwap0, hd]
  rw [if_pos (by norm_num [abs_div, abs_neg, abs_one, abs_zero, Nat.abs_ofNat])]

lemma c1xChain1 : gaussUpTo 1 c1xM0 = (c1xM1, false) := by
  rw [gaussUpTo_succ_eq, dif_pos (by omega)]
  rw [show gaussUpTo 0 c1xM0 = (c1xM0, true) from rfl]
  dsimp only
  rw [c1xStep0]
  rfl

lemma c1xPiv1 : pivotRow c1xM1 ⟨1, by omega⟩ = ⟨4, by omega⟩ := by
  have e0 : c1xM1 0 (Fin.castSucc ⟨1, by omega⟩) = 0 := rfl
  have e1 : c1xM1 ⟨1, by omega⟩ (Fin.castSucc ⟨1, by omega⟩) = 0 := rfl
  have e2 : c1xM1 2 (Fin.castSucc ⟨1, by omega⟩) = 0 := rfl
  have e3 : c1xM1 3 (Fin.castSucc ⟨1, by omega⟩) = 0 := rfl
  have e4 : c1xM1 4 (Fin.castSucc ⟨1, by omega⟩) = -1/10000000000000 := rfl
  have e5 : c1xM1 5 (Fin.castSucc ⟨1, by omega⟩) = 0 := rfl
  have e6 : c1xM1 6 (Fin.castSucc ⟨1, by omega⟩) = -1/10000000000000 := rfl
  have e7 : c1xM1 7 (Fin.castSucc ⟨1, by omega⟩) = 0 := rfl
  rw [pivotRow, show List.finRange 8 = [0, 1, 2, 3, 4, 5, 6, 7] from rfl]
  simp only [List.foldl_cons, List.foldl_nil]
  rw [if_neg (show ¬((⟨1, by omega⟩ : Fin 8).val < (0 : Fin 8).val ∧
        |c1xM1 0 (Fin.castSucc ⟨1, by omega⟩)| > |c1xM1 ⟨1, by omega⟩ (Fin.castSucc ⟨1, by omega⟩)|)
      from fun h => absurd h.1 (by decide)),
    if_neg (show ¬((⟨1, by omega⟩ : Fin 8).val < (1 : Fin 8).val ∧
        |c1xM1 1 (Fin.castSucc ⟨1, by omega⟩)| > |c1xM1 ⟨1, by omega⟩ (Fin.castSucc ⟨1, by omega⟩)|)
      from fun h => absurd h.1 (by decide)),
    if_neg (show ¬((⟨1, by omega⟩ : Fin 8).val < (2 : Fin 8).val ∧
        |c1xM1 2 (Fin.castSucc ⟨1, by omega⟩)| > |c1xM1 ⟨1, by omega⟩ (Fin.castSucc ⟨1, by omega⟩)|)
      from fun h => absurd h.2 (by rw [e2, e1]; norm_num [abs_div, abs_neg, abs_one, abs_zero, Nat.abs_ofNat])),
    if_neg (show ¬((⟨1, by omega⟩ : Fin 8).val < (3 : Fin 8).val ∧
        |c1xM1 3 (Fin.castSucc ⟨1, by omega⟩)| > |c1xM1 ⟨1, by omega⟩ (Fin.castSucc ⟨1, by omega⟩)|)
      from fun h => absurd h.2 (by rw [e3, e1]; norm_num [abs_div, abs_neg, abs_one, abs_zero, Nat.abs_ofNat])),
    if_pos (show (⟨1, by omega⟩ : Fin 8).val < (4 : Fin 8).val ∧
        |c1xM1 4 (Fin.castSucc ⟨1, by omega⟩)| > |c1xM1 ⟨1, by omega⟩ (Fin.castSucc ⟨1, by omega⟩)|
      from ⟨by decide, by rw [e4, e1]; norm_num [abs_div, abs_neg, abs_one, abs_zero, Nat.abs_ofNat]⟩),
    if_neg (show ¬((⟨1, by omega⟩ : Fin 8).val < (5 : Fin 8).val ∧
        |c1xM1 5 (Fin.castSucc ⟨1, by omega⟩)| > |c1xM1 4 (Fin.castSucc ⟨1, by omega⟩)|)
      from fun h => absurd h.2 (by rw [e5, e4]; norm_num [abs_div, abs_neg, abs_one, abs_zero, Nat.abs_ofNat])),
    if_neg (show ¬((⟨1, by omega⟩ : Fin 8).val < (6 : Fin 8).val ∧
        |c1xM1 6 (Fin.castSucc ⟨1, by omega⟩)| > |c1xM1 4 (Fin.castSucc ⟨1, by omega⟩)|)
      from fun h => absurd h.2 (by rw [e6, e4]; norm_num [abs_div, abs_neg, abs_one, abs_zero, Nat.abs_ofNat])),
    if_neg (show ¬((⟨1, by omega⟩ : Fin 8).val < (7 : Fin 8).val ∧
        |c1xM1 7 (Fin.castSucc ⟨1, by omega⟩)| > |c1xM1 4 (Fin.castSucc ⟨1, by omega⟩)|)
      from fun h => absurd h.2 (by rw [e7, e4]; norm_num [abs_div, abs_neg, abs_one, abs_zero, Nat.abs_ofNat]))]
  decide

def c1xM2 : Fin 8 → Fin 9 → ℚ := ![![-1/10000000000000,0,-1,0,0,0,1/1000000000000,0,-10],![-1/10000000000000,-1/10000000000000,-1,0,0,0,1/1000000000000,1/1000000000000,-10],![0,0,-1,0,0,0,0,0,0],![0,0,0,-1/10000000000000,0,-1,0,0,0],![0,0,0,0,0,-1,0,0,0],![0,0,0,-1/10000000000000,-1/10000000000000,-1,1/1000000000000,1/1000000000000,-10],![0,-1/10000000000000,-1,0,0,0,0,0,0],![0,0,0,0,-1/10000000000000,-1,0,1/1000000000000,-10]]

lemma c1xSwap1 : swapRows c1xM1 ⟨1, by omega⟩ ⟨4, by omega⟩ = c1xM2 := by
  funext r c
  fin_cases r <;> fin_cases c <;> rfl

lemma c1xStep1 : gaussStepP c1xM1 ⟨1, by omega⟩ = (c1xM2, false) := by
  unfold gaussStepP
  dsimp only
  have hd : c1xM2 (⟨1, by omega⟩ : Fin 8) (Fin.castSucc ⟨1, by omega⟩) = -1/10000000000000 := by
    norm_num [c1xM2]
  rw [c1xPiv1, c1xSwap1, hd]
  rw [if_pos (by norm_num [abs_div, abs_neg, abs_one, abs_zero, Nat.abs_ofNat])]

lemma c1xChain2 : gaussUpTo 2 c1xM0 = (c1xM2, false) := by
  rw [gaussUpTo_succ_eq, dif_pos (by omega)]
  rw [c1xChain1]
  dsimp only
  rw [c1xStep1]
  rfl

lemma c1xPiv2 : pivotRow c1xM2 ⟨2, by omega⟩ = ⟨2, by omega⟩ := by
  norm_num [pivotRow, List.finRange, Fin.ext_iff, c1xM2, List.foldl]

def c1xMs2 : Fin 8 → Fin 9 → ℚ := ![![-1/10000000000000,0,-1,0,0,0,1/1000000000000,0,-10],![-1/10000000000000,-1/10000000000000,-1,0,0,0,1/1000000000000,1/1000000000000,-10],![0,0,-1,0,0,0,0,0,0],![0,0,0,-1/10000000000000,0,-1,0,0,0],![0,0,0,0,0,-1,0,0,0],![0,0,0,-1/10000000000000,-1/10000000000000,-1,1/1000000000000,1/1000000000000,-10],![0,-1/10000000000000,-1,0,0,0,0,0,0],![0,0,0,0,-1/10000000000000,-1,0,1/1000000000000,-10]]

lemma c1xSwap2 : swapRows c1xM2 ⟨2, by omega⟩ ⟨2, by omega⟩ = c1xMs2 := by
  funext r c
  fin_cases r <;> fin_cases c <;> rfl

def c1xM3 : Fin 8 → Fin 9 → ℚ := ![![-1/10000000000000,0,0,0,0,0,1/1000000000000,0,-10],![-1/10000000000000,-1/10000000000000,0,0,0,0,1/1000000000000,1/1000000000000,-10],![0,0,1,0,0,0,0,0,0],![0,0,0,-1/10000000000000,0,-1,0,0,0],![0,0,0,0,0,-1,0,0,0],![0,0,0,-1/10000000000000,-1/10000000000000,-1,1/1000000000000,1/1000000000000,-10],![0,-1/10000000000000,0,0,0,0,0,0,0],![0,0,0,0,-1/10000000000000,-1,0,1/1000000000000,-10]]

lemma c1xElim2 : elimStep c1xMs2 ⟨2, by omega⟩ (-1) = c1xM3 := by
  funext r c
  fin_cases r <;> fin_cases c <;> norm_num [elimStep, Fin.ext_iff, c1xMs2, c1xM3]

lemma c1xStep2 : gaussStepP c1xM2 ⟨2, by omega⟩ = (c1xM3, true) := by
  unfold gaussStepP
  dsimp only
  have hd : c1xMs2 (⟨2, by omega⟩ : Fin 8) (Fin.castSucc ⟨2, by omega⟩) = -1 := by
    norm_num [c1xMs2]
  rw [c1xPiv2, c1xSwap2, hd]
  rw [if_neg (by norm_num), c1xElim2]

lemma c1xChain3 : gaussUpTo 3 c1xM0 = (c1xM3, false) := by
  rw [gaussUpTo_succ_eq, dif_pos (by omega)]
  rw [c1xChain2]
  dsimp only
  rw [c1xStep2]
  rfl

lemma c1xPiv3 : pivotRow c1xM3 ⟨3, by omega⟩ = ⟨3, by omega⟩ := by
  have e0 : c1xM3 0 (Fin.castSucc ⟨3, by omega⟩) = 0 := rfl
  have e1 : c1xM3 1 (Fin.castSucc ⟨3, by omega⟩) = 0 := rfl
  have e2 : c1xM3 2 (Fin.castSucc ⟨3, by omega⟩) = 0 := rfl
  have e3 : c1xM3 ⟨3, by omega⟩ (Fin.castSucc ⟨3, by omega⟩) = -1/10000000000000 := rfl
  have e4 : c1xM3 4 (Fin.castSucc ⟨3, by omega⟩) = 0 := rfl
  have e5 : c1xM3 5 (Fin.castSucc ⟨3, by omega⟩) = -1/10000000000000 := rfl
  have e6 : c1xM3 6 (Fin.castSucc ⟨3, by omega⟩) = 0 := rfl
  have e7 : c1xM3 7 (Fin.castSucc ⟨3, by omega⟩) = 0 := rfl
  rw [pivotRow, show List.finRange 8 = [0, 1, 2, 3, 4, 5, 6, 7] from rfl]
  simp only [List.foldl_cons, List.foldl_nil]
  rw [if_neg (show ¬((⟨3, by omega⟩ : Fin 8).val < (0 : Fin 8).val ∧
        |c1xM3 0 (Fin.castSucc ⟨3, by omega⟩)| > |c1xM3 ⟨3, by omega⟩ (Fin.castSucc ⟨3, by omega⟩)|)
      from fun h => absurd h.1 (by decide)),
    if_neg (show ¬((⟨3, by omega⟩ : Fin 8).val < (1 : Fin 8).val ∧
        |c1xM3 1 (Fin.castSucc ⟨3, by omega⟩)| > |c1xM3 ⟨3, by omega⟩ (Fin.castSucc ⟨3, by omega⟩)|)
      from fun h => absurd h.1 (by decide)),
    if_neg (show ¬((⟨3, by omega⟩ : Fin 8).val < (2 : Fin 8).val ∧
        |c1xM3 2 (Fin.castSucc ⟨3, by omega⟩)| > |c1xM3 ⟨3, by omega⟩ (Fin.castSucc ⟨3, by omega⟩)|)
      from fun h => absurd h.1 (by decide)),
    if_neg (show ¬((⟨3, by omega⟩ : Fin 8).val < (3 : Fin 8).val ∧
        |c1xM3 3 (Fin.castSucc ⟨3, by omega⟩)| > |c1xM3 ⟨3, by omega⟩ (Fin.castSucc ⟨3, by omega⟩)|)
      from fun h => absurd h.1 (by decide)),
    if_neg (show ¬((⟨3, by omega⟩ : Fin 8).val < (4 : Fin 8).val ∧
        |c1xM3 4 (Fin.castSucc ⟨3, by omega⟩)| > |c1xM3 ⟨3, by omega⟩ (Fin.castSucc ⟨3, by omega⟩)|)
      from fun h => absurd h.2 (by rw [e4, e3]; norm_num [abs_div, abs_neg, abs_one, abs_zero, Nat.abs_ofNat])),
    if_neg (show ¬((⟨3, by omega⟩ : Fin 8).val < (5 : Fin 8).val ∧
        |c1xM3 5 (Fin.castSucc ⟨3, by omega⟩)| > |c1xM3 ⟨3, by omega⟩ (Fin.castSucc ⟨3, by omega⟩)|)
      from fun h => absurd h.2 (by rw [e5, e3]; norm_num [abs_div, abs_neg, abs_one, abs_zero, Nat.abs_ofNat])),
    if_neg (show ¬((⟨3, by omega⟩ : Fin 8).val < (6 : Fin 8).val ∧
        |c1xM3 6 (Fin.castSucc ⟨3, by omega⟩)| > |c1xM3 ⟨3, by omega⟩ (Fin.castSucc ⟨3, by omega⟩)|)
      from fun h => absurd h.2 (by rw [e6, e3]; norm_num [abs_div, abs_neg, abs_one, abs_zero, Nat.abs_ofNat])),
    if_neg (show ¬((⟨3, by omega⟩ : Fin 8).val < (7 : Fin 8).val ∧
        |c1xM3 7 (Fin.castSucc ⟨3, by omega⟩)| > |c1xM3 ⟨3, by omega⟩ (Fin.castSucc ⟨3, by omega⟩)|)
      from fun h => absurd h.2 (by rw [e7, e3]; norm_num [abs_div, abs_neg, abs_one, abs_zero, Nat.abs_ofNat]))]

def c1xM4 : Fin 8 → Fin 9 → ℚ := ![![-1/10000000000000,0,0,0,0,0,1/1000000000000,0,-10],![-1/10000000000000,-1/10000000000000,0,0,0,0,1/1000000000000,1/1000000000000,-10],![0,0,1,0,0,0,0,0,0],![0,0,0,-1/10000000000000,0,-1,0,0,0],![0,0,0,0,0,-1,0,0,0],![0,0,0,-1/10000000000000,-1/10000000000000,-1,1/1000000000000,1/1000000000000,-10],![0,-1/10000000000000,0,0,0,0,0,0,0],![0,0,0,0,-1/10000000000000,-1,0,1/1000000000000,-10]]

lemma c1xSwap3 : swapRows c1xM3 ⟨3, by omega⟩ ⟨3, by omega⟩ = c1xM4 := by
  funext r c
  fin_cases r <;> fin_cases c <;> rfl

lemma c1xStep3 : gaussStepP c1xM3 ⟨3, by omega⟩ = (c1xM4, false) := by
  unfold gaussStepP
  dsimp only
  have hd : c1xM4 (⟨3, by omega⟩ : Fin 8) (Fin.castSucc ⟨3, by omega⟩) = -1/10000000000000 := by
    norm_num [c1xM4]
  rw [c1xPiv3, c1xSwap3, hd]
  rw [if_pos (by norm_num [abs_div, abs_neg, abs_one, abs_zero, Nat.abs_ofNat])]

lemma c1xChain4 : gaussUpTo 4 c1xM0 = (c1xM4, false) := by
  rw [gaussUpTo_succ_eq, dif_pos (by omega)]
  rw [c1xChain3]
  dsimp only
  rw [c1xStep3]
  rfl

lemma c1xPiv4 : pivotRow c1xM4 ⟨4, by omega⟩ = ⟨5, by omega⟩ := by
  have e0 : c1xM4 0 (Fin.castSucc ⟨4, by omega⟩) = 0 := rfl
  have e1 : c1xM4 1 (Fin.castSucc ⟨4, by omega⟩) = 0 := rfl
  have e2 : c1xM4 2 (Fin.castSucc ⟨4, by omega⟩) = 0 := rfl
  have e3 : c1xM4 3 (Fin.castSucc ⟨4, by omega⟩) = 0 := rfl
  have e4 : c1xM4 ⟨4, by omega⟩ (Fin.castSucc ⟨4, by omega⟩) = 0 := rfl
  have e5 : c1xM4 5 (Fin.castSucc ⟨4, by omega⟩) = -1/10000000000000 := rfl
  have e6 : c1xM4 6 (Fin.castSucc ⟨4, by omega⟩) = 0 := rfl
  have e7 : c1xM4 7 (Fin.castSucc ⟨4, by omega⟩) = -1/10000000000000 := rfl
  rw [pivotRow, show List.finRange 8 = [0, 1, 2, 3, 4, 5, 6, 7] from rfl]
  simp only [List.foldl_cons, List.foldl_nil]
  rw [if_neg (show ¬((⟨4, by omega⟩ : Fin 8).val < (0 : Fin 8).val ∧
        |c1xM4 0 (Fin.castSucc ⟨4, by omega⟩)| > |c1xM4 ⟨4, by omega⟩ (Fin.castSucc ⟨4, by omega⟩)|)
      from fun h => absurd h.1 (by decide)),
    if_neg (show ¬((⟨4, by omega⟩ : Fin 8).val < (1 : Fin 8).val ∧
        |c1xM4 1 (Fin.castSucc ⟨4, by omega⟩)| > |c1xM4 ⟨4, by omega⟩ (Fin.castSucc ⟨4, by omega⟩)|)
      from fun h => absurd h.1 (by decide)),
    if_neg (show ¬((⟨4, by omega⟩ : Fin 8).val < (2 : Fin 8).val ∧
        |c1xM4 2 (Fin.castSucc ⟨4, by omega⟩)| > |c1xM4 ⟨4, by omega⟩ (Fin.castSucc ⟨4, by omega⟩)|)
      from fun h => absurd h.1 (by decide)),
    if_neg (show ¬((⟨4, by omega⟩ : Fin 8).val < (3 : Fin 8).val ∧
        |c1xM4 3 (Fin.castSucc ⟨4, by omega⟩)| > |c1xM4 ⟨4, by omega⟩ (Fin.castSucc ⟨4, by omega⟩)|)
      from fun h => absurd h.1 (by decide)),
    if_neg (show ¬((⟨4, by omega⟩ : Fin 8).val < (4 : Fin 8).val ∧
        |c1xM4 4 (Fin.castSucc ⟨4, by omega⟩)| > |c1xM4 ⟨4, by omega⟩ (Fin.castSucc ⟨4, by omega⟩)|)
      from fun h => absurd h.1 (by decide)),
    if_pos (show (⟨4, by omega⟩ : Fin 8).val < (5 : Fin 8).val ∧
        |c1xM4 5 (Fin.castSucc ⟨4, by omega⟩)| > |c1xM4 ⟨4, by omega⟩ (Fin.castSucc ⟨4, by omega⟩)|
      from ⟨by decide, by rw [e5, e4]; norm_num [abs_div, abs_neg, abs_one, abs_zero, Nat.abs_ofNat]⟩),
    if_neg (show ¬((⟨4, by omega⟩ : Fin 8).val < (6 : Fin 8).val ∧
        |c1xM4 6 (Fin.castSucc ⟨4, by omega⟩)| > |c1xM4 5 (Fin.castSucc ⟨4, by omega⟩)|)
      from fun h => absurd h.2 (by rw [e6, e5]; norm_num [abs_div, abs_neg, abs_one, abs_zero, Nat.abs_ofNat])),
    if_neg (show ¬((⟨4, by omega⟩ : Fin 8).val < (7 : Fin 8).val ∧
        |c1xM4 7 (Fin.castSucc ⟨4, by omega⟩)| > |c1xM4 5 (Fin.castSucc ⟨4, by omega⟩)|)
      from fun h => absurd h.2 (by rw [e7, e5]; norm_num [abs_div, abs_neg, abs_one, abs_zero, Nat.abs_ofNat]))]
  decide

def c1xM5 : Fin 8 → Fin 9 → ℚ := ![![-1/10000000000000,0,0,0,0,0,1/1000000000000,0,-10],![-1/10000000000000,-1/10000000000000,0,0,0,0,1/1000000000000,1/1000000000000,-10],![0,0,1,0,0,0,0,0,0],![0,0,0,-1/10000000000000,0,-1,0,0,0],![0,0,0,-1/10000000000000,-1/10000000000000,-1,1/1000000000000,1/1000000000000,-10],![0,0,0,0,0,-1,0,0,0],![0,-1/10000000000000,0,0,0,0,0,0,0],![0,0,0,0,-1/10000000000000,-1,0,1/1000000000000,-10]]

lemma c1xSwap4 : swapRows c1xM4 ⟨4, by omega⟩ ⟨5, by omega⟩ = c1xM5 := by
  funext r c
  fin_cases r <;> fin_cases c <;> rfl

lemma c1xStep4 : gaussStepP c1xM4 ⟨4, by omega⟩ = (c1xM5, false) := by
  unfold gaussStepP
  dsimp only
  have hd : c1xM5 (⟨4, by omega⟩ : Fin 8) (Fin.castSucc ⟨4, by omega⟩) = -1/10000000000000 := by
    norm_num [c1xM5]
  rw [c1xPiv4, c1xSwap4, hd]
  rw [if_pos (by norm_num [abs_div, abs_neg, abs_one, abs_zero, Nat.abs_ofNat])]

lemma c1xChain5 : gaussUpTo 5 c1xM0 = (c1xM5, false) := by
  rw [gaussUpTo_succ_eq, dif_pos (by omega)]
  rw [c1xChain4]
  dsimp only
  rw [c1xStep4]
  rfl

lemma c1xPiv5 : pivotRow c1xM5 ⟨5, by omega⟩ = ⟨5, by omega⟩ := by
  norm_num [pivotRow, List.finRange, Fin.ext_iff, c1xM5, List.foldl]

def c1xMs5 : Fin 8 → Fin 9 → ℚ := ![![-1/10000000000000,0,0,0,0,0,1/1000000000000,0,-10],![-1/10000000000000,-1/10000000000000,0,0,0,0,1/1000000000000,1/1000000000000,-10],![0,0,1,0,0,0,0,0,0],![0,0,0,-1/10000000000000,0,-1,0,0,0],![0,0,0,-1/10000000000000,-1/10000000000000,-1,1/1000000000000,1/1000000000000,-10],![0,0,0,0,0,-1,0,0,0],![0,-1/10000000000000,0,0,0,0,0,0,0],![0,0,0,0,-1/10000000000000,-1,0,1/1000000000000,-10]]

lemma c1xSwap5 : swapRows c1xM5 ⟨5, by omega⟩ ⟨5, by omega⟩ = c1xMs5 := by
  funext r c
  fin_cases r <;> fin_cases c <;> rfl

def c1xM6 : Fin 8 → Fin 9 → ℚ := ![![-1/10000000000000,0,0,0,0,0,1/1000000000000,0,-10],![-1/10000000000000,-1/10000000000000,0,0,0,0,1/1000000000000,1/1000000000000,-10],![0,0,1,0,0,0,0,0,0],![0,0,0,-1/10000000000000,0,0,0,0,0],![0,0,0,-1/10000000000000,-1/10000000000000,0,1/1000000000000,1/1000000000000,-10],![0,0,0,0,0,1,0,0,0],![0,-1/10000000000000,0,0,0,0,0,0,0],![0,0,0,0,-1/10000000000000,0,0,1/1000000000000,-10]]

lemma c1xElim5 : elimStep c1xMs5 ⟨5, by omega⟩ (-1) = c1xM6 := by
  funext r c
  fin_cases r <;> fin_cases c <;> norm_num [elimStep, Fin.ext_iff, c1xMs5, c1xM6]

lemma c1xStep5 : gaussStepP c1xM5 ⟨5, by omega⟩ = (c1xM6, true) := by
  unfold gaussStepP
  dsimp only
  have hd : c1xMs5 (⟨5, by omega⟩ : Fin 8) (Fin.castSucc ⟨5, by omega⟩) = -1 := by
    norm_num [c1xMs5]
  rw [c1xPiv5, c1xSwap5, hd]
  rw [if_neg (by norm_num), c1xElim5]

lemma c1xChain6 : gaussUpTo 6 c1xM0 = (c1xM6, false) := by
  rw [gaussUpTo_succ_eq, dif_pos (by omega)]
  rw [c1xChain5]
  dsimp only
  rw [c1xStep5]
  rfl

lemma c1xPiv6 : pivotRow c1xM6 ⟨6, by omega⟩ = ⟨6, by omega⟩ := by
  norm_num [pivotRow, List.finRange, Fin.ext_iff, c1xM6, List.foldl]

def c1xM7 : Fin 8 → Fin 9 → ℚ := ![![-1/10000000000000,0,0,0,0,0,1/1000000000000,0,-10],![-1/10000000000000,-1/10000000000000,0,0,0,0,1/1000000000000,1/1000000000000,-10],![0,0,1,0,0,0,0,0,0],![0,0,0,-1/10000000000000,0,0,0,0,0],![0,0,0,-1/10000000000000,-1/10000000000000,0,1/1000000000000,1/1000000000000,-10],![0,0,0,0,0,1,0,0,0],![0,-1/10000000000000,0,0,0,0,0,0,0],![0,0,0,0,-1/10000000000000,0,0,1/1000000000000,-10]]

lemma c1xSwap6 : swapRows c1xM6 ⟨6, by omega⟩ ⟨6, by omega⟩ = c1xM7 := by
  funext r c
  fin_cases r <;> fin_cases c <;> rfl

lemma c1xStep6 : gaussStepP c1xM6 ⟨6, by omega⟩ = (c1xM7, false) := by
  unfold gaussStepP
  dsimp only
  have hd : c1xM7 (⟨6, by omega⟩ : Fin 8) (Fin.castSucc ⟨6, by omega⟩) = 0 := by
    norm_num [c1xM7]
  rw [c1xPiv6, c1xSwap6, hd]
  rw [if_pos (by norm_num)]

lemma c1xChain7 : gaussUpTo 7 c1xM0 = (c1xM7, false) := by
  rw [gaussUpTo_succ_eq, dif_pos (by omega)]
  rw [c1xChain6]
  dsimp only
  rw [c1xStep6]
  rfl

lemma c1xPiv7 : pivotRow c1xM7 ⟨7, by omega⟩ = ⟨7, by omega⟩ := by
  norm_num [pivotRow, List.finRange, Fin.ext_iff, c1xM7, List.foldl]

def c1xMs7 : Fin 8 → Fin 9 → ℚ := ![![-1/10000000000000,0,0,0,0,0,1/1000000000000,0,-10],![-1/10000000000000,-1/10000000000000,0,0,0,0,1/1000000000000,1/1000000000000,-10],![0,0,1,0,0,0,0,0,0],![0,0,0,-1/10000000000000,0,0,0,0,0],![0,0,0,-1/10000000000000,-1/10000000000000,0,1/1000000000000,1/1000000000000,-10],![0,0,0,0,0,1,0,0,0],![0,-1/10000000000000,0,0,0,0,0,0,0],![0,0,0,0,-1/10000000000000,0,0,1/1000000000000,-10]]

lemma c1xSwap7 : swapRows c1xM7 ⟨7, by omega⟩ ⟨7, by omega⟩ = c1xMs7 := by
  funext r c
  fin_cases r <;> fin_cases c <;> rfl

def c1xM8 : Fin 8 → Fin 9 → ℚ := ![![-1/10000000000000,0,0,0,0,0,1/1000000000000,0,-10],![-1/10000000000000,-1/10000000000000,0,0,1/10000000000000,0,1/1000000000000,0,0],![0,0,1,0,0,0,0,0,0],![0,0,0,-1/10000000000000,0,0,0,0,0],![0,0,0,-1/10000000000000,0,0,1/1000000000000,0,0],![0,0,0,0,0,1,0,0,0],![0,-1/10000000000000,0,0,0,0,0,0,0],![0,0,0,0,-1/10,0,0,1,-10000000000000]]

lemma c1xElim7 : elimStep c1xMs7 ⟨7, by omega⟩ (1/1000000000000) = c1xM8 := by
  funext r c
  fin_cases r <;> fin_cases c <;> norm_num [elimStep, Fin.ext_iff, c1xMs7, c1xM8]

lemma c1xStep7 : gaussStepP c1xM7 ⟨7, by omega⟩ = (c1xM8, true) := by
  unfold gaussStepP
  dsimp only
  have hd : c1xMs7 (⟨7, by omega⟩ : Fin 8) (Fin.castSucc ⟨7, by omega⟩) = 1/1000000000000 := by
    norm_num [c1xMs7]
  rw [c1xPiv7, c1xSwap7, hd]
  rw [if_neg (by norm_num [abs_div, abs_neg, abs_one, abs_zero, Nat.abs_ofNat]), c1xElim7]

lemma c1xChain8 : gaussUpTo 8 c1xM0 = (c1xM8, false) := by
  rw [gaussUpTo_succ_eq, dif_pos (by omega)]
  rw [c1xChain7]
  dsimp only
  rw [c1xStep7]
  rfl

lemma c1xOk : gaussOk (homographyAug c1xq (1/10000000000000) (1/10000000000000)) = false := by
  unfold gaussOk
  rw [c1xAug, c1xChain8]

def c1xH : Fin 9 → ℚ := ![-10,0,0,0,0,0,0,-10000000000000,1]

lemma c1xHlem : homographyFromQuad c1xq (1/10000000000000) (1/10000000000000) = c1xH := by
  funext i
  fin_cases i <;> norm_num [homographyFromQuad, gaussSolve, c1xAug, c1xChain8, c1xM8, c1xH, Fin.last]

def c2xq : Quad := ⟨⟨2, 11⟩, ⟨22, 21⟩, ⟨10, 15⟩, ⟨38, 29⟩⟩

def c2xM0 : Fin 8 → Fin 9 → ℚ := ![![0,0,-1,0,0,0,0,0,-2],![0,0,0,0,0,-1,0,0,-11],![-16,0,-1,0,0,0,352,0,-22],![0,0,0,-16,0,-1,336,0,-21],![-16,-16,-1,0,0,0,160,160,-10],![0,0,0,-16,-16,-1,240,240,-15],![0,-16,-1,0,0,0,0,608,-38],![0,0,0,0,-16,-1,0,464,-29]]

lemma c2xAug : homographyAug c2xq 16 16 = c2xM0 := by
  funext r c
  fin_cases r <;> fin_cases c <;> norm_num [homographyAug, srcPt, dstPt, c2xq, c2xM0]

lemma c2xPiv0 : pivotRow c2xM0 ⟨0, by omega⟩ = ⟨2, by omega⟩ := by
  norm_num [pivotRow, List.finRange, Fin.ext_iff, c2xM0, List.foldl]

def c2xMs0 : Fin 8 → Fin 9 → ℚ := ![![-16,0,-1,0,0,0,352,0,-22],![0,0,0,0,0,-1,0,0,-11],![0,0,-1,0,0,0,0,0,-2],![0,0,0,-16,0,-1,336,0,-21],![-16,-16,-1,0,0,0,160,160,-10],![0,0,0,-16,-16,-1,240,240,-15],![0,-16,-1,0,0,0,0,608,-38],![0,0,0,0,-16,-1,0,464,-29]]

lemma c2xSwap0 : swapRows c2xM0 ⟨0, by omega⟩ ⟨2, by omega⟩ = c2xMs0 := by
  funext r c
  fin_cases r <;> fin_cases c <;> rfl

def c2xM1 : Fin 8 → Fin 9 → ℚ := ![![1,0,1/16,0,0,0,-22,0,11/8],![0,0,0,0,0,-1,0,0,-11],![0,0,-1,0,0,0,0,0,-2],![0,0,0,-16,0,-1,336,0,-21],![0,-16,0,0,0,0,-192,160,12],![0,0,0,-16,-16,-1,240,240,-15],![0,-16,-1,0,0,0,0,608,-38],![0,0,0,0,-16,-1,0,464,-29]]

lemma c2xElim0 : elimStep c2xMs0 ⟨0, by omega⟩ (-16) = c2xM1 := by
  funext r c
  fin_cases r <;> fin_cases c <;> norm_num [elimStep, Fin.ext_iff, c2xMs0, c2xM1]

lemma c2xStep0 : gaussStepP c2xM0 ⟨0, by omega⟩ = (c2xM1, true) := by
  unfold gaussStepP
  dsimp only
  have hd : c2xMs0 (⟨0, by omega⟩ : Fin 8) (Fin.castSucc ⟨0, by omega⟩) = -16 := by
    norm_num [c2xMs0]
  rw [c2xPiv0, c2xSwap0, hd]
  rw [if_neg (by norm_num), c2xElim0]

lemma c2xChain1 : gaussUpTo 1 c2xM0 = (c2xM1, true) := by
  rw [gaussUpTo_succ_eq, dif_pos (by omega)]
  rw [show gaussUpTo 0 c2xM0 = (c2xM0, true) from rfl]
  dsimp only
  rw [c2xStep0]
  rfl

lemma c2xPiv1 : pivotRow c2xM1 ⟨1, by omega⟩ = ⟨4, by omega⟩ := by
  norm_num [pivotRow, List.finRange, Fin.ext_iff, c2xM1, List.foldl]

def c2xMs1 : Fin 8 → Fin 9 → ℚ := ![![1,0,1/16,0,0,0,-22,0,11/8],![0,-16,0,0,0,0,-192,160,12],![0,0,-1,0,0,0,0,0,-2],![0,0,0,-16,0,-1,336,0,-21],![0,0,0,0,0,-1,0,0,-11],![0,0,0,-16,-16,-1,240,240,-15],![0,-16,-1,0,0,0,0,608,-38],![0,0,0,0,-16,-1,0,464,-29]]

lemma c2xSwap1 : swapRows c2xM1 ⟨1, by omega⟩ ⟨4, by omega⟩ = c2xMs1 := by
  funext r c
  fin_cases r <;> fin_cases c <;> rfl

def c2xM2 : Fin 8 → Fin 9 → ℚ := ![![1,0,1/16,0,0,0,-22,0,11/8],![0,1,0,0,0,0,12,-10,-3/4],![0,0,-1,0,0,0,0,0,-2],![0,0,0,-16,0,-1,336,0,-21],![0,0,0,0,0,-1,0,0,-11],![0,0,0,-16,-16,-1,240,240,-15],![0,0,-1,0,0,0,192,448,-50],![0,0,0,0,-16,-1,0,464,-29]]

lemma c2xElim1 : elimStep c2xMs1 ⟨1, by omega⟩ (-16) = c2xM2 := by
  funext r c
  fin_cases r <;> fin_cases c <;> norm_num [elimStep, Fin.ext_iff, c2xMs1, c2xM2]

lemma c2xStep1 : gaussStepP c2xM1 ⟨1, by omega⟩ = (c2xM2, true) := by
  unfold gaussStepP
  dsimp only
  have hd : c2xMs1 (⟨1, by omega⟩ : Fin 8) (Fin.castSucc ⟨1, by omega⟩) = -16 := by
    norm_num [c2xMs1]
  rw [c2xPiv1, c2xSwap1, hd]
  rw [if_neg (by norm_num), c2xElim1]

lemma c2xChain2 : gaussUpTo 2 c2xM0 = (c2xM2, true) := by
  rw [gaussUpTo_succ_eq, dif_pos (by omega)]
  rw [c2xChain1]
  dsimp only
  rw [c2xStep1]
  rfl

lemma c2xPiv2 : pivotRow c2xM2 ⟨2, by omega⟩ = ⟨2, by omega⟩ := by
  norm_num [pivotRow, List.finRange, Fin.ext_iff, c2xM2, List.foldl]

def c2xMs2 : Fin 8 → Fin 9 → ℚ := ![![1,0,1/16,0,0,0,-22,0,11/8],![0,1,0,0,0,0,12,-10,-3/4],![0,0,-1,0,0,0,0,0,-2],![0,0,0,-16,0,-1,336,0,-21],![0,0,0,0,0,-1,0,0,-11],![0,0,0,-16,-16,-1,240,240,-15],![0,0,-1,0,0,0,192,448,-50],![0,0,0,0,-16,-1,0,464,-29]]

lemma c2xSwap2 : swapRows c2xM2 ⟨2, by omega⟩ ⟨2, by omega⟩ = c2xMs2 := by
  funext r c
  fin_cases r <;> fin_cases c <;> rfl

def c2xM3 : Fin 8 → Fin 9 → ℚ := ![![1,0,0,0,0,0,-22,0,5/4],![0,1,0,0,0,0,12,-10,-3/4],![0,0,1,0,0,0,0,0,2],![0,0,0,-16,0,-1,336,0,-21],![0,0,0,0,0,-1,0,0,-11],![0,0,0,-16,-16,-1,240,240,-15],![0,0,0,0,0,0,192,448,-48],![0,0,0,0,-16,-1,0,464,-29]]

lemma c2xElim2 : elimStep c2xMs2 ⟨2, by omega⟩ (-1) = c2xM3 := by
  funext r c
  fin_cases r <;> fin_cases c <;> norm_num [elimStep, Fin.ext_iff, c2xMs2, c2xM3]

lemma c2xStep2 : gaussStepP c2xM2 ⟨2, by omega⟩ = (c2xM3, true) := by
  unfold gaussStepP
  dsimp only
  have hd : c2xMs2 (⟨2, by omega⟩ : Fin 8) (Fin.castSucc ⟨2, by omega⟩) = -1 := by
    norm_num [c2xMs2]
  rw [c2xPiv2, c2xSwap2, hd]
  rw [if_neg (by norm_num), c2xElim2]

lemma c2xChain3 : gaussUpTo 3 c2xM0 = (c2xM3, true) := by
  rw [gaussUpTo_succ_eq, dif_pos (by omega)]
  rw [c2xChain2]
  dsimp only
  rw [c2xStep2]
  rfl

lemma c2xPiv3 : pivotRow c2xM3 ⟨3, by omega⟩ = ⟨3, by omega⟩ := by
  norm_num [pivotRow, List.finRange, Fin.ext_iff, c2xM3, List.foldl]

def c2xMs3 : Fin 8 → Fin 9 → ℚ := ![![1,0,0,0,0,0,-22,0,5/4],![0,1,0,0,0,0,12,-10,-3/4],![0,0,1,0,0,0,0,0,2],![0,0,0,-16,0,-1,336,0,-21],![0,0,0,0,0,-1,0,0,-11],![0,0,0,-16,-16,-1,240,240,-15],![0,0,0,0,0,0,192,448,-48],![0,0,0,0,-16,-1,0,464,-29]]

lemma c2xSwap3 : swapRows c2xM3 ⟨3, by omega⟩ ⟨3, by omega⟩ = c2xMs3 := by
  funext r c
  fin_cases r <;> fin_cases c <;> rfl

def c2xM4 : Fin 8 → Fin 9 → ℚ := ![![1,0,0,0,0,0,-22,0,5/4],![0,1,0,0,0,0,12,-10,-3/4],![0,0,1,0,0,0,0,0,2],![0,0,0,1,0,1/16,-21,0,21/16],![0,0,0,0,0,-1,0,0,-11],![0,0,0,0,-16,0,-96,240,6],![0,0,0,0,0,0,192,448,-48],![0,0,0,0,-16,-1,0,464,-29]]

lemma c2xElim3 : elimStep c2xMs3 ⟨3, by omega⟩ (-16) = c2xM4 := by
  funext r c
  fin_cases r <;> fin_cases c <;> norm_num [elimStep, Fin.ext_iff, c2xMs3, c2xM4]

lemma c2xStep3 : gaussStepP c2xM3 ⟨3, by omega⟩ = (c2xM4, true) := by
  unfold gaussStepP
  dsimp only
  have hd : c2xMs3 (⟨3, by omega⟩ : Fin 8) (Fin.castSucc ⟨3, by omega⟩) = -16 := by
    norm_num [c2xMs3]
  rw [c2xPiv3, c2xSwap3, hd]
  rw [if_neg (by norm_num), c2xElim3]

lemma c2xChain4 : gaussUpTo 4 c2xM0 = (c2xM4, true) := by
  rw [gaussUpTo_succ_eq, dif_pos (by omega)]
  rw [c2xChain3]
  dsimp only
  rw [c2xStep3]
  rfl

lemma c2xPiv4 : pivotRow c2xM4 ⟨4, by omega⟩ = ⟨5, by omega⟩ := by
  norm_num [pivotRow, List.finRange, Fin.ext_iff, c2xM4, List.foldl]

def c2xMs4 : Fin 8 → Fin 9 → ℚ := ![![1,0,0,0,0,0,-22,0,5/4],![0,1,0,0,0,0,12,-10,-3/4],![0,0,1,0,0,0,0,0,2],![0,0,0,1,0,1/16,-21,0,21/16],![0,0,0,0,-16,0,-96,240,6],![0,0,0,0,0,-1,0,0,-11],![0,0,0,0,0,0,192,448,-48],![0,0,0,0,-16,-1,0,464,-29]]

lemma c2xSwap4 : swapRows c2xM4 ⟨4, by omega⟩ ⟨5, by omega⟩ = c2xMs4 := by
  funext r c
  fin_cases r <;> fin_cases c <;> rfl

def c2xM5 : Fin 8 → Fin 9 → ℚ := ![![1,0,0,0,0,0,-22,0,5/4],![0,1,0,0,0,0,12,-10,-3/4],![0,0,1,0,0,0,0,0,2],![0,0,0,1,0,1/16,-21,0,21/16],![0,0,0,0,1,0,6,-15,-3/8],![0,0,0,0,0,-1,0,0,-11],![0,0,0,0,0,0,192,448,-48],![0,0,0,0,0,-1,96,224,-35]]

lemma c2xElim4 : elimStep c2xMs4 ⟨4, by omega⟩ (-16) = c2xM5 := by
  funext r c
  fin_cases r <;> fin_cases c <;> norm_num [elimStep, Fin.ext_iff, c2xMs4, c2xM5]

lemma c2xStep4 : gaussStepP c2xM4 ⟨4, by omega⟩ = (c2xM5, true) := by
  unfold gaussStepP
  dsimp only
  have hd : c2xMs4 (⟨4, by omega⟩ : Fin 8) (Fin.castSucc ⟨4, by omega⟩) = -16 := by
    norm_num [c2xMs4]
  rw [c2xPiv4, c2xSwap4, hd]
  rw [if_neg (by norm_num), c2xElim4]

lemma c2xChain5 : gaussUpTo 5 c2xM0 = (c2xM5, true) := by
  rw [gaussUpTo_succ_eq, dif_pos (by omega)]
  rw [c2xChain4]
  dsimp only
  rw [c2xStep4]
  rfl

lemma c2xPiv5 : pivotRow c2xM5 ⟨5, by omega⟩ = ⟨5, by omega⟩ := by
  norm_num [pivotRow, List.finRange, Fin.ext_iff, c2xM5, List.foldl]

def c2xMs5 : Fin 8 → Fin 9 → ℚ := ![![1,0,0,0,0,0,-22,0,5/4],![0,1,0,0,0,0,12,-10,-3/4],![0,0,1,0,0,0,0,0,2],![0,0,0,1,0,1/16,-21,0,21/16],![0,0,0,0,1,0,6,-15,-3/8],![0,0,0,0,0,-1,0,0,-11],![0,0,0,0,0,0,192,448,-48],![0,0,0,0,0,-1,96,224,-35]]

lemma c2xSwap5 : swapRows c2xM5 ⟨5, by omega⟩ ⟨5, by omega⟩ = c2xMs5 := by
  funext r c
  fin_cases r <;> fin_cases c <;> rfl

def c2xM6 : Fin 8 → Fin 9 → ℚ := ![![1,0,0,0,0,0,-22,0,5/4],![0,1,0,0,0,0,12,-10,-3/4],![0,0,1,0,0,0,0,0,2],![0,0,0,1,0,0,-21,0,5/8],![0,0,0,0,1,0,6,-15,-3/8],![0,0,0,0,0,1,0,0,11],![0,0,0,0,0,0,192,448,-48],![0,0,0,0,0,0,96,224,-24]]

lemma c2xElim5 : elimStep c2xMs5 ⟨5, by omega⟩ (-1) = c2xM6 := by
  funext r c
  fin_cases r <;> fin_cases c <;> norm_num [elimStep, Fin.ext_iff, c2xMs5, c2xM6]

lemma c2xStep5 : gaussStepP c2xM5 ⟨5, by omega⟩ = (c2xM6, true) := by
  unfold gaussStepP
  dsimp only
  have hd : c2xMs5 (⟨5, by omega⟩ : Fin 8) (Fin.castSucc ⟨5, by omega⟩) = -1 := by
    norm_num [c2xMs5]
  rw [c2xPiv5, c2xSwap5, hd]
  rw [if_neg (by norm_num), c2xElim5]

lemma c2xChain6 : gaussUpTo 6 c2xM0 = (c2xM6, true) := by
  rw [gaussUpTo_succ_eq, dif_pos (by omega)]
  rw [c2xChain5]
  dsimp only
  rw [c2xStep5]
  rfl

lemma c2xPiv6 : pivotRow c2xM6 ⟨6, by omega⟩ = ⟨6, by omega⟩ := by
  norm_num [pivotRow, List.finRange, Fin.ext_iff, c2xM6, List.foldl]

def c2xMs6 : Fin 8 → Fin 9 → ℚ := ![![1,0,0,0,0,0,-22,0,5/4],![0,1,0,0,0,0,12,-10,-3/4],![0,0,1,0,0,0,0,0,2],![0,0,0,1,0,0,-21,0,5/8],![0,0,0,0,1,0,6,-15,-3/8],![0,0,0,0,0,1,0,0,11],![0,0,0,0,0,0,192,448,-48],![0,0,0,0,0,0,96,224,-24]]

lemma c2xSwap6 : swapRows c2xM6 ⟨6, by omega⟩ ⟨6, by omega⟩ = c2xMs6 := by
  funext r c
  fin_cases r <;> fin_cases c <;> rfl

def c2xM7 : Fin 8 → Fin 9 → ℚ := ![![1,0,0,0,0,0,0,154/3,-17/4],![0,1,0,0,0,0,0,-38,9/4],![0,0,1,0,0,0,0,0,2],![0,0,0,1,0,0,0,49,-37/8],![0,0,0,0,1,0,0,-29,9/8],![0,0,0,0,0,1,0,0,11],![0,0,0,0,0,0,1,7/3,-1/4],![0,0,0,0,0,0,0,0,0]]

lemma c2xElim6 : elimStep c2xMs6 ⟨6, by omega⟩ 192 = c2xM7 := by
  funext r c
  fin_cases r <;> fin_cases c <;> norm_num [elimStep, Fin.ext_iff, c2xMs6, c2xM7]

lemma c2xStep6 : gaussStepP c2xM6 ⟨6, by omega⟩ = (c2xM7, true) := by
  unfold gaussStepP
  dsimp only
  have hd : c2xMs6 (⟨6, by omega⟩ : Fin 8) (Fin.castSucc ⟨6, by omega⟩) = 192 := by
    norm_num [c2xMs6]
  rw [c2xPiv6, c2xSwap6, hd]
  rw [if_neg (by norm_num), c2xElim6]

lemma c2xChain7 : gaussUpTo 7 c2xM0 = (c2xM7, true) := by
  rw [gaussUpTo_succ_eq, dif_pos (by omega)]
  rw [c2xChain6]
  dsimp only
  rw [c2xStep6]
  rfl

lemma c2xPiv7 : pivotRow c2xM7 ⟨7, by omega⟩ = ⟨7, by omega⟩ := by
  norm_num [pivotRow, List.finRange, Fin.ext_iff, c2xM7, List.foldl]

def c2xM8 : Fin 8 → Fin 9 → ℚ := ![![1,0,0,0,0,0,0,154/3,-17/4],![0,1,0,0,0,0,0,-38,9/4],![0,0,1,0,0,0,0,0,2],![0,0,0,1,0,0,0,49,-37/8],![0,0,0,0,1,0,0,-29,9/8],![0,0,0,0,0,1,0,0,11],![0,0,0,0,0,0,1,7/3,-1/4],![0,0,0,0,0,0,0,0,0]]

lemma c2xSwap7 : swapRows c2xM7 ⟨7, by omega⟩ ⟨7, by omega⟩ = c2xM8 := by
  funext r c
  fin_cases r <;> fin_cases c <;> rfl

lemma c2xStep7 : gaussStepP c2xM7 ⟨7, by omega⟩ = (c2xM8, false) := by
  unfold gaussStepP
  dsimp only
  have hd : c2xM8 (⟨7, by omega⟩ : Fin 8) (Fin.castSucc ⟨7, by omega⟩) = 0 := by
    norm_num [c2xM8]
  rw [c2xPiv7, c2xSwap7, hd]
  rw [if_pos (by norm_num)]

lemma c2xChain8 : gaussUpTo 8 c2xM0 = (c2xM8, false) := by
  rw [gaussUpTo_succ_eq, dif_pos (by omega)]
  rw [c2xChain7]
  dsimp only
  rw [c2xStep7]
  rfl

lemma c2xOk : gaussOk (homographyAug c2xq 16 16) = false := by
  unfold gaussOk
  rw [c2xAug, c2xChain8]

def c2xH : Fin 9 → ℚ := ![-17/4,9/4,2,-37/8,9/8,11,-1/4,0,1]

lemma c2xHlem : homographyFromQuad c2xq 16 16 = c2xH := by
  funext i
  fin_cases i <;> norm_num [homographyFromQuad, gaussSolve, c2xAug, c2xChain8, c2xM8, c2xH, Fin.last]


/-! ### C2: the subdivided warp `drawQuadWarp` -/

/-- One affine `drawImage` command emitted by `drawTriangleWarp`
(part_003, lines 329–354): the destination clip triangle and the affine
matrix `(a, b, c, d, e, f)` passed to `setTransform`. -/
structure TriDraw where
  dx0 : ℚ
  dy0 : ℚ
  dx1 : ℚ
  dy1 : ℚ
  dx2 : ℚ
  dy2 : ℚ
  a : ℚ
  b : ℚ
  c : ℚ
  d : ℚ
  e : ℚ
  f : ℚ

/-- Function `drawTriangleWarp` (part_003, lines 329–354): `none` (no
`drawImage`, destination buffer untouched) when the source triangle is
degenerate (`|denom| < 1e-10`), else the emitted draw command. -/
def drawTriangleWarp (dx0 dy0 dx1 dy1 dx2 dy2 sx0 sy0 sx1 sy1 sx2 sy2 : ℚ) : Option TriDraw :=
  let denom := (sx1 - sx0) * (sy2 - sy0) - (sy1 - sy0) * (sx2 - sx0)
  if |denom| < 1 / 10000000000 then none
  else
    let a := ((dx1 - dx0) * (sy2 - sy0) - (dx2 - dx0) * (sy1 - sy0)) / denom
    let b := ((dx2 - dx0) * (sx1 - sx0) - (dx1 - dx0) * (sx2 - sx0)) / denom
    let c := ((dy1 - dy0) * (sy2 - sy0) - (dy2 - dy0) * (sy1 - sy0)) / denom
    let d := ((dy2 - dy0) * (sx1 - sx0) - (dy1 - dy0) * (sx2 - sx0)) / denom
    some ⟨dx0, dy0, dx1, dy1, dx2, dy2, a, b, c, d, dx0 - a * sx0 - b * sy0, dy0 - c * sx0 - d * sy0⟩

/-- Constant `HOMOGRAPHY_SUBDIV` (part_003): the warp grid subdivision
count. -/
def HOMOGRAPHY_SUBDIV : ℕ := 32

/-- The two triangles drawn for grid cell `(ix, iy)` of the
`drawQuadWarp` loop body (part_003, lines 370–376). -/
def warpCell (H : Fin 9 → ℚ) (stepX stepY : ℚ) (ix iy : ℕ) : List TriDraw :=
  let s0 := ix * stepX
  let t0 := iy * stepY
  let s1 := (ix + 1) * stepX
  let t1 := (iy + 1) * stepY
  let d00 := homographyMap H s0 t0
  let d10 := homographyMap H s1 t0
  let d11 := homographyMap H s1 t1
  let d01 := homographyMap H s0 t1
  (drawTriangleWarp d00.1 d00.2 d10.1 d10.2 d11.1 d11.2 s0 t0 s1 t0 s1 t1).toList ++
  (drawTriangleWarp d00.1 d00.2 d11.1 d11.2 d01.1 d01.2 s0 t0 s1 t1 s0 t1).toList

/-- Function `drawQuadWarp` (part_003, lines 359–378): the list of
`drawImage` commands emitted over the 32×32 source grid. -/
def drawQuadWarp (destQuad : Quad) (sourceWidth sourceHeight : ℚ) : List TriDraw :=
  let H := homographyFromQuad destQuad sourceWidth sourceHeight
  let n := HOMOGRAPHY_SUBDIV
  let stepX := sourceWidth / n
  let stepY := sourceHeight / n
  (List.range n).flatMap fun iy =>
    (List.range n).flatMap fun ix =>
      warpCell H stepX stepY ix iy

/-- Twice the signed area of the destination clip triangle of a draw
command: nonzero means the clip region has nonempty interior, so the
`drawImage` changes destination pixels. -/
def destCross (t : TriDraw) : ℚ :=
  (t.dx1 - t.dx0) * (t.dy2 - t.dy0) - (t.dy1 - t.dy0) * (t.dx2 - t.dx0)

/-- Twice the signed area of the triangle `p q r`. -/
def cross2 (p q r : Point2D) : ℚ :=
  (q.x - p.x) * (r.y - p.y) - (q.y - p.y) * (r.x - p.x)

lemma c2xCell : warpCell c2xH (16 / (HOMOGRAPHY_SUBDIV : ℚ)) (16 / (HOMOGRAPHY_SUBDIV : ℚ)) 7 0 =
    [⟨-103, -83/2, 0, 0, 0, 0, 206, 0, 83, 0, -824, -332⟩,
     ⟨-103, -83/2, 0, 0, -94, -37, 188, 18, 74, 9, -761, -601/2⟩] := by
  norm_num [warpCell, homographyMap, drawTriangleWarp, HOMOGRAPHY_SUBDIV, Option.toList,
    show c2xH 0 = -17/4 from rfl, show c2xH 1 = 9/4 from rfl, show c2xH 2 = 2 from rfl,
    show c2xH 3 = -37/8 from rfl, show c2xH 4 = 9/8 from rfl, show c2xH 5 = 11 from rfl,
    show c2xH 6 = -1/4 from rfl, show c2xH 7 = 0 from rfl, show c2xH 8 = 1 from rfl,
    abs_div, abs_neg, abs_one, abs_zero, Nat.abs_ofNat]

/-- C1 (counterexample): the destination quad `(0,0), (10,0), (10,10),
(0,10)` is strictly convex (non-degenerate and simple) and the source
size `1e-13 × 1e-13` is positive, yet the elimination skips five columns
(`gaussOk = false`) and `homographyMap` sends the source corner
`(srcW, 0)` to a point about 10 px away from the destination corner
`(10, 0)` — far outside the claimed 1 px tolerance. -/
theorem homography_corner_misses :
    (0 : ℚ) < 1 / 10000000000000 ∧
    (0 < cross2 c1xq.p0 c1xq.p1 c1xq.p2 ∧ 0 < cross2 c1xq.p1 c1xq.p2 c1xq.p3 ∧
     0 < cross2 c1xq.p2 c1xq.p3 c1xq.p0 ∧ 0 < cross2 c1xq.p3 c1xq.p0 c1xq.p1) ∧
    gaussOk (homographyAug c1xq (1 / 10000000000000) (1 / 10000000000000)) = false ∧
    homographyFromQuad c1xq (1 / 10000000000000) (1 / 10000000000000) 8 = 1 ∧
    1 < |(homographyMap (homographyFromQuad c1xq (1 / 10000000000000) (1 / 10000000000000))
          (srcPt (1 / 10000000000000) (1 / 10000000000000) 1).1
          (srcPt (1 / 10000000000000) (1 / 10000000000000) 1).2).1 - (dstPt c1xq 1).1| := by
  refine ⟨by norm_num,
    ⟨by norm_num [cross2, c1xq], by norm_num [cross2, c1xq],
     by norm_num [cross2, c1xq], by norm_num [cross2, c1xq]⟩, c1xOk, rfl, ?_⟩
  rw [c1xHlem]
  norm_num [homographyMap, srcPt, dstPt, c1xq,
    show c1xH 0 = -10 from rfl, show c1xH 1 = 0 from rfl, show c1xH 2 = 0 from rfl,
    show c1xH 3 = 0 from rfl, show c1xH 4 = 0 from rfl, show c1xH 5 = 0 from rfl,
    show c1xH 6 = 0 from rfl, show c1xH 7 = -10000000000000 from rfl,
    show c1xH 8 = 1 from rfl,
    abs_div, abs_neg, abs_one, abs_zero, Nat.abs_ofNat]

/-- C1 (witness): for the unit-square destination quad with a 1×1 source
the elimination succeeds, both side conditions of
`homographyFromQuad_maps_corners` hold, and corner `(srcW, 0)` maps
exactly onto the destination corner. -/
theorem homographyFromQuad_maps_corners_witness :
    homographyMap (homographyFromQuad c1wq 1 1) (srcPt 1 1 1).1 (srcPt 1 1 1).2 = dstPt c1wq 1 := by
  have hok : gaussOk (homographyAug c1wq 1 1) = true := c1wOk
  have hw : ∀ i, i < 4 → 1 / 1000000000 ≤
      |cornerW (homographyFromQuad c1wq 1 1) (srcPt 1 1 i).1 (srcPt 1 1 i).2| := by
    intro i hi
    rw [c1wHlem]
    interval_cases i <;> norm_num [cornerW, srcPt,
      show c1wH 6 = 0 from rfl, show c1wH 7 = 0 from rfl, show c1wH 8 = 1 from rfl,
      abs_div, abs_neg, abs_one, abs_zero, Nat.abs_ofNat]
  exact ((homographyFromQuad_maps_corners c1wq 1 1 hok hw).2 1 (by norm_num)).1

/-- C2: refuted — code bug. For the fully degenerate destination quad
`(2,11), (22,21), (10,15), (38,29)` (all four corners collinear: every
corner triple spans zero area) and a 16×16 source, `drawQuadWarp` emits a
`drawImage` command whose destination clip triangle has nonzero area
(twice-area 90): the `|w| < 1e-9` guard of `homographyMap` fabricates
`(0, 0)` fallback corners off the degenerate line, so the destination
buffer is not left unchanged. -/
theorem drawQuadWarp_draws_degenerate :
    (cross2 c2xq.p0 c2xq.p1 c2xq.p2 = 0 ∧ cross2 c2xq.p0 c2xq.p1 c2xq.p3 = 0 ∧
     cross2 c2xq.p0 c2xq.p2 c2xq.p3 = 0 ∧ cross2 c2xq.p1 c2xq.p2 c2xq.p3 = 0) ∧
    ∃ t ∈ drawQuadWarp c2xq 16 16, destCross t ≠ 0 := by
  refine ⟨⟨by norm_num [cross2, c2xq], by norm_num [cross2, c2xq],
    by norm_num [cross2, c2xq], by norm_num [cross2, c2xq]⟩,
    ⟨-103, -83/2, 0, 0, -94, -37, 188, 18, 74, 9, -761, -601/2⟩, ?_, by norm_num [destCross]⟩
  unfold drawQuadWarp
  dsimp only
  rw [c2xHlem]
  refine List.mem_flatMap.mpr ⟨0, by decide, ?_⟩
  show _ ∈ (List.range HOMOGRAPHY_SUBDIV).flatMap fun ix =>
    warpCell c2xH (16 / (HOMOGRAPHY_SUBDIV : ℚ)) (16 / (HOMOGRAPHY_SUBDIV : ℚ)) ix 0
  refine List.mem_flatMap.mpr ⟨7, by decide, ?_⟩
  show _ ∈ warpCell c2xH (16 / (HOMOGRAPHY_SUBDIV : ℚ)) (16 / (HOMOGRAPHY_SUBDIV : ℚ)) 7 0
  rw [c2xCell]
  exact List.mem_cons_of_mem _ (List.mem_singleton.mpr rfl)
